import Mathlib

/-!
# Audio engine of naev: source pool, voices, groups and the music thread

Shallow embedding of `src/sound.c` and `src/music.c`.

Modelling conventions.

* The module-level globals of `sound.c` are the fields of `SoundState`.
* A C array together with its element count is a `List` (`sound_list`,
  `source_total`, `al_groups`); `source_stack` keeps its whole allocated
  length (`source_mstack` is its length) and `source_nstack` is a separate
  signed counter, as in the source, so stale entries above the counter stay
  visible.
* The intrusive doubly linked voice lists (`prev` / `next`) are Lean lists in
  link order, head first.  A `alVoice*` obtained from `voice_new` is the head
  of `voice_pool`; writes through that pointer are writes to the head.
* `int` counters that are incremented without bound are wrapped to 32 bits
  (`wrapInt32`).
* The OpenAL backend is an explicit value: a per-source record of the
  properties the engine sets, and the log of the mutating calls issued so far.
  Locks and `al_checkErr` have no effect in this sequential model.
* `ALfloat` / `double` quantities are rationals (reals where `tanh` or a real
  power is involved).  The store to a `float` / `ALfloat` variable rounds to
  single precision (`toALfloat`) for the linear volumes and for the samples
  of the replaygain filter, whose stored values the statements compare with
  the values put in; elsewhere the arithmetic is exact.
-/

namespace Naev

/-! ## Machine integers -/

/-- Value of a C `int` after an arithmetic result is reduced to 32 bits. -/
def wrapInt32 (x : Int) : Int := (x + 2147483648) % 4294967296 - 2147483648

/-- Value of a C `unsigned int` after an arithmetic result is reduced to 32 bits. -/
def wrapUInt32 (x : Int) : Int := x % 4294967296

/-! ## Single-precision numbers -/

/-- Round to the nearest integer, a tie going to the even one. -/
def roundHalfEven {K : Type} [LinearOrderedField K] [FloorRing K] (y : K) : Int :=
  if y - ⌊y⌋ < 1 / 2 then ⌊y⌋
  else if 1 / 2 < y - ⌊y⌋ then ⌊y⌋ + 1
  else if ⌊y⌋ % 2 = 0 then ⌊y⌋ else ⌊y⌋ + 1

/-- The distance between neighbouring single-precision numbers at `x`:
`2^(e-23)` for `2^e <= |x| < 2^(e+1)`, the exponent `e` being taken no lower
than -126 (below that the numbers are subnormal). -/
def floatSpacing {K : Type} [LinearOrderedField K] [FloorRing K] (x : K) : K :=
  (2 : K) ^ (max (Int.log 2 |x|) (-126) - 23)

/-- The conversion of a value to the type `float` (`ALfloat`), as done by an
assignment to a variable of that type: the nearest single-precision number
(IEEE 754 binary32), a tie going to the even significand.  The exponent has
no upper limit here: the overflow to infinity beyond the largest finite
`float` is left out. -/
def toALfloat {K : Type} [LinearOrderedField K] [FloorRing K] (x : K) : K :=
  (roundHalfEven (x / floatSpacing x) : K) * floatSpacing x

/-- The single-precision numbers: an integer significand below `2^24` in
absolute value times a power of two no lower than `2^-149`. -/
def isALfloat {K : Type} [LinearOrderedField K] (x : K) : Prop :=
  ∃ n e : Int, |n| < 2 ^ 24 ∧ -149 ≤ e ∧ x = (n : K) * (2 : K) ^ e

/-! ## OpenAL backend -/

/-- Values of `AL_SOURCE_STATE`. -/
inductive ALState where
  | AL_INITIAL
  | AL_PLAYING
  | AL_PAUSED
  | AL_STOPPED
  deriving DecidableEq, Repr

/-- The properties of one OpenAL source that the engine reads or writes. -/
structure ALSource where
  state : ALState
  buffer : Nat
  relative : Bool
  looping : Bool
  gain : ℚ
  pos : ℚ × ℚ × ℚ
  vel : ℚ × ℚ × ℚ
  deriving DecidableEq

/-- Mutating OpenAL calls, as they are issued by the engine. -/
inductive ALCall where
  | SourcePlay (s : Nat)
  | SourceStop (s : Nat)
  | SourcePause (s : Nat)
  | SetBuffer (s : Nat) (b : Nat)
  | SetRelative (s : Nat) (r : Bool)
  | SetLooping (s : Nat) (l : Bool)
  | SetGain (s : Nat) (g : ℚ)
  | SetPosition (s : Nat) (p : ℚ × ℚ × ℚ)
  | SetVelocity (s : Nat) (p : ℚ × ℚ × ℚ)
  | SetAirAbsorption (s : Nat) (a : ℚ)
  | ClearAuxSend (s : Nat)
  deriving DecidableEq

/-- The backend: the record of every source, and the calls issued so far
(oldest first). -/
structure Backend where
  src : Nat → ALSource
  calls : List ALCall

/-- Update the record of source `s`. -/
def Backend.modify (al : Backend) (s : Nat) (f : ALSource → ALSource) (c : ALCall) : Backend :=
  { src := fun x => if x = s then f (al.src x) else al.src x
    calls := al.calls ++ [c] }

/-- The OpenAL call `alGetSourcei( s, AL_SOURCE_STATE, &state )`. -/
def alGetSourceState (al : Backend) (s : Nat) : ALState := (al.src s).state

/-- The OpenAL call `alSourcePlay( s )`: the source plays (from the start unless it was paused). -/
def alSourcePlay (al : Backend) (s : Nat) : Backend :=
  al.modify s (fun r => { r with state := ALState.AL_PLAYING }) (ALCall.SourcePlay s)

/-- The OpenAL call `alSourceStop( s )`: a legal no-op on a source in the initial state,
otherwise the source is stopped. -/
def alSourceStop (al : Backend) (s : Nat) : Backend :=
  al.modify s
    (fun r => if r.state = ALState.AL_INITIAL then r else { r with state := ALState.AL_STOPPED })
    (ALCall.SourceStop s)

/-- The OpenAL call `alSourcePause( s )`: only a playing source becomes paused. -/
def alSourcePause (al : Backend) (s : Nat) : Backend :=
  al.modify s
    (fun r => if r.state = ALState.AL_PLAYING then { r with state := ALState.AL_PAUSED } else r)
    (ALCall.SourcePause s)

/-- The OpenAL call `alSourcei( s, AL_BUFFER, b )`. -/
def alSourceBuffer (al : Backend) (s b : Nat) : Backend :=
  al.modify s (fun r => { r with buffer := b }) (ALCall.SetBuffer s b)

/-- The OpenAL call `alSourcei( s, AL_SOURCE_RELATIVE, r )`. -/
def alSourceRelative (al : Backend) (s : Nat) (rel : Bool) : Backend :=
  al.modify s (fun r => { r with relative := rel }) (ALCall.SetRelative s rel)

/-- The OpenAL call `alSourcei( s, AL_LOOPING, l )`. -/
def alSourceLooping (al : Backend) (s : Nat) (l : Bool) : Backend :=
  al.modify s (fun r => { r with looping := l }) (ALCall.SetLooping s l)

/-- The OpenAL call `alSourcef( s, AL_GAIN, g )`. -/
def alSourceGain (al : Backend) (s : Nat) (g : ℚ) : Backend :=
  al.modify s (fun r => { r with gain := g }) (ALCall.SetGain s g)

/-- The OpenAL call `alSourcefv( s, AL_POSITION, p )`. -/
def alSourcePosition (al : Backend) (s : Nat) (p : ℚ × ℚ × ℚ) : Backend :=
  al.modify s (fun r => { r with pos := p }) (ALCall.SetPosition s p)

/-- The OpenAL call `alSourcefv( s, AL_VELOCITY, p )`. -/
def alSourceVelocity (al : Backend) (s : Nat) (p : ℚ × ℚ × ℚ) : Backend :=
  al.modify s (fun r => { r with vel := p }) (ALCall.SetVelocity s p)

/-- The OpenAL call `alSourcef( s, AL_AIR_ABSORPTION_FACTOR, a )` (EFX; no property of the
record depends on it). -/
def alSourceAirAbsorption (al : Backend) (s : Nat) (a : ℚ) : Backend :=
  al.modify s id (ALCall.SetAirAbsorption s a)

/-- The OpenAL call `alSource3i( s, AL_AUXILIARY_SEND_FILTER, AL_EFFECTSLOT_NULL, 0, AL_FILTER_NULL )`. -/
def alSourceClearAuxSend (al : Backend) (s : Nat) : Backend :=
  al.modify s id (ALCall.ClearAuxSend s)

/-- A source as `alGenSources` leaves it. -/
def ALSource.fresh : ALSource :=
  { state := ALState.AL_INITIAL, buffer := 0, relative := false, looping := false,
    gain := 1, pos := (0, 0, 0), vel := (0, 0, 0) }

/-- The backend right after the sources were generated. -/
def Backend.fresh : Backend := { src := fun _ => ALSource.fresh, calls := [] }

/-! ## Data model of `sound.c` -/

/-- The state of a voice (`voice_state_t`). -/
inductive voice_state_t where
  | VOICE_STOPPED
  | VOICE_PLAYING
  | VOICE_FADEOUT
  | VOICE_DESTROY
  deriving DecidableEq, Repr

/-- A sound group (`alGroup_t`). -/
structure alGroup_t where
  id : Int
  sources : List Nat
  nsources : Int
  state : voice_state_t
  fade_timer : Int
  speed : Int
  volume : ℚ
  deriving DecidableEq

/-- A sound buffer (`alSound`); the name and the length play no role here. -/
structure alSound where
  buf : Nat
  deriving DecidableEq

/-- A voice (`alVoice`); `prev` and `next` are its position in its list. -/
structure alVoice where
  id : Int
  state : voice_state_t
  flags : Nat
  pos : ℚ × ℚ × ℚ
  vel : ℚ × ℚ × ℚ
  source : Nat
  buffer : Nat
  deriving DecidableEq

/-- A voice as `calloc( 1, sizeof(alVoice) )` returns it. -/
def alVoice.zero : alVoice :=
  { id := 0, state := voice_state_t.VOICE_STOPPED, flags := 0, pos := (0, 0, 0),
    vel := (0, 0, 0), source := 0, buffer := 0 }

/-- The globals of `sound.c`. -/
structure SoundState where
  sound_disabled : Bool
  sound_list : List alSound
  voice_genid : Int
  voice_active : List alVoice
  voice_pool : List alVoice
  source_stack : List Nat
  source_nstack : Int
  source_total : List Nat
  source_all : List Nat
  al_groups : List alGroup_t
  al_groupidgen : Int
  efx_reverb : Bool
  svolume : ℚ
  svolume_lin : ℚ
  svolume_speed : ℚ
  al : Backend

/-- The value `sound_nlist`. -/
def SoundState.sound_nlist (st : SoundState) : Int := st.sound_list.length

/-- The value `source_mstack`: the allocated length of the free-source stack. -/
def SoundState.source_mstack (st : SoundState) : Int := st.source_stack.length

/-- The entries of the free stack below `source_nstack`: the free sources. -/
def SoundState.freeSources (st : SoundState) : List Nat :=
  st.source_stack.take st.source_nstack.toNat

/-- The sources of the active voices, in list order. -/
def SoundState.voiceSources (st : SoundState) : List Nat :=
  st.voice_active.map alVoice.source

/-- The source arrays of all existing groups, concatenated. -/
def SoundState.groupSources (st : SoundState) : List Nat :=
  (st.al_groups.map alGroup_t.sources).flatten

/-- The state `sound_al_init` leaves when `alGenSources` produced `handles`
(one per configured voice, until the first failure) and `sound_makeList`
loaded `sounds`: every source is on the free stack and in both totals. -/
def sound_al_init (handles : List Nat) (sounds : List alSound) (efx_reverb : Bool) : SoundState :=
  { sound_disabled := false
    sound_list := sounds
    voice_genid := 0
    voice_active := []
    voice_pool := []
    source_stack := handles
    source_nstack := handles.length
    source_total := handles
    source_all := handles
    al_groups := []
    al_groupidgen := 0
    efx_reverb := efx_reverb
    svolume := 1
    svolume_lin := 1
    svolume_speed := 1
    al := Backend.fresh }

/-! ## Groups -/

/-- One iteration of the `for (i=0; i<size; i++)` loop of `sound_createGroup`
after its guard: pull a source off the stack into `g->sources[i]`, disable EFX
on it, remove it from `source_total`. -/
def sound_createGroup_body (i : Nat) (g : alGroup_t) (st : SoundState) : alGroup_t × SoundState :=
  let n := st.source_nstack - 1
  let s := st.source_stack.getD n.toNat 0
  let al1 :=
    if st.efx_reverb then alSourceClearAuxSend (alSourceAirAbsorption st.al s 0) s else st.al
  ({ g with sources := g.sources.set i s },
   { st with source_nstack := n, al := al1, source_total := st.source_total.erase s })

/-- The source-pulling loop of `sound_createGroup`, with `k` iterations left
and index `i`.  The flag is `false` when the loop left through `group_err`. -/
def sound_createGroup_loop : Nat → Nat → alGroup_t → SoundState → Bool × alGroup_t × SoundState
  | 0, _, g, st => (true, g, st)
  | k + 1, i, g, st =>
    if st.source_nstack ≤ 0 then (false, g, st)
    else
      let r := sound_createGroup_body i g st
      sound_createGroup_loop k (i + 1) r.1 r.2

/-- The function `sound_createGroup( size )`.  The new group is built in a local value and
appended to `al_groups` on success; the source grows the array first and
shrinks it again at `group_err`, and nothing in between reads the array. -/
def sound_createGroup (size : Int) (st : SoundState) : Int × SoundState :=
  if st.sound_disabled then (0, st)
  else
    let id := wrapInt32 (st.al_groupidgen + 1)
    let st1 := { st with al_groupidgen := id }
    let g : alGroup_t :=
      { id := id, sources := List.replicate size.toNat 0, nsources := size,
        state := voice_state_t.VOICE_PLAYING, fade_timer := 0, speed := 1, volume := 1 }
    match sound_createGroup_loop size.toNat 0 g st1 with
    | (true, g1, st2) => (id, { st2 with al_groups := st2.al_groups ++ [g1] })
    | (false, _, st2) => (0, st2)

/-- The gain a group's sources rest at: `svolume * g->volume`, times
`svolume_speed` when the group is affected by speed. -/
def groupGain (st : SoundState) (g : alGroup_t) : ℚ :=
  if g.speed ≠ 0 then st.svolume * g.volume * st.svolume_speed else st.svolume * g.volume

/-- The entries `g->sources[0 .. nsources-1]` a `for (j=0; j<g->nsources; j++)`
loop visits. -/
def alGroup_t.visited (g : alGroup_t) : List Nat := g.sources.take g.nsources.toNat

/-- The part of the `j` loop of `sound_playGroup` that binds and starts
source `s`. -/
def sound_playGroup_bind (st : SoundState) (g : alGroup_t) (buf : Nat) (once : Int)
    (al : Backend) (s : Nat) : Backend :=
  let al1 := alSourceBuffer al s buf
  let al2 := alSourceRelative al1 s true
  let al3 := alSourceLooping al2 s (if once ≠ 0 then false else true)
  let al4 := alSourceGain al3 s (groupGain st g)
  alSourcePlay al4 s

/-- The `j` loop of `sound_playGroup` over the sources still to visit; the
last one (`j == g->nsources-1`) is the one with nothing after it.  `none`
when the loop ends without having returned. -/
def sound_playGroup_loop (st : SoundState) (g : alGroup_t) (buf : Nat) (once : Int) :
    List Nat → Backend → Option Backend
  | [], _ => none
  | [s], al =>
    let al1 := if alGetSourceState al s ≠ ALState.AL_STOPPED then alSourceStop al s else al
    some (sound_playGroup_bind st g buf once al1 s)
  | s :: t :: rest, al =>
    if alGetSourceState al s = ALState.AL_PLAYING ∨ alGetSourceState al s = ALState.AL_PAUSED then
      sound_playGroup_loop st g buf once (t :: rest) al
    else some (sound_playGroup_bind st g buf once al s)

/-- Apply `f` to the first element of the list that satisfies `p`. -/
def modifyFirst {α : Type} (p : α → Bool) (f : α → α) : List α → List α
  | [] => []
  | x :: xs => if p x then f x :: xs else x :: modifyFirst p f xs

/-- The function `sound_playGroup( group, sound, once )`. -/
def sound_playGroup (group sound once : Int) (st : SoundState) : Int × SoundState :=
  if st.sound_disabled then (0, st)
  else if sound < 0 ∨ sound ≥ st.sound_nlist then (-1, st)
  else
    match st.al_groups.find? (fun g => g.id = group) with
    | none => (-1, st)
    | some g0 =>
      let g := { g0 with state := voice_state_t.VOICE_PLAYING }
      let groups := modifyFirst (fun x => x.id = group)
        (fun x => { x with state := voice_state_t.VOICE_PLAYING }) st.al_groups
      let buf := (st.sound_list.getD sound.toNat ⟨0⟩).buf
      match sound_playGroup_loop st g buf once g.visited st.al with
      | some al1 => (0, { st with al_groups := groups, al := al1 })
      | none => (-1, { st with al_groups := groups })

/-- The function `sound_al_getGroup( group )`: the first group with that id. -/
def sound_al_getGroup (group : Int) (st : SoundState) : Option alGroup_t :=
  st.al_groups.find? (fun g => g.id = group)

/-- The function `sound_stopGroup( group )` when `SDL_GetTicks()` returns `ticks`. -/
def sound_stopGroup (group : Int) (ticks : Nat) (st : SoundState) : SoundState :=
  if st.sound_disabled then st
  else
    let groups := modifyFirst (fun x => x.id = group)
      (fun x => { x with state := voice_state_t.VOICE_FADEOUT, fade_timer := wrapInt32 ticks })
      st.al_groups
    { st with al_groups := groups }

/-- The value `SOUND_FADEOUT`: the group fade-out time in ms. -/
def SOUND_FADEOUT : Int := 100

/-- The body of the group loop of `sound_al_update` for one group, at tick `t`. -/
def sound_al_update_group (st : SoundState) (t : Nat) (al : Backend) (g : alGroup_t) :
    Backend × alGroup_t :=
  if g.state ≠ voice_state_t.VOICE_FADEOUT then (al, g)
  else
    let f := wrapUInt32 ((t : Int) - g.fade_timer)
    if f < SOUND_FADEOUT then
      let d : ℚ := 1 - (f : ℚ) / (SOUND_FADEOUT : ℚ)
      let v : ℚ := if g.speed ≠ 0 then d * st.svolume * g.volume * st.svolume_speed
        else d * st.svolume * g.volume
      (g.visited.foldl (fun a s => alSourceGain a s v) al, g)
    else
      let v := groupGain st g
      (g.visited.foldl
          (fun a s => alSourceGain (alSourceBuffer (alSourceStop a s) s 0) s v) al,
        { g with state := voice_state_t.VOICE_PLAYING })

/-- The group loop of `sound_al_update`, over the groups still to visit. -/
def sound_al_update_loop (st : SoundState) (t : Nat) : List alGroup_t → Backend →
    Backend × List alGroup_t
  | [], al => (al, [])
  | g :: gs, al =>
    let r := sound_al_update_group st t al g
    let rs := sound_al_update_loop st t gs r.1
    (rs.1, r.2 :: rs.2)

/-- The function `sound_al_update()` when `SDL_GetTicks()` returns `t`. -/
def sound_al_update (t : Nat) (st : SoundState) : SoundState :=
  let r := sound_al_update_loop st t st.al_groups st.al
  { st with al := r.1, al_groups := r.2 }

/-! ## Voices -/

/-- The function `voice_new()`: afterwards the voice to use is the head of `voice_pool`. -/
def voice_new (st : SoundState) : SoundState :=
  match st.voice_pool with
  | [] => { st with voice_pool := [alVoice.zero] }
  | _ :: _ => st

/-- Write through the `alVoice*` returned by `voice_new`: update the head of
the pool. -/
def setPoolHead (f : alVoice → alVoice) (st : SoundState) : SoundState :=
  match st.voice_pool with
  | [] => st
  | v :: rest => { st with voice_pool := f v :: rest }

/-- The function `voice_add( v )` for the head `v` of the pool (`v->prev == NULL`): unlink
it from the pool and insert it at the front of the active voices. -/
def voice_add (st : SoundState) : SoundState :=
  match st.voice_pool with
  | [] => st
  | v :: rest => { st with voice_pool := rest, voice_active := v :: st.voice_active }

/-- The function `voice_get( id )`: the first active voice with that identifier. -/
def voice_get (id : Int) (st : SoundState) : Option alVoice :=
  st.voice_active.find? (fun v => v.id = id)

/-- The function `sound_al_getSource()`: pop the free stack, `0` when it is empty. -/
def sound_al_getSource (st : SoundState) : Nat × SoundState :=
  if st.source_nstack ≤ 0 then (0, st)
  else
    let n := st.source_nstack - 1
    (st.source_stack.getD n.toNat 0, { st with source_nstack := n })

/-- The function `al_playVoice( v, s, px, py, vx, vy, relative )` for the head `v` of the pool. -/
def al_playVoice (s : alSound) (px py vx vy : ℚ) (relative : Bool) (st : SoundState) :
    Int × SoundState :=
  let r := sound_al_getSource st
  let st1 := setPoolHead (fun v => { v with source := r.1 }) r.2
  if r.1 = 0 then (-1, st1)
  else
    let st2 := setPoolHead
      (fun v => { v with buffer := s.buf, pos := (px, py, 0), vel := (vx, vy, 0) }) st1
    let al1 := alSourceBuffer st2.al r.1 s.buf
    let al2 := alSourceRelative al1 r.1 relative
    let al3 := alSourceGain al2 r.1 (st2.svolume * st2.svolume_speed)
    let al4 := alSourcePosition al3 r.1 (px, py, 0)
    let al5 := alSourceVelocity al4 r.1 (vx, vy, 0)
    let al6 := alSourceLooping al5 r.1 false
    (0, { st2 with al := alSourcePlay al6 r.1 })

/-- The common tail of `sound_play` and `sound_playPos` once the sound index
is known to be valid: get a voice, try to play, then mark, number and add it. -/
def sound_playCommon (sound : Int) (px py vx vy : ℚ) (relative : Bool) (st : SoundState) :
    Int × SoundState :=
  let st1 := voice_new st
  let s := st1.sound_list.getD sound.toNat ⟨0⟩
  let r := al_playVoice s px py vx vy relative st1
  if r.1 ≠ 0 then (-1, r.2)
  else
    let id := wrapInt32 (r.2.voice_genid + 1)
    let st2 := setPoolHead
      (fun v => { v with state := voice_state_t.VOICE_PLAYING, id := id })
      { r.2 with voice_genid := id }
    (id, voice_add st2)

/-- The function `sound_play( sound )`. -/
def sound_play (sound : Int) (st : SoundState) : Int × SoundState :=
  if st.sound_disabled then (0, st)
  else if sound < 0 ∨ sound ≥ st.sound_nlist then (-1, st)
  else sound_playCommon sound 0 0 0 0 true st

/-- The function `sound_playPos( sound, px, py, vx, vy )`; `inRange` is the answer of the
camera / pilot range check. -/
def sound_playPos (sound : Int) (px py vx vy : ℚ) (inRange : Bool) (st : SoundState) :
    Int × SoundState :=
  if st.sound_disabled then (0, st)
  else if sound < 0 ∨ sound ≥ st.sound_nlist then (-1, st)
  else if !inRange then (0, st)
  else sound_playCommon sound px py vx vy false st

/-- The function `sound_updatePos( voice, px, py, vx, vy )`. -/
def sound_updatePos (voice : Int) (px py vx vy : ℚ) (st : SoundState) : SoundState :=
  if st.sound_disabled then st
  else
    let voices := modifyFirst (fun v => v.id = voice)
      (fun v => { v with pos := (px, py, v.pos.2.2), vel := (vx, vy, v.vel.2.2) })
      st.voice_active
    { st with voice_active := voices }

/-- The function `sound_al_updateVoice( v )`: returns the updated voice. -/
def sound_al_updateVoice (v : alVoice) (st : SoundState) : alVoice × SoundState :=
  if v.source = 0 then ({ v with state := voice_state_t.VOICE_DESTROY }, st)
  else if alGetSourceState st.al v.source = ALState.AL_STOPPED then
    ({ v with source := 0, state := voice_state_t.VOICE_STOPPED },
     { st with
        al := alSourceBuffer st.al v.source 0
        source_stack := st.source_stack.set st.source_nstack.toNat v.source
        source_nstack := st.source_nstack + 1 })
  else
    let al1 := alSourceGain st.al v.source (st.svolume * st.svolume_speed)
    let al2 := alSourcePosition al1 v.source v.pos
    (v, { st with al := alSourceVelocity al2 v.source v.vel })

/-- The control loop of `sound_update` from the cursor `v` on: the argument is
`v` followed by the voices linked after it, the result is what remains linked
in the active list from that position on.  A voice found stopped or marked
for destruction is unlinked and pushed on the pool; the cursor is then set to
its successor and the loop increment `v = v->next` steps over that
successor, which stays linked without being looked at. -/
def sound_update_loop : List alVoice → SoundState → List alVoice × SoundState
  | [], st => ([], st)
  | v :: rest, st =>
    let r := sound_al_updateVoice v st
    if r.1.state = voice_state_t.VOICE_STOPPED ∨ r.1.state = voice_state_t.VOICE_DESTROY then
      let st2 := { r.2 with voice_pool := r.1 :: r.2.voice_pool }
      match rest with
      | [] => ([], st2)
      | s :: rest2 =>
        let q := sound_update_loop rest2 st2
        (s :: q.1, q.2)
    else
      let q := sound_update_loop rest r.2
      (r.1 :: q.1, q.2)

/-- The function `sound_update( dt )` when `SDL_GetTicks()` returns `t` (the music update
it starts with does not touch the sound globals). -/
def sound_update (t : Nat) (st : SoundState) : SoundState :=
  if st.sound_disabled then st
  else
    let st1 := sound_al_update t st
    let q := sound_update_loop st1.voice_active st1
    { q.2 with voice_active := q.1 }

/-- The function `sound_al_stop( voice )`. -/
def sound_al_stop (v : alVoice) (al : Backend) : Backend :=
  if v.source ≠ 0 then alSourceStop al v.source else al

/-- The function `sound_stopAll()`. -/
def sound_stopAll (st : SoundState) : SoundState :=
  if st.sound_disabled then st
  else
    let voices := st.voice_active.map (fun v => { v with state := voice_state_t.VOICE_STOPPED })
    { st with
        al := st.voice_active.foldl (fun a v => sound_al_stop v a) st.al
        voice_active := voices }

/-- The function `sound_stop( voice )`. -/
def sound_stop (voice : Int) (st : SoundState) : SoundState :=
  if st.sound_disabled then st
  else
    match voice_get voice st with
    | none => st
    | some v =>
      let voices := modifyFirst (fun x => x.id = voice)
        (fun x => { x with state := voice_state_t.VOICE_STOPPED }) st.voice_active
      { st with al := sound_al_stop v st.al, voice_active := voices }

/-! ## Volume -/

/-- The logarithmic volume that `sound_volume` and `music_volume` compute
from the linear one: `1 / pow(2, (1 - vol) * 8)` when `vol > 0.` and `0.`
otherwise.  The power function is the C library's and is a parameter. -/
def volumeLog {K : Type} [LinearOrderedField K] (pow : K → K → K) (vol : K) : K :=
  if vol > 0 then 1 / pow 2 ((1 - vol) * 8) else 0

/-- The function `sound_al_volumeUpdate()`: the gain of every general-purpose
source and of every source of every group is set again. -/
def sound_al_volumeUpdate (st : SoundState) : SoundState :=
  let al1 := st.source_total.foldl
    (fun a s => alSourceGain a s (st.svolume * st.svolume_speed)) st.al
  let al2 := st.al_groups.foldl
    (fun a g => g.visited.foldl (fun b s => alSourceGain b s (groupGain st g)) a) al1
  { st with al := al2 }

/-- The function `sound_volume( vol )`.  The argument is a `double` and
`svolume_lin` is an `ALfloat`: the assignment `svolume_lin = vol` narrows the
value to single precision.  The logarithmic volume is given as the value of
the C expression. -/
def sound_volume (pow : ℚ → ℚ → ℚ) (vol : ℚ) (st : SoundState) : Int × SoundState :=
  if st.sound_disabled then (0, st)
  else
    (0, sound_al_volumeUpdate
      { st with svolume_lin := toALfloat vol, svolume := volumeLog pow vol })

/-- The function `sound_getVolume()`. -/
def sound_getVolume (st : SoundState) : ℚ :=
  if st.sound_disabled then 0 else st.svolume_lin

/-- The function `sound_getVolumeLog()`. -/
def sound_getVolumeLog (st : SoundState) : ℚ :=
  if st.sound_disabled then 0 else st.svolume

/-! ## Runs of the sound engine -/

/-- The calls the game makes into the sound engine, and the one thing the
backend does on its own: move a source to another playback state (a sound
that has played to its end becomes stopped). -/
inductive SoundOp where
  | play (sound : Int)
  | playPos (sound : Int) (px py vx vy : ℚ) (inRange : Bool)
  | updatePos (voice : Int) (px py vx vy : ℚ)
  | stop (voice : Int)
  | stopAll
  | update (ticks : Nat)
  | createGroup (size : Int)
  | playGroup (group sound once : Int)
  | stopGroup (group : Int) (ticks : Nat)
  | backend (s : Nat) (state : ALState)

/-- The backend changes the playback state of source `s` on its own. -/
def backendSets (s : Nat) (x : ALState) (st : SoundState) : SoundState :=
  { st with al := { st.al with src := fun y => if y = s then { st.al.src y with state := x }
                                                else st.al.src y } }

/-- One call: its return value (`0` for a `void` function) and the state it leaves. -/
def step (st : SoundState) : SoundOp → Int × SoundState
  | SoundOp.play sound => sound_play sound st
  | SoundOp.playPos sound px py vx vy inRange => sound_playPos sound px py vx vy inRange st
  | SoundOp.updatePos voice px py vx vy => (0, sound_updatePos voice px py vx vy st)
  | SoundOp.stop voice => (0, sound_stop voice st)
  | SoundOp.stopAll => (0, sound_stopAll st)
  | SoundOp.update ticks => (0, sound_update ticks st)
  | SoundOp.createGroup size => sound_createGroup size st
  | SoundOp.playGroup group sound once => sound_playGroup group sound once st
  | SoundOp.stopGroup group ticks => (0, sound_stopGroup group ticks st)
  | SoundOp.backend s x => (0, backendSets s x st)

/-- The state after a sequence of calls. -/
def run : SoundState → List SoundOp → SoundState
  | st, [] => st
  | st, op :: ops => run (step st op).2 ops

/-- A call is a successful play when it is `sound_play` or `sound_playPos`
and it linked a new voice into the active list. -/
def isPlayed (st : SoundState) : SoundOp → Bool
  | SoundOp.play sound =>
    (sound_play sound st).2.voice_active.length == st.voice_active.length + 1
  | SoundOp.playPos sound px py vx vy inRange =>
    (sound_playPos sound px py vx vy inRange st).2.voice_active.length
      == st.voice_active.length + 1
  | _ => false

/-- The values returned by the successful plays of a sequence of calls, in
call order. -/
def playIds : SoundState → List SoundOp → List Int
  | _, [] => []
  | st, op :: ops =>
    if isPlayed st op then (step st op).1 :: playIds (step st op).2 ops
    else playIds (step st op).2 ops

/-- Every source that has an owner: the free stack, then the active voices,
then the groups. -/
def SoundState.owners (st : SoundState) : List Nat :=
  st.freeSources ++ st.voiceSources ++ st.groupSources

/-! ## The music thread (`music.c`) -/

/-- Commands posted to the music thread (`music_cmd_t`). -/
inductive music_cmd_t where
  | MUSIC_CMD_NONE
  | MUSIC_CMD_KILL
  | MUSIC_CMD_STOP
  | MUSIC_CMD_PLAY
  | MUSIC_CMD_PAUSE
  | MUSIC_CMD_FADEIN
  | MUSIC_CMD_FADEOUT
  deriving DecidableEq, Repr

/-- States of the music thread (`music_state_t`). -/
inductive music_state_t where
  | MUSIC_STATE_DEAD
  | MUSIC_STATE_STARTUP
  | MUSIC_STATE_IDLE
  | MUSIC_STATE_FADEIN
  | MUSIC_STATE_FADEOUT
  | MUSIC_STATE_PLAYING
  | MUSIC_STATE_PAUSED
  | MUSIC_STATE_LOADING
  | MUSIC_STATE_STOPPING
  | MUSIC_STATE_PAUSING
  | MUSIC_STATE_RESUMING
  deriving DecidableEq, Repr

/-- The command / state pair shared with the callers, the locals of
`music_thread` that survive an iteration, and the number of
`SDL_CondBroadcast( music_state_cond )` calls made so far. -/
structure MusicThread where
  music_command : music_cmd_t
  music_state : music_state_t
  music_forced : Bool
  active : Int
  fadein_start : Bool
  fade_timer : Int
  broadcasts : Nat
  deriving DecidableEq

/-- The call `SDL_CondBroadcast( music_state_cond )`. -/
def MusicThread.broadcast (m : MusicThread) : MusicThread :=
  { m with broadcasts := m.broadcasts + 1 }

/-- The `switch (music_command)` of one iteration of `music_thread`, run
under the state lock, when `SDL_GetTicks()` returns `ticks`.  The constant
`MUSIC_FADEIN_DELAY` is declared outside this file and is a parameter. -/
def music_thread_command (MUSIC_FADEIN_DELAY : Int) (ticks : Nat) (m : MusicThread) :
    MusicThread :=
  match m.music_command with
  | music_cmd_t.MUSIC_CMD_KILL =>
    if m.music_state ≠ music_state_t.MUSIC_STATE_IDLE then
      { m with music_state := music_state_t.MUSIC_STATE_STOPPING }
    else { m with music_state := music_state_t.MUSIC_STATE_DEAD }
  | music_cmd_t.MUSIC_CMD_STOP =>
    if m.music_state = music_state_t.MUSIC_STATE_IDLE then m.broadcast
    else { m with music_state := music_state_t.MUSIC_STATE_STOPPING }
  | music_cmd_t.MUSIC_CMD_PLAY =>
    let m1 :=
      if m.music_state = music_state_t.MUSIC_STATE_PAUSING then
        { m with music_state := music_state_t.MUSIC_STATE_RESUMING }
      else if m.music_state = music_state_t.MUSIC_STATE_FADEIN then
        { m with fade_timer := wrapUInt32 ((ticks : Int) - MUSIC_FADEIN_DELAY) }
      else { m with music_state := music_state_t.MUSIC_STATE_LOADING }
    { m1 with fadein_start := false, music_command := music_cmd_t.MUSIC_CMD_NONE }.broadcast
  | music_cmd_t.MUSIC_CMD_FADEOUT =>
    let m1 :=
      if m.music_state ≠ music_state_t.MUSIC_STATE_IDLE then
        { m with music_state := music_state_t.MUSIC_STATE_FADEOUT
                 fade_timer := wrapUInt32 ticks }
      else m
    { m1 with music_command := music_cmd_t.MUSIC_CMD_NONE }.broadcast
  | music_cmd_t.MUSIC_CMD_FADEIN =>
    let m1 :=
      if m.music_state = music_state_t.MUSIC_STATE_FADEIN
          ∨ m.music_state = music_state_t.MUSIC_STATE_PLAYING then m.broadcast
      else
        { m with music_state := music_state_t.MUSIC_STATE_LOADING
                 fade_timer := wrapUInt32 ticks
                 fadein_start := true }
    { m1 with music_command := music_cmd_t.MUSIC_CMD_NONE }
  | music_cmd_t.MUSIC_CMD_PAUSE =>
    let m1 :=
      if m.music_state = music_state_t.MUSIC_STATE_PAUSED then m.broadcast
      else if m.music_state = music_state_t.MUSIC_STATE_PLAYING
          ∨ m.music_state = music_state_t.MUSIC_STATE_FADEIN then
        { m with music_state := music_state_t.MUSIC_STATE_PAUSING }
      else m
    { m1 with music_command := music_cmd_t.MUSIC_CMD_NONE }
  | music_cmd_t.MUSIC_CMD_NONE => m

/-- How a blocking control call ends. -/
inductive WaitResult where
  | skipped
  | returned (seen : music_state_t)
  | blocked
  deriving DecidableEq, Repr

/-- The `while (1)` loop of `music_stop`: each element of the list is the
value of `music_state` the caller reads after one return of `SDL_CondWait`.
The loop is left at the first reading that is `IDLE` or `FADEOUT`; when the
readings run out the caller is still blocked. -/
def music_stop_wait : List music_state_t → WaitResult
  | [] => WaitResult.blocked
  | s :: rest =>
    if s = music_state_t.MUSIC_STATE_IDLE ∨ s = music_state_t.MUSIC_STATE_FADEOUT then
      WaitResult.returned s
    else music_stop_wait rest

/-- The function `music_stop()`: the command it leaves posted and how its wait ends, given
the values of `music_state` read at the successive wake-ups. -/
def music_stop (music_disabled : Bool) (m : MusicThread) (wakeups : List music_state_t) :
    MusicThread × WaitResult :=
  if music_disabled then (m, WaitResult.skipped)
  else ({ m with music_command := music_cmd_t.MUSIC_CMD_FADEOUT }, music_stop_wait wakeups)

/-! ## The music thread: playing, state actions, decoding -/

/-- The function `music_isPlaying()` when it reads `s` as the music state. -/
def music_isPlaying (music_disabled : Bool) (s : music_state_t) : Int :=
  if music_disabled then 0
  else if s = music_state_t.MUSIC_STATE_PLAYING ∨ s = music_state_t.MUSIC_STATE_LOADING
      ∨ s = music_state_t.MUSIC_STATE_RESUMING ∨ s = music_state_t.MUSIC_STATE_FADEIN
      ∨ s = music_state_t.MUSIC_STATE_FADEOUT ∨ s = music_state_t.MUSIC_STATE_PAUSED then 1
  else 0

/-- The `while (1)` loop of `music_play` (and of `music_resume`): the caller
is past the `music_disabled` guard, each element of the list is the value of
`music_state` it reads after one return of `SDL_CondWait`, and the loop is
left at the first reading for which `music_isPlaying()` is non-zero. -/
def music_play_wait : List music_state_t → WaitResult
  | [] => WaitResult.blocked
  | s :: rest =>
    if music_isPlaying false s ≠ 0 then WaitResult.returned s else music_play_wait rest

/-- The function `music_play()`: the command it leaves posted and how its
wait ends, given the values of `music_state` read at the successive wake-ups. -/
def music_play (music_disabled : Bool) (m : MusicThread) (wakeups : List music_state_t) :
    MusicThread × WaitResult :=
  if music_disabled then (m, WaitResult.skipped)
  else ({ m with music_command := music_cmd_t.MUSIC_CMD_FADEIN }, music_play_wait wakeups)

/-- Calls on `music_source` and on the two buffers `music_buffer[0..1]`
(a buffer is named by its index). -/
inductive MusicCall where
  | SourcePlay
  | SourcePause
  | SourceStop
  | SetGain (g : ℚ)
  | QueueBuffer (i : Int)
  | UnqueueBuffers (n : Int)
  | BufferData (i : Int) (size : Int)
  deriving DecidableEq, Repr

/-- The music globals next to the thread state: the volumes, the re-selection
flag and timer, whether a stream is loaded (`music_vorbis.rw != NULL`), the
decoder, the buffer size and the backend calls made so far.  The decoder is
the list of the values the coming `ov_read` calls return; once the list is
used up every further read returns 0, end of stream. -/
structure MusicEngine where
  thread : MusicThread
  music_disabled : Bool
  music_vol : ℚ
  music_vol_lin : ℚ
  music_runchoose : Bool
  music_timer : ℚ
  rw_loaded : Bool
  decoder : List Int
  music_bufSize : Int
  calls : List MusicCall
  deriving DecidableEq

/-- What one iteration of the thread learns from outside: the tick counter in
the command phase and in the state action, and the playback state and the
number of processed buffers that `alGetSourcei` reports for `music_source`. -/
structure MusicEnv where
  ticks_cmd : Nat
  ticks_act : Nat
  source_state : ALState
  processed : Int
  deriving DecidableEq

/-- The value `OV_HOLE` of libvorbis. -/
def OV_HOLE : Int := -3

/-- The value `OV_EBADLINK` of libvorbis. -/
def OV_EBADLINK : Int := -137

/-- The fill loop of `stream_loadBuffer`, with `size` bytes read so far:
the return value, the size handed to `alBufferData` when that call is
reached, and what is left of the decoder. -/
def stream_fill (bufSize : Int) : List Int → Int → Int × Option Int × List Int
  | [], size =>
    if size < bufSize then (if size = 0 then (-2, none, []) else (1, some size, []))
    else (0, some size, [])
  | result :: rest, size =>
    if size < bufSize then
      if result = 0 then (if size = 0 then (-2, none, rest) else (1, some size, rest))
      else if result = OV_HOLE then (0, none, rest)
      else if result = OV_EBADLINK then (-1, none, rest)
      else stream_fill bufSize rest (size + result)
    else (0, some size, result :: rest)

/-- The function `stream_loadBuffer( music_buffer[i] )`. -/
def stream_loadBuffer (i : Int) (e : MusicEngine) : Int × MusicEngine :=
  if !e.rw_loaded then (-1, e)
  else
    let r := stream_fill e.music_bufSize e.decoder 0
    match r.2.1 with
    | some size =>
      (r.1, { e with decoder := r.2.2, calls := e.calls ++ [MusicCall.BufferData i size] })
    | none => (r.1, { e with decoder := r.2.2 })

/-- The function `music_rechoose()`. -/
def music_rechoose (e : MusicEngine) : MusicEngine :=
  if e.music_disabled then e else { e with music_timer := 0, music_runchoose := true }

/-- Assign `music_state`. -/
def MusicEngine.setState (e : MusicEngine) (s : music_state_t) : MusicEngine :=
  { e with thread := { e.thread with music_state := s } }

/-- Assign the local `active` of `music_thread`. -/
def MusicEngine.setActive (e : MusicEngine) (a : Int) : MusicEngine :=
  { e with thread := { e.thread with active := a } }

/-- The call `SDL_CondBroadcast( music_state_cond )` by the thread. -/
def MusicEngine.broadcast (e : MusicEngine) : MusicEngine :=
  { e with thread := e.thread.broadcast }

/-- Issue a call on `music_source` or on a music buffer. -/
def MusicEngine.call (e : MusicEngine) (c : MusicCall) : MusicEngine :=
  { e with calls := e.calls ++ [c] }

/-- The statement `if (!music_forced) music_rechoose();`. -/
def MusicEngine.rechooseUnlessForced (e : MusicEngine) : MusicEngine :=
  if e.thread.music_forced then e else music_rechoose e

/-- The statement `if (value > 0) alSourceUnqueueBuffers( music_source, value, removed );`. -/
def MusicEngine.unqueueProcessed (e : MusicEngine) (value : Int) : MusicEngine :=
  if value > 0 then e.call (MusicCall.UnqueueBuffers value) else e

/-- The state to enter after loading: `FADEIN` when a fade-in was asked for,
`PLAYING` otherwise. -/
def MusicEngine.loadedState (e : MusicEngine) : music_state_t :=
  if e.thread.fadein_start then music_state_t.MUSIC_STATE_FADEIN
  else music_state_t.MUSIC_STATE_PLAYING

/-- The `case MUSIC_STATE_LOADING` of `music_thread`. -/
def music_thread_loading (e : MusicEngine) : MusicEngine :=
  let r1 := stream_loadBuffer 0 (e.setActive 0)
  let e1 := r1.2.call (MusicCall.QueueBuffer 0)
  if r1.1 < 0 then
    ((e1.setState music_state_t.MUSIC_STATE_IDLE).broadcast).rechooseUnlessForced
  else
    let e2 := (e1.call (MusicCall.SetGain (if e1.thread.fadein_start then 0 else e1.music_vol))).call
      MusicCall.SourcePlay
    if r1.1 > 1 then
      ((e2.setActive (-1)).setState e2.loadedState).broadcast
    else
      let r2 := stream_loadBuffer 1 (e2.setActive 1)
      let e3 :=
        if r2.1 < 0 then r2.2.setActive (-1)
        else (r2.2.call (MusicCall.QueueBuffer 1)).setActive (1 - 1)
      (e3.setState e3.loadedState).broadcast

/-- The `case MUSIC_STATE_PLAYING` of `music_thread`, which the fade states
fall through to. -/
def music_thread_playing (env : MusicEnv) (e : MusicEngine) : MusicEngine :=
  if e.thread.active < 0 then
    if env.source_state = ALState.AL_STOPPED then
      ((e.unqueueProcessed env.processed).setState
        music_state_t.MUSIC_STATE_IDLE).rechooseUnlessForced
    else e
  else if env.processed > 0 then
    let e1 := e.call (MusicCall.UnqueueBuffers 1)
    let r := stream_loadBuffer e1.thread.active e1
    if r.1 < 0 then r.2.setActive (-1)
    else (r.2.call (MusicCall.QueueBuffer r.2.thread.active)).setActive (1 - r.2.thread.active)
  else e

/-- The `case MUSIC_STATE_FADEOUT: case MUSIC_STATE_FADEIN:` of `music_thread`
for `cur_state == MUSIC_STATE_FADEIN`. -/
def music_thread_fadein (MUSIC_FADEIN_DELAY : Int) (env : MusicEnv) (e : MusicEngine) :
    MusicEngine :=
  let fade := wrapUInt32 ((env.ticks_act : Int) - e.thread.fade_timer)
  if fade < MUSIC_FADEIN_DELAY then
    music_thread_playing env
      (e.call (MusicCall.SetGain ((fade : ℚ) / (MUSIC_FADEIN_DELAY : ℚ) * e.music_vol)))
  else
    music_thread_playing env
      ((e.call (MusicCall.SetGain e.music_vol)).setState music_state_t.MUSIC_STATE_PLAYING)

/-- The `case MUSIC_STATE_FADEOUT: case MUSIC_STATE_FADEIN:` of `music_thread`
for `cur_state == MUSIC_STATE_FADEOUT`. -/
def music_thread_fadeout (MUSIC_FADEOUT_DELAY : Int) (env : MusicEnv) (e : MusicEngine) :
    MusicEngine :=
  let fade := wrapUInt32 ((env.ticks_act : Int) - e.thread.fade_timer)
  if fade < MUSIC_FADEOUT_DELAY then
    music_thread_playing env
      (e.call (MusicCall.SetGain ((1 - (fade : ℚ) / (MUSIC_FADEOUT_DELAY : ℚ)) * e.music_vol)))
  else e.setState music_state_t.MUSIC_STATE_STOPPING

/-- The `switch (cur_state)` of one iteration of `music_thread`; the flag is
set when the thread returns.  The constants `MUSIC_FADEIN_DELAY` and
`MUSIC_FADEOUT_DELAY` are declared outside this file and are parameters. -/
def music_thread_action (MUSIC_FADEIN_DELAY MUSIC_FADEOUT_DELAY : Int) (env : MusicEnv)
    (e : MusicEngine) : MusicEngine × Bool :=
  match e.thread.music_state with
  | music_state_t.MUSIC_STATE_STARTUP =>
    ((e.setState music_state_t.MUSIC_STATE_IDLE).broadcast, false)
  | music_state_t.MUSIC_STATE_DEAD =>
    ((e.setState music_state_t.MUSIC_STATE_DEAD).broadcast, true)
  | music_state_t.MUSIC_STATE_PAUSED => (e, false)
  | music_state_t.MUSIC_STATE_IDLE => (e, false)
  | music_state_t.MUSIC_STATE_RESUMING =>
    ((((e.call MusicCall.SourcePlay).call (MusicCall.SetGain e.music_vol)).setState
      music_state_t.MUSIC_STATE_PLAYING).broadcast, false)
  | music_state_t.MUSIC_STATE_PAUSING =>
    (((e.call MusicCall.SourcePause).setState music_state_t.MUSIC_STATE_PAUSED).broadcast, false)
  | music_state_t.MUSIC_STATE_STOPPING =>
    let e1 := (e.call MusicCall.SourceStop).unqueueProcessed env.processed
    let e2 := { e1 with thread := { e1.thread with fade_timer := 0 } }
    let e3 := e2.call (MusicCall.SetGain e2.music_vol)
    (((e3.setState music_state_t.MUSIC_STATE_IDLE).broadcast).rechooseUnlessForced, false)
  | music_state_t.MUSIC_STATE_LOADING => (music_thread_loading e, false)
  | music_state_t.MUSIC_STATE_FADEOUT => (music_thread_fadeout MUSIC_FADEOUT_DELAY env e, false)
  | music_state_t.MUSIC_STATE_FADEIN => (music_thread_fadein MUSIC_FADEIN_DELAY env e, false)
  | music_state_t.MUSIC_STATE_PLAYING => (music_thread_playing env e, false)

/-- One iteration of the `while (1)` of `music_thread`: the command switch,
then the state action for the state it leaves. -/
def music_thread_iteration (MUSIC_FADEIN_DELAY MUSIC_FADEOUT_DELAY : Int) (env : MusicEnv)
    (e : MusicEngine) : MusicEngine × Bool :=
  music_thread_action MUSIC_FADEIN_DELAY MUSIC_FADEOUT_DELAY env
    { e with thread := music_thread_command MUSIC_FADEIN_DELAY env.ticks_cmd e.thread }

/-- The function `music_volume( vol )`.  The argument is a `double` and
`music_vol_lin` is an `ALfloat`: the assignment `music_vol_lin = vol` narrows
the value to single precision.  The logarithmic volume is given as the value
of the C expression. -/
def music_volume (pow : ℚ → ℚ → ℚ) (vol : ℚ) (e : MusicEngine) : Int × MusicEngine :=
  if e.music_disabled then (0, e)
  else
    let e1 := { e with music_vol_lin := toALfloat vol, music_vol := volumeLog pow vol }
    if music_isPlaying e1.music_disabled e1.thread.music_state ≠ 0 then
      (0, e1.call (MusicCall.SetGain e1.music_vol))
    else (0, e1)

/-- The function `music_getVolume()`. -/
def music_getVolume (e : MusicEngine) : ℚ :=
  if e.music_disabled then 0 else e.music_vol_lin

/-- The function `music_getVolumeLog()`. -/
def music_getVolumeLog (e : MusicEngine) : ℚ :=
  if e.music_disabled then 0 else e.music_vol

/-! ## Auxiliary notions used in the statements -/

/-- A source is busy when it is playing or paused. -/
def alBusy (al : Backend) (s : Nat) : Prop :=
  alGetSourceState al s = ALState.AL_PLAYING ∨ alGetSourceState al s = ALState.AL_PAUSED

instance (al : Backend) (s : Nat) : Decidable (alBusy al s) :=
  inferInstanceAs (Decidable (_ ∨ _))

/-- The voice `voice_new` hands out: the head of the pool, or a zeroed voice. -/
def poolHead (st : SoundState) : alVoice := st.voice_pool.head?.getD alVoice.zero

/-- The handle on top of the free stack, `source_stack[source_nstack-1]`. -/
def stackTop (st : SoundState) : Nat := st.source_stack.getD (st.source_nstack - 1).toNat 0

/-- The voice a successful play links into the active list. -/
def playedVoice (st : SoundState) (sound : Int) (px py vx vy : ℚ) : alVoice :=
  { poolHead st with
    id := wrapInt32 (st.voice_genid + 1)
    state := voice_state_t.VOICE_PLAYING
    source := stackTop st
    buffer := (st.sound_list.getD sound.toNat ⟨0⟩).buf
    pos := (px, py, 0)
    vel := (vx, vy, 0) }

/-- The backend after the calls of a successful `al_playVoice`. -/
def playedBackend (st : SoundState) (sound : Int) (px py vx vy : ℚ) (relative : Bool) : Backend :=
  alSourcePlay (alSourceLooping (alSourceVelocity (alSourcePosition (alSourceGain
    (alSourceRelative (alSourceBuffer st.al (stackTop st)
      (st.sound_list.getD sound.toNat ⟨0⟩).buf) (stackTop st) relative)
    (stackTop st) (st.svolume * st.svolume_speed)) (stackTop st) (px, py, 0))
    (stackTop st) (vx, vy, 0)) (stackTop st) false) (stackTop st)

/-- The calls `stream_loadBuffer( music_buffer[i] )` adds: one `alBufferData`
when the fill loop is left normally, none when it returns early. -/
def stream_loadBuffer_calls (i : Int) (e : MusicEngine) : List MusicCall :=
  if e.rw_loaded then
    match (stream_fill e.music_bufSize e.decoder 0).2.1 with
    | some size => [MusicCall.BufferData i size]
    | none => []
  else []

/-- What the loop of `sound_update` guarantees about its result `r` when it
starts at the voices `l` with `n` free sources. -/
def LoopOut (l : List alVoice) (st : SoundState) (n : Nat) (r : List alVoice × SoundState) :
    Prop :=
  ∃ m : Nat, r.2.source_nstack = m ∧ m + r.1.length ≤ n + l.length ∧
    r.2.source_stack.length = st.source_stack.length ∧
    (∀ a, List.count a (r.2.source_stack.take m) + List.count a (r.1.map alVoice.source)
      ≤ List.count a (st.source_stack.take n) + List.count a (l.map alVoice.source)) ∧
    (r.1.map alVoice.id).Sublist (l.map alVoice.id) ∧
    r.2.voice_genid = st.voice_genid ∧ r.2.al_groups = st.al_groups ∧
    r.2.sound_disabled = st.sound_disabled

/-- The free-stack counter is a natural number and the free sources, the
active voices and the group sources together fit in the allocated stack. -/
def SoundState.WF (st : SoundState) : Prop :=
  ∃ n : Nat, st.source_nstack = n ∧
    n + st.voice_active.length + st.groupSources.length ≤ st.source_stack.length

/-- The two states agree on the free stack, on the identifiers and sources of
the active voices in list order, on the sources of the groups and on the
identifier counter. -/
def SameShape (st st2 : SoundState) : Prop :=
  st2.source_nstack = st.source_nstack ∧ st2.source_stack = st.source_stack ∧
  st2.voice_active.map alVoice.source = st.voice_active.map alVoice.source ∧
  st2.voice_active.map alVoice.id = st.voice_active.map alVoice.id ∧
  st2.al_groups.map alGroup_t.sources = st.al_groups.map alGroup_t.sources ∧
  st2.voice_genid = st.voice_genid

/-- The property of a step that the owners invariant needs. -/
def OwnersStep (st st2 : SoundState) : Prop :=
  st2.WF ∧ ∀ a, List.count a st2.owners ≤ List.count a st.owners

/-- The identifiers of the active voices, in list order. -/
def SoundState.voiceIds (st : SoundState) : List Int := st.voice_active.map alVoice.id

/-- The identifier counter is non-negative, every active voice has an
identifier between 1 and the counter, and the identifiers strictly decrease
along the active list. -/
def SoundState.IdInv (st : SoundState) : Prop :=
  0 ≤ st.voice_genid ∧ (∀ i ∈ st.voiceIds, 1 ≤ i ∧ i ≤ st.voice_genid) ∧
  st.voiceIds.Pairwise (fun a b => a > b)

/-- The property of a step that the identifier invariant needs: the
invariant holds again, the counter moved as the flag `played` says and
`ret` is the new counter when it moved, and no identifier that was already
issued and is not in use comes back into use. -/
def IdStep (st st2 : SoundState) (played : Bool) (ret : Int) : Prop :=
  st2.IdInv ∧
  (if played then ret = st.voice_genid + 1 ∧ st2.voice_genid = st.voice_genid + 1
   else st2.voice_genid = st.voice_genid) ∧
  (∀ i, i ≤ st.voice_genid → i ∉ st.voiceIds → i ∉ st2.voiceIds)

/-! ## Concrete states -/

/-- Four sources and one sound, right after initialisation. -/
def poolOfFour : SoundState := sound_al_init [11, 12, 13, 14] [⟨101⟩] false

/-- Four voices are playing and no source is free. -/
def noFreeSource : SoundState :=
  run poolOfFour [SoundOp.play 0, SoundOp.play 0, SoundOp.play 0, SoundOp.play 0]

/-- Two voices were played and then both stopped. -/
def twoStoppedVoices : SoundState :=
  run (sound_al_init [11, 12] [⟨101⟩] false) [SoundOp.play 0, SoundOp.play 0, SoundOp.stopAll]

/-- A group of two sources, both made busy by two `sound_playGroup` calls. -/
def busyGroupOfTwo : SoundState :=
  run poolOfFour [SoundOp.createGroup 2, SoundOp.playGroup 1 0 1, SoundOp.playGroup 1 0 1]

/-- The group of `busyGroupOfTwo`. -/
def groupOfTwo : alGroup_t :=
  { id := 1, sources := [14, 13], nsources := 2, state := voice_state_t.VOICE_PLAYING,
    fade_timer := 0, speed := 1, volume := 1 }

/-- A state of the music thread: a track is playing, no command is pending. -/
def playingMusic : MusicThread :=
  { music_command := music_cmd_t.MUSIC_CMD_NONE, music_state := music_state_t.MUSIC_STATE_PLAYING,
    music_forced := false, active := 0, fadein_start := false, fade_timer := 0, broadcasts := 0 }

/-- A run that plays, reserves a group, stops and reclaims, fails to reserve
a second group and plays again. -/
def mixedOps : List SoundOp :=
  [SoundOp.play 0, SoundOp.play 0, SoundOp.createGroup 1, SoundOp.stopAll, SoundOp.update 0,
   SoundOp.createGroup 5, SoundOp.play 0]

/-- Two plays. -/
def twoPlays : List SoundOp := [SoundOp.play 0, SoundOp.play 0]

/-- Voice 2 is stopped and reclaimed. -/
def stopSecond : List SoundOp := [SoundOp.stop 2, SoundOp.update 0]

/-- A later play and reclaim pass. -/
def playAgain : List SoundOp := [SoundOp.play 0, SoundOp.update 5]

/-- The voice that the second of `twoPlays` creates on `poolOfFour`. -/
def secondVoice : alVoice :=
  { id := 2, state := voice_state_t.VOICE_PLAYING, flags := 0, pos := (0, 0, 0),
    vel := (0, 0, 0), source := 13, buffer := 101 }

/-- A stand-in for the C library's `pow` that is exact at integer exponents:
`x` to the power `⌊y⌋`. -/
def powFloor (x y : ℚ) : ℚ := x ^ ⌊y⌋

/-- An idle music engine with a loaded track of 10 bytes and buffers of 8. -/
def idleEngine : MusicEngine :=
  { thread := { playingMusic with music_state := music_state_t.MUSIC_STATE_IDLE }
    music_disabled := false, music_vol := 1, music_vol_lin := 1, music_runchoose := false,
    music_timer := 0, rw_loaded := true, decoder := [4, 4, 2], music_bufSize := 8,
    calls := [] }

/-- An engine about to load a track of exactly one buffer (4 bytes) after
which the decoder reports a bad link. -/
def badLinkEngine : MusicEngine :=
  { thread := { playingMusic with music_state := music_state_t.MUSIC_STATE_LOADING }
    music_disabled := false, music_vol := 1, music_vol_lin := 1, music_runchoose := false,
    music_timer := 0, rw_loaded := true, decoder := [4, OV_EBADLINK], music_bufSize := 4,
    calls := [] }

/-- The backend reports a playing source and no processed buffer, at tick 0. -/
def quietEnv : MusicEnv :=
  { ticks_cmd := 0, ticks_act := 0, source_state := ALState.AL_PLAYING, processed := 0 }

/-- A track is playing from two queued buffers and nothing is left to decode. -/
def playingEngine : MusicEngine :=
  { thread := playingMusic, music_disabled := false, music_vol := 1, music_vol_lin := 1,
    music_runchoose := false, music_timer := 0, rw_loaded := true, decoder := [],
    music_bufSize := 8, calls := [] }

/-- The backend reports a playing source and no processed buffer, at tick 1000. -/
def laterEnv : MusicEnv :=
  { ticks_cmd := 1000, ticks_act := 1000, source_state := ALState.AL_PLAYING, processed := 0 }

/-- The backend reports that the source has stopped and one buffer is processed. -/
def stoppedEnv : MusicEnv :=
  { ticks_cmd := 3000, ticks_act := 3000, source_state := ALState.AL_STOPPED, processed := 1 }

/-- An engine about to load a track of 5 bytes into buffers of 8. -/
def shortTrackEngine : MusicEngine :=
  { thread := { playingMusic with music_state := music_state_t.MUSIC_STATE_LOADING }
    music_disabled := false, music_vol := 1, music_vol_lin := 1, music_runchoose := false,
    music_timer := 0, rw_loaded := true, decoder := [3, 2], music_bufSize := 8,
    calls := [] }

/-! ## The source `sound_playGroup` settles on -/

/-- Apply `f` to the first `n` entries of a list: what a loop
`for (j = 0; j < n; j++) a[j] = f(a[j])` does to the array `a`. -/
def mapFirst {α : Type} (n : Nat) (f : α → α) (l : List α) : List α :=
  (l.take n).map f ++ l.drop n

/-- The body of the sample loop in the limiting branch of `rg_filter`.  The
variable `cur_sample` is a `float`: the scaled sample is rounded to single
precision when it is stored there, and so is the value bent by `tanh` beyond
`0.5`.  The double-precision operations in between are taken as exact.  The
hyperbolic tangent is the C library's and is a parameter. -/
def rg_filter_limit {K : Type} [LinearOrderedField K] [FloorRing K] (tanh : K → K)
    (scale_factor : K) (sample : K) : K :=
  let cur_sample := toALfloat (sample * scale_factor)
  if cur_sample < -(1 / 2) then
    toALfloat (tanh ((cur_sample + 1 / 2) / (1 - 1 / 2)) * (1 - 1 / 2) - 1 / 2)
  else if cur_sample > 1 / 2 then
    toALfloat (tanh ((cur_sample - 1 / 2) / (1 - 1 / 2)) * (1 - 1 / 2) + 1 / 2)
  else cur_sample

/-- The function `rg_filter( pcm, channels, samples, filter_param )`, where
`filter_param` carries `rg_scale_factor` and `rg_max_scale`: the new contents
of `pcm`, an array of `float`. -/
def rg_filter {K : Type} [LinearOrderedField K] [FloorRing K] (tanh : K → K)
    (scale_factor max_scale : K) (pcm : List (List K)) (channels samples : Nat) :
    List (List K) :=
  if scale_factor > max_scale then
    mapFirst channels (mapFirst samples (rg_filter_limit tanh scale_factor)) pcm
  else if scale_factor > 0 then
    mapFirst channels (mapFirst samples (fun x => toALfloat (x * scale_factor))) pcm
  else pcm

/-! ## Runs of the music thread -/

/-- What the callers can have done to the engine `e` by the time the thread
takes the state lock again: the thread alone writes `music_state` once it
runs, and `active`, `fadein_start` and `fade_timer` are its locals; the
pending command, the forced flag and the other music globals are taken from
`o`. -/
def MusicEngine.callerSets (e o : MusicEngine) : MusicEngine :=
  { o with
    thread := { e.thread with music_command := o.thread.music_command
                              music_forced := o.thread.music_forced }
    calls := e.calls }

/-- The `while (1)` loop of `music_thread`: one entry of the list per
iteration, with what the callers have set before it and what the iteration
learns from outside.  The flag is set when the thread has returned; the
iterations left over are then not run. -/
def music_thread_run (MUSIC_FADEIN_DELAY MUSIC_FADEOUT_DELAY : Int) :
    MusicEngine → List (MusicEngine × MusicEnv) → MusicEngine × Bool
  | e, [] => (e, false)
  | e, turn :: rest =>
    let r := music_thread_iteration MUSIC_FADEIN_DELAY MUSIC_FADEOUT_DELAY turn.2
      (e.callerSets turn.1)
    if r.2 then r else music_thread_run MUSIC_FADEIN_DELAY MUSIC_FADEOUT_DELAY r.1 rest

/-! ## The writes of the reclaim loop into the free stack -/

/-- The values of `source_nstack` at which the loop of `sound_update` writes
into `source_stack`, in order: `sound_al_updateVoice` does the write
`source_stack[source_nstack] = v->source` for a voice that has a source
which the backend reports stopped.  The control is that of
`sound_update_loop`. -/
def sound_update_pushes : List alVoice → SoundState → List Int
  | [], _ => []
  | v :: rest, st =>
    let r := sound_al_updateVoice v st
    let here :=
      if v.source ≠ 0 ∧ alGetSourceState st.al v.source = ALState.AL_STOPPED then
        [st.source_nstack]
      else []
    if r.1.state = voice_state_t.VOICE_STOPPED ∨ r.1.state = voice_state_t.VOICE_DESTROY then
      let st2 := { r.2 with voice_pool := r.1 :: r.2.voice_pool }
      match rest with
      | [] => here
      | _ :: rest2 => here ++ sound_update_pushes rest2 st2
    else here ++ sound_update_pushes rest r.2

/-! ## The fill loop of `stream_loadBuffer` against a decoder function -/

/-- The `while (size < music_bufSize)` loop of `stream_loadBuffer` against a
decoder given as a function: `dec k req` is what the `k`-th coming call of
`ov_read` returns when it is asked for `req` bytes.  The first argument
bounds the number of reads, and the result is `none` when it is used up
before the loop is left.  Otherwise the result holds the return value, the
size handed to `alBufferData` when that call is reached, the number of reads
made and the values that `size` took at the loop test, in order. -/
def stream_fill_loop (bufSize : Int) :
    Nat → (Nat → Int → Int) → Int → Option (Int × Option Int × Nat × List Int)
  | 0, _, size => if size < bufSize then none else some (0, some size, 0, [size])
  | fuel + 1, dec, size =>
    if size < bufSize then
      let result := dec 0 (bufSize - size)
      if result = 0 then
        if size = 0 then some (-2, none, 1, [size]) else some (1, some size, 1, [size])
      else if result = OV_HOLE then some (0, none, 1, [size])
      else if result = OV_EBADLINK then some (-1, none, 1, [size])
      else
        (stream_fill_loop bufSize fuel (fun k => dec (k + 1)) (size + result)).map
          (fun r => (r.1, r.2.1, r.2.2.1 + 1, size :: r.2.2.2))
    else some (0, some size, 0, [size])

/-- The decoder that returns the entries of a list and then 0, end of
stream, whatever amount is asked for. -/
def scriptDecoder (l : List Int) : Nat → Int → Int := fun k _ => l.getD k 0

/-! ## Speed -/

/-- The engine of `poolOfFour` with sound disabled. -/
def mutedPool : SoundState := { poolOfFour with sound_disabled := true }

/-- What `music_thread_kill` sets: the KILL command and the forced flag. -/
def killPosted : MusicEngine :=
  { playingEngine with
    thread := { playingMusic with music_command := music_cmd_t.MUSIC_CMD_KILL
                                  music_forced := true } }

/-- What `music_pause` sets: the PAUSE command. -/
def pausePosted : MusicEngine :=
  { playingEngine with
    thread := { playingMusic with music_command := music_cmd_t.MUSIC_CMD_PAUSE } }

/-- What `music_resume` sets: the PLAY command. -/
def playPosted : MusicEngine :=
  { playingEngine with
    thread := { playingMusic with music_command := music_cmd_t.MUSIC_CMD_PLAY } }

/-- A decoder that delivers at most 3 bytes per read and ends the stream
at its sixth read. -/
def threeByteDecoder : Nat → Int → Int := fun k req => if k < 5 then min 3 req else 0

theorem wrapInt32_of_range {x : Int} (h0 : -2147483648 ≤ x) (h1 : x < 2147483648) :
    wrapInt32 x = x := by
  unfold wrapInt32
  omega

theorem reverse_take_succ (l : List Nat) (n : Nat) (h : n < l.length) :
    (l.take (n + 1)).reverse = l.getD n 0 :: (l.take n).reverse := by
  rw [List.take_succ, List.reverse_append]
  simp [List.getD, List.getElem?_eq_getElem h]

theorem take_succ_set (x : Nat) : ∀ (l : List Nat) (i : Nat), i < l.length →
    (l.set i x).take (i + 1) = l.take i ++ [x]
  | [], _, h => by simp at h
  | _ :: _, 0, _ => by simp
  | a :: l, i + 1, h => by
    simp only [List.set_cons_succ, List.take_succ_cons, List.cons_append]
    rw [take_succ_set x l i (by simpa using h)]

theorem reverse_take_reverse (l : List Nat) (k : Nat) :
    l = l.take (l.length - k) ++ (l.reverse.take k).reverse := by
  have h1 : (l.reverse.take k).reverse = l.drop (l.length - k) := by
    rw [List.reverse_take, List.reverse_reverse]
    simp
  rw [h1, List.take_append_drop]

theorem modifyFirst_find {α : Type} (p : α → Bool) (f : α → α) (hf : ∀ x, p (f x) = p x) :
    ∀ l : List α, (modifyFirst p f l).find? p = (l.find? p).map f
  | [] => rfl
  | x :: xs => by
    by_cases hx : p x
    · simp [modifyFirst, hx, List.find?, hf]
    · simp [modifyFirst, hx, List.find?, modifyFirst_find p f hf xs]

/-! ## Group creation -/

theorem sound_createGroup_loop_ok : ∀ (k i n : Nat) (g : alGroup_t) (st : SoundState),
    st.source_nstack = (n : Int) → k ≤ n → n ≤ st.source_stack.length →
    i + k ≤ g.sources.length →
    ∃ tot al1, sound_createGroup_loop k i g st =
      (true,
       { g with sources := g.sources.take i ++ ((st.source_stack.take n).reverse.take k)
                  ++ g.sources.drop (i + k) },
       { st with source_nstack := ((n - k : Nat) : Int), source_total := tot, al := al1 }) := by
  intro k
  induction k with
  | zero =>
    intro i n g st hn _ _ _
    refine ⟨st.source_total, st.al, ?_⟩
    simp [sound_createGroup_loop, ← hn]
  | succ k ih =>
    intro i n g st hn hk hlen hi
    obtain ⟨m, rfl⟩ : ∃ m, n = m + 1 := ⟨n - 1, by omega⟩
    have hpos : ¬ st.source_nstack ≤ 0 := by omega
    have hn1 : (sound_createGroup_body i g st).2.source_nstack = (m : Int) := by
      simp [sound_createGroup_body, hn]
    obtain ⟨tot, al1, h⟩ := ih (i + 1) m (sound_createGroup_body i g st).1
      (sound_createGroup_body i g st).2 hn1 (by omega)
      (by simp [sound_createGroup_body]; omega)
      (by simp [sound_createGroup_body]; omega)
    refine ⟨tot, al1, ?_⟩
    rw [sound_createGroup_loop, if_neg hpos]
    simp only [h]
    have hs : (st.source_nstack - 1).toNat = m := by omega
    have hrev := reverse_take_succ st.source_stack m (by omega)
    simp only [sound_createGroup_body, hs, Prod.mk.injEq, true_and]
    refine ⟨?_, ?_⟩
    · simp only [hrev, List.take_succ_cons]
      have hi2 : i < g.sources.length := by omega
      rw [take_succ_set _ _ _ hi2, List.drop_set_of_lt _ _ (by omega)]
      simp [Nat.add_assoc, Nat.add_comm 1 k]
    · have : ((m + 1 - (k + 1) : Nat) : Int) = ((m - k : Nat) : Int) := by
        congr 1
        omega
      rw [this]

/-- C1.  A pool with one free source and a request for two.  `sound_createGroup`
returns 0, but the source it pulled before the pool ran out is not put back:
the free count was 1 and is 0 afterwards, the source is in no group and no
longer in `source_total`, and the group id counter has advanced. -/
theorem sound_createGroup_failure_keeps_pulled_sources :
    (sound_al_init [11] [] false).source_nstack = 1 ∧
    (sound_createGroup 2 (sound_al_init [11] [] false)).1 = 0 ∧
    (sound_createGroup 2 (sound_al_init [11] [] false)).2.source_nstack = 0 ∧
    (sound_createGroup 2 (sound_al_init [11] [] false)).2.freeSources = [] ∧
    (sound_createGroup 2 (sound_al_init [11] [] false)).2.al_groups = [] ∧
    (sound_createGroup 2 (sound_al_init [11] [] false)).2.source_total = [] ∧
    (sound_createGroup 2 (sound_al_init [11] [] false)).2.al_groupidgen = 1 := by
  decide

/-- C2.  Two sources are allocated at initialisation; after a single
`sound_createGroup( 3 )`, which fails, no source is free, none is owned by a
voice and none is held by a group: the three counts add up to 0, not 2. -/
theorem source_conservation_fails_after_failed_createGroup :
    (sound_al_init [11, 12] [] false).source_all.length = 2 ∧
    (step (sound_al_init [11, 12] [] false) (SoundOp.createGroup 3)).1 = 0 ∧
    (run (sound_al_init [11, 12] [] false) [SoundOp.createGroup 3]).freeSources.length
      + (run (sound_al_init [11, 12] [] false) [SoundOp.createGroup 3]).voiceSources.length
      + (run (sound_al_init [11, 12] [] false) [SoundOp.createGroup 3]).groupSources.length
      = 0 := by
  decide

/-- C4.  With sound enabled and `0 <= size <= source_nstack` (the counter
within the allocated stack, the group id counter non-negative and below
`INT_MAX`), `sound_createGroup( size )` returns the previous group id counter
plus one, which is not 0; the free count drops by exactly `size`; one group
is appended, with that id, state PLAYING, speed flag 1, volume 1, and as its
sources the top `size` entries of the free stack in the order they were
popped; those entries are exactly what left the free stack.  The voice lists
and the stack array itself are untouched. -/
theorem sound_createGroup_success (st : SoundState) (size : Int)
    (hen : st.sound_disabled = false) (h0 : 0 ≤ size) (h1 : size ≤ st.source_nstack)
    (hwf : st.source_nstack ≤ st.source_mstack)
    (hid0 : 0 ≤ st.al_groupidgen) (hid1 : st.al_groupidgen < 2147483647) :
    (sound_createGroup size st).1 = st.al_groupidgen + 1 ∧
    (sound_createGroup size st).1 ≠ 0 ∧
    (sound_createGroup size st).2.source_nstack = st.source_nstack - size ∧
    (sound_createGroup size st).2.al_groups = st.al_groups ++
      [{ id := st.al_groupidgen + 1, sources := st.freeSources.reverse.take size.toNat,
         nsources := size, state := voice_state_t.VOICE_PLAYING, fade_timer := 0,
         speed := 1, volume := 1 }] ∧
    ((st.freeSources.reverse.take size.toNat).length : Int) = size ∧
    st.freeSources = (sound_createGroup size st).2.freeSources
      ++ (st.freeSources.reverse.take size.toNat).reverse ∧
    (sound_createGroup size st).2.al_groupidgen = st.al_groupidgen + 1 ∧
    (sound_createGroup size st).2.source_stack = st.source_stack ∧
    (sound_createGroup size st).2.voice_active = st.voice_active ∧
    (sound_createGroup size st).2.voice_pool = st.voice_pool := by
  obtain ⟨k, rfl⟩ : ∃ k : Nat, size = k := ⟨size.toNat, by omega⟩
  obtain ⟨n, hn⟩ : ∃ n : Nat, st.source_nstack = n := ⟨st.source_nstack.toNat, by omega⟩
  have hkn : k ≤ n := by omega
  have hlen : n ≤ st.source_stack.length := by
    simp only [SoundState.source_mstack] at hwf
    omega
  have hw : wrapInt32 (st.al_groupidgen + 1) = st.al_groupidgen + 1 :=
    wrapInt32_of_range (by omega) (by omega)
  obtain ⟨tot, al1, h⟩ := sound_createGroup_loop_ok k 0 n
    { id := st.al_groupidgen + 1, sources := List.replicate k 0, nsources := k,
      state := voice_state_t.VOICE_PLAYING, fade_timer := 0, speed := 1, volume := 1 }
    { st with al_groupidgen := st.al_groupidgen + 1 } hn hkn hlen (by simp)
  have hfree : st.freeSources = st.source_stack.take n := by
    simp [SoundState.freeSources, hn]
  have hlenfree : st.freeSources.length = n := by
    rw [hfree, List.length_take]
    omega
  have key : sound_createGroup (k : Int) st = (st.al_groupidgen + 1,
      { st with al_groupidgen := st.al_groupidgen + 1, source_nstack := ((n - k : Nat) : Int),
                source_total := tot, al := al1,
                al_groups := st.al_groups ++
                  [{ id := st.al_groupidgen + 1, sources := (st.source_stack.take n).reverse.take k,
                     nsources := k, state := voice_state_t.VOICE_PLAYING, fade_timer := 0,
                     speed := 1, volume := 1 }] }) := by
    simp only [hen] at h
    simp only [sound_createGroup, hen, hw, Int.toNat_ofNat]
    rw [h]
    simp
  rw [key]
  simp only [Int.toNat_ofNat, hfree]
  refine ⟨trivial, by omega, ?_, trivial, ?_, ?_, trivial, trivial, trivial, trivial⟩
  · omega
  · simp only [List.length_take, List.length_reverse]
    omega
  · have := reverse_take_reverse (st.source_stack.take n) k
    rw [← hfree, hlenfree] at this
    rw [← hfree]
    conv_lhs => rw [this]
    congr 1
    simp only [SoundState.freeSources, Int.toNat_ofNat, hfree, List.take_take]
    congr 1
    omega

/-- Witness for C4: `createGroup(2)` on a pool with 4 free sources returns
id 1 and leaves 2 free; the group holds the two sources popped, 14 and 13. -/
theorem sound_createGroup_success_witness :
    poolOfFour.sound_disabled = false ∧ (0 : Int) ≤ 2 ∧ 2 ≤ poolOfFour.source_nstack ∧
    poolOfFour.source_nstack ≤ poolOfFour.source_mstack ∧
    0 ≤ poolOfFour.al_groupidgen ∧ poolOfFour.al_groupidgen < 2147483647 ∧
    ((sound_createGroup 2 poolOfFour).1 = poolOfFour.al_groupidgen + 1 ∧
    (sound_createGroup 2 poolOfFour).1 ≠ 0 ∧
    (sound_createGroup 2 poolOfFour).2.source_nstack = poolOfFour.source_nstack - 2 ∧
    (sound_createGroup 2 poolOfFour).2.al_groups = poolOfFour.al_groups ++
      [{ id := poolOfFour.al_groupidgen + 1,
         sources := poolOfFour.freeSources.reverse.take (2 : Int).toNat,
         nsources := 2, state := voice_state_t.VOICE_PLAYING, fade_timer := 0,
         speed := 1, volume := 1 }] ∧
    ((poolOfFour.freeSources.reverse.take (2 : Int).toNat).length : Int) = 2 ∧
    poolOfFour.freeSources = (sound_createGroup 2 poolOfFour).2.freeSources
      ++ (poolOfFour.freeSources.reverse.take (2 : Int).toNat).reverse ∧
    (sound_createGroup 2 poolOfFour).2.al_groupidgen = poolOfFour.al_groupidgen + 1 ∧
    (sound_createGroup 2 poolOfFour).2.source_stack = poolOfFour.source_stack ∧
    (sound_createGroup 2 poolOfFour).2.voice_active = poolOfFour.voice_active ∧
    (sound_createGroup 2 poolOfFour).2.voice_pool = poolOfFour.voice_pool) :=
  ⟨by decide, by decide, by decide, by decide, by decide, by decide,
    sound_createGroup_success poolOfFour 2 (by decide) (by decide) (by decide) (by decide)
      (by decide) (by decide)⟩

/-! ## Playing in a group -/

theorem sound_playGroup_loop_busy (st : SoundState) (g : alGroup_t) (buf : Nat) (once : Int) :
    ∀ (l : List Nat) (al : Backend) (hl : l ≠ []), (∀ s ∈ l, alBusy al s) →
      sound_playGroup_loop st g buf once l al =
        some (sound_playGroup_bind st g buf once (alSourceStop al (l.getLast hl)) (l.getLast hl))
  | [], _, hl, _ => absurd rfl hl
  | [s], al, _, hb => by
    have h := hb s (by simp)
    have hne : alGetSourceState al s ≠ ALState.AL_STOPPED := by
      rcases h with h | h <;> rw [h] <;> decide
    simp [sound_playGroup_loop, hne]
  | s :: t :: rest, al, _, hb => by
    have h : alBusy al s := hb s (by simp)
    have ih := sound_playGroup_loop_busy st g buf once (t :: rest) al (by simp)
      (fun x hx => hb x (List.mem_cons_of_mem _ hx))
    unfold alBusy at h
    simp only [sound_playGroup_loop, h, if_true, ih, List.getLast_cons_cons]

/-- C5.  With sound enabled, a valid sound index and a group of `n >= 1`
sources that are all playing or paused, `sound_playGroup` returns 0 and the
only backend calls it issues are on the source at index `n-1`: stop, bind the
buffer, relative, looping (off exactly when `once` is set), gain, play.  Every
other source keeps its record.  Afterwards the group is still registered with
the same sources and all of them are still busy, so the hypotheses hold again
and the next call picks the same slot. -/
theorem sound_playGroup_busy_reuses_last (st : SoundState) (group sound once : Int)
    (g : alGroup_t) (hen : st.sound_disabled = false)
    (hs0 : 0 ≤ sound) (hs1 : sound < st.sound_nlist)
    (hg : sound_al_getGroup group st = some g)
    (hn : 1 ≤ g.nsources) (hlen : (g.sources.length : Int) = g.nsources)
    (hbusy : ∀ s ∈ g.sources, alBusy st.al s) :
    (sound_playGroup group sound once st).1 = 0 ∧
    (sound_playGroup group sound once st).2.al.calls = st.al.calls ++
      [ALCall.SourceStop (g.sources.getD (g.nsources - 1).toNat 0),
       ALCall.SetBuffer (g.sources.getD (g.nsources - 1).toNat 0)
         (st.sound_list.getD sound.toNat ⟨0⟩).buf,
       ALCall.SetRelative (g.sources.getD (g.nsources - 1).toNat 0) true,
       ALCall.SetLooping (g.sources.getD (g.nsources - 1).toNat 0)
         (if once ≠ 0 then false else true),
       ALCall.SetGain (g.sources.getD (g.nsources - 1).toNat 0) (groupGain st g),
       ALCall.SourcePlay (g.sources.getD (g.nsources - 1).toNat 0)] ∧
    (∀ s, s ≠ g.sources.getD (g.nsources - 1).toNat 0 →
      (sound_playGroup group sound once st).2.al.src s = st.al.src s) ∧
    (sound_playGroup group sound once st).2.al.src (g.sources.getD (g.nsources - 1).toNat 0) =
      { st.al.src (g.sources.getD (g.nsources - 1).toNat 0) with
        state := ALState.AL_PLAYING
        buffer := (st.sound_list.getD sound.toNat ⟨0⟩).buf
        relative := true
        looping := (if once ≠ 0 then false else true)
        gain := groupGain st g } ∧
    sound_al_getGroup group (sound_playGroup group sound once st).2 =
      some { g with state := voice_state_t.VOICE_PLAYING } ∧
    (∀ s ∈ g.sources, alBusy (sound_playGroup group sound once st).2.al s) ∧
    (sound_playGroup group sound once st).2.sound_disabled = false ∧
    (sound_playGroup group sound once st).2.sound_list = st.sound_list := by
  have hne : g.sources ≠ [] := by
    intro h
    rw [h] at hlen
    simp at hlen
    omega
  have hvis : g.visited = g.sources := by
    unfold alGroup_t.visited
    apply List.take_of_length_le
    omega
  have hlast : g.sources.getLast hne = g.sources.getD (g.nsources - 1).toNat 0 := by
    rw [List.getLast_eq_getElem]
    have : (g.nsources - 1).toNat = g.sources.length - 1 := by omega
    rw [this, List.getD_eq_getElem?_getD, List.getElem?_eq_getElem]
    rfl
  have hloop := sound_playGroup_loop_busy st { g with state := voice_state_t.VOICE_PLAYING }
    (st.sound_list.getD sound.toNat ⟨0⟩).buf once g.sources st.al hne hbusy
  have hs : ¬ (sound < 0 ∨ sound ≥ st.sound_nlist) := by omega
  unfold sound_al_getGroup at hg
  have key : sound_playGroup group sound once st = (0,
      { st with
        al_groups := modifyFirst (fun x => x.id = group)
          (fun x => { x with state := voice_state_t.VOICE_PLAYING }) st.al_groups
        al := sound_playGroup_bind st { g with state := voice_state_t.VOICE_PLAYING }
          (st.sound_list.getD sound.toNat ⟨0⟩).buf once
          (alSourceStop st.al (g.sources.getD (g.nsources - 1).toNat 0))
          (g.sources.getD (g.nsources - 1).toNat 0) }) := by
    rw [hlast] at hloop
    have hvis2 : alGroup_t.visited { g with state := voice_state_t.VOICE_PLAYING } = g.sources :=
      hvis
    simp only [sound_playGroup, hen, hs, hg, hvis2, hloop]
    simp
  rw [key]
  generalize g.sources.getD (g.nsources - 1).toNat 0 = last at *
  refine ⟨rfl, ?_, ?_, ?_, ?_, ?_, hen, rfl⟩
  · simp [sound_playGroup_bind, alSourcePlay, alSourceGain, alSourceLooping, alSourceRelative,
      alSourceBuffer, alSourceStop, Backend.modify, groupGain]
  · intro s hsl
    simp [sound_playGroup_bind, alSourcePlay, alSourceGain, alSourceLooping, alSourceRelative,
      alSourceBuffer, alSourceStop, Backend.modify, hsl]
  · by_cases hi : (st.al.src last).state = ALState.AL_INITIAL <;>
      simp [sound_playGroup_bind, alSourcePlay, alSourceGain, alSourceLooping,
        alSourceRelative, alSourceBuffer, alSourceStop, Backend.modify, groupGain, hi]
  · simp only [sound_al_getGroup]
    rw [modifyFirst_find _ _ (by intro x; rfl), hg]
    rfl
  · intro s hsm
    have hb := hbusy s hsm
    unfold alBusy alGetSourceState at hb ⊢
    by_cases hsl : s = last
    · left
      simp [sound_playGroup_bind, alSourcePlay, alSourceGain, alSourceLooping, alSourceRelative,
        alSourceBuffer, alSourceStop, Backend.modify, hsl]
    · simpa [sound_playGroup_bind, alSourcePlay, alSourceGain, alSourceLooping, alSourceRelative,
        alSourceBuffer, alSourceStop, Backend.modify, hsl] using hb

/-- Witness for C5: a group of two sources (14 at index 0, 13 at index 1),
both busy; a further call works on the source at index 1. -/
theorem sound_playGroup_busy_reuses_last_witness :
    busyGroupOfTwo.sound_disabled = false ∧ (0 : Int) ≤ 0 ∧ 0 < busyGroupOfTwo.sound_nlist ∧
    sound_al_getGroup 1 busyGroupOfTwo = some groupOfTwo ∧
    1 ≤ groupOfTwo.nsources ∧ (groupOfTwo.sources.length : Int) = groupOfTwo.nsources ∧
    (∀ s ∈ groupOfTwo.sources, alBusy busyGroupOfTwo.al s) ∧
    groupOfTwo.sources.getD (groupOfTwo.nsources - 1).toNat 0 = 13 ∧
    ((sound_playGroup 1 0 1 busyGroupOfTwo).1 = 0 ∧
    (sound_playGroup 1 0 1 busyGroupOfTwo).2.al.calls = busyGroupOfTwo.al.calls ++
      [ALCall.SourceStop (groupOfTwo.sources.getD (groupOfTwo.nsources - 1).toNat 0),
       ALCall.SetBuffer (groupOfTwo.sources.getD (groupOfTwo.nsources - 1).toNat 0)
         (busyGroupOfTwo.sound_list.getD (0 : Int).toNat ⟨0⟩).buf,
       ALCall.SetRelative (groupOfTwo.sources.getD (groupOfTwo.nsources - 1).toNat 0) true,
       ALCall.SetLooping (groupOfTwo.sources.getD (groupOfTwo.nsources - 1).toNat 0)
         (if (1 : Int) ≠ 0 then false else true),
       ALCall.SetGain (groupOfTwo.sources.getD (groupOfTwo.nsources - 1).toNat 0) (groupGain busyGroupOfTwo groupOfTwo),
       ALCall.SourcePlay (groupOfTwo.sources.getD (groupOfTwo.nsources - 1).toNat 0)] ∧
    (∀ s, s ≠ groupOfTwo.sources.getD (groupOfTwo.nsources - 1).toNat 0 →
      (sound_playGroup 1 0 1 busyGroupOfTwo).2.al.src s = busyGroupOfTwo.al.src s) ∧
    (sound_playGroup 1 0 1 busyGroupOfTwo).2.al.src (groupOfTwo.sources.getD (groupOfTwo.nsources - 1).toNat 0) =
      { busyGroupOfTwo.al.src (groupOfTwo.sources.getD (groupOfTwo.nsources - 1).toNat 0) with
        state := ALState.AL_PLAYING
        buffer := (busyGroupOfTwo.sound_list.getD (0 : Int).toNat ⟨0⟩).buf
        relative := true
        looping := (if (1 : Int) ≠ 0 then false else true)
        gain := groupGain busyGroupOfTwo groupOfTwo } ∧
    sound_al_getGroup 1 (sound_playGroup 1 0 1 busyGroupOfTwo).2 =
      some { groupOfTwo with state := voice_state_t.VOICE_PLAYING } ∧
    (∀ s ∈ groupOfTwo.sources, alBusy (sound_playGroup 1 0 1 busyGroupOfTwo).2.al s) ∧
    (sound_playGroup 1 0 1 busyGroupOfTwo).2.sound_disabled = false ∧
    (sound_playGroup 1 0 1 busyGroupOfTwo).2.sound_list = busyGroupOfTwo.sound_list) :=
  ⟨by decide, by decide, by decide, by decide, by decide, by decide, by decide, by decide,
    sound_playGroup_busy_reuses_last busyGroupOfTwo 1 0 1 groupOfTwo (by decide) (by decide)
      (by decide) (by decide) (by decide) (by decide) (by decide)⟩

/-! ## Playing a voice -/

theorem sound_playCommon_empty (st : SoundState) (sound : Int) (px py vx vy : ℚ)
    (relative : Bool) (h : st.source_nstack ≤ 0) :
    sound_playCommon sound px py vx vy relative st =
      (-1, { st with voice_pool := { poolHead st with source := 0 } :: st.voice_pool.tail }) := by
  obtain ⟨dis, sl, gid, act, pool, stack, n, tot, all, grp, ggid, efx, sv, svl, svs, al⟩ := st
  simp only at h
  cases pool <;>
    simp [sound_playCommon, al_playVoice, sound_al_getSource, voice_new, setPoolHead, h, poolHead]

theorem sound_playCommon_zero (st : SoundState) (sound : Int) (px py vx vy : ℚ)
    (relative : Bool) (h : 0 < st.source_nstack) (htop : stackTop st = 0) :
    sound_playCommon sound px py vx vy relative st =
      (-1, { st with source_nstack := st.source_nstack - 1
                     voice_pool := { poolHead st with source := 0 } :: st.voice_pool.tail }) := by
  obtain ⟨dis, sl, gid, act, pool, stack, n, tot, all, grp, ggid, efx, sv, svl, svs, al⟩ := st
  simp only [stackTop, List.getD_eq_getElem?_getD, Int.pred_toNat] at h htop
  have h2 : ¬ n ≤ 0 := by omega
  cases pool <;>
    simp [sound_playCommon, al_playVoice, sound_al_getSource, voice_new, setPoolHead, h2,
      poolHead, htop]

theorem sound_playCommon_ok (st : SoundState) (sound : Int) (px py vx vy : ℚ)
    (relative : Bool) (h : 0 < st.source_nstack) (htop : stackTop st ≠ 0) :
    sound_playCommon sound px py vx vy relative st =
      (wrapInt32 (st.voice_genid + 1),
       { st with source_nstack := st.source_nstack - 1
                 voice_genid := wrapInt32 (st.voice_genid + 1)
                 voice_pool := st.voice_pool.tail
                 voice_active := playedVoice st sound px py vx vy :: st.voice_active
                 al := playedBackend st sound px py vx vy relative }) := by
  obtain ⟨dis, sl, gid, act, pool, stack, n, tot, all, grp, ggid, efx, sv, svl, svs, al⟩ := st
  simp only [stackTop, List.getD_eq_getElem?_getD, Int.pred_toNat] at h htop
  have h2 : ¬ n ≤ 0 := by omega
  cases pool <;>
    simp [sound_playCommon, al_playVoice, sound_al_getSource, voice_new, setPoolHead, h2,
      poolHead, htop, voice_add, playedVoice, playedBackend, stackTop]

theorem freeSources_pop (st : SoundState) (h : 0 < st.source_nstack) (htop : stackTop st ≠ 0) :
    st.freeSources = st.source_stack.take (st.source_nstack - 1).toNat ++ [stackTop st] := by
  obtain ⟨n, hn⟩ : ∃ n : Nat, st.source_nstack = (n : Int) + 1 :=
    ⟨(st.source_nstack - 1).toNat, by omega⟩
  have hidx : (st.source_nstack - 1).toNat = n := by omega
  unfold stackTop at htop ⊢
  rw [hidx] at htop ⊢
  have hlt : n < st.source_stack.length := by
    by_contra hge
    apply htop
    rw [List.getD_eq_getElem?_getD, List.getElem?_eq_none (by omega)]
    rfl
  have : st.source_nstack.toNat = n + 1 := by omega
  rw [SoundState.freeSources, this, List.take_succ]
  simp [List.getD_eq_getElem?_getD, List.getElem?_eq_getElem hlt]

/-- C6, as stated, fails.  Four voices are playing, no source is free and the
free voice list is empty; `sound_play` returns -1 and the free voice list now
holds the voice that `voice_new` allocated. -/
theorem sound_play_failure_grows_empty_pool :
    noFreeSource.sound_disabled = false ∧
    noFreeSource.source_nstack = 0 ∧
    noFreeSource.voice_pool = [] ∧
    (sound_play 0 noFreeSource).1 = -1 ∧
    (sound_play 0 noFreeSource).2.voice_pool = [alVoice.zero] ∧
    (sound_play 0 noFreeSource).2.voice_pool ≠ noFreeSource.voice_pool := by
  decide

/-- C6, amended.  With sound enabled, a valid sound index and no free source,
`sound_play` returns -1 and changes nothing but the free voice list: the
active list, the free stack and its counter, the identifier counter and the
backend are as before.  A non-empty free voice list keeps its voices in
order, the `source` field of its head being overwritten with 0; an empty one
receives the zero-filled voice that `voice_new` allocated. -/
theorem sound_play_without_source (st : SoundState) (sound : Int)
    (hen : st.sound_disabled = false) (hs0 : 0 ≤ sound) (hs1 : sound < st.sound_nlist)
    (hfree : st.source_nstack ≤ 0) :
    sound_play sound st = (-1,
      { st with voice_pool :=
          match st.voice_pool with
          | [] => [alVoice.zero]
          | v :: rest => { v with source := 0 } :: rest }) := by
  have hs : ¬ (sound < 0 ∨ sound ≥ st.sound_nlist) := by omega
  have key : sound_play sound st = sound_playCommon sound 0 0 0 0 true st := by
    simp [sound_play, hen, hs]
  rw [key, sound_playCommon_empty st sound 0 0 0 0 true hfree]
  cases hp : st.voice_pool <;> simp [poolHead, hp, alVoice.zero]

/-- Witness for the amended C6, in the state with four playing voices. -/
theorem sound_play_without_source_witness :
    noFreeSource.sound_disabled = false ∧ (0 : Int) ≤ 0 ∧ 0 < noFreeSource.sound_nlist ∧
    noFreeSource.source_nstack ≤ 0 ∧
    sound_play 0 noFreeSource = (-1,
      { noFreeSource with voice_pool :=
          match noFreeSource.voice_pool with
          | [] => [alVoice.zero]
          | v :: rest => { v with source := 0 } :: rest }) :=
  ⟨by decide, by decide, by decide, by decide,
    sound_play_without_source noFreeSource 0 (by decide) (by decide) (by decide) (by decide)⟩

/-- C7.  With sound enabled, a valid sound index, at least one free source
whose handle is not 0, and the identifier counter in `0 .. INT_MAX-1`,
`sound_play` returns the previous identifier counter plus one and stores it
in the counter; the free count drops by one and the source that left the
free stack is its top entry; the active list is the old one with one voice
put in front, which has that identifier, state PLAYING, that source, the
buffer of the sound, and zero position and velocity; the voice came off the
head of the free voice list (if it had one), and the backend plays the source. -/
theorem sound_play_success (st : SoundState) (sound : Int)
    (hen : st.sound_disabled = false) (hs0 : 0 ≤ sound) (hs1 : sound < st.sound_nlist)
    (hfree : 0 < st.source_nstack) (htop : stackTop st ≠ 0)
    (hid0 : 0 ≤ st.voice_genid) (hid1 : st.voice_genid < 2147483647) :
    (sound_play sound st).1 = st.voice_genid + 1 ∧
    (sound_play sound st).2.voice_genid = st.voice_genid + 1 ∧
    (sound_play sound st).2.source_nstack = st.source_nstack - 1 ∧
    st.freeSources = (sound_play sound st).2.freeSources ++ [stackTop st] ∧
    (∃ v : alVoice, (sound_play sound st).2.voice_active = v :: st.voice_active ∧
      v.id = st.voice_genid + 1 ∧ v.state = voice_state_t.VOICE_PLAYING ∧
      v.source = stackTop st ∧
      v.buffer = (st.sound_list.getD sound.toNat ⟨0⟩).buf ∧
      v.pos = (0, 0, 0) ∧ v.vel = (0, 0, 0)) ∧
    (sound_play sound st).2.voice_pool = st.voice_pool.tail ∧
    alGetSourceState (sound_play sound st).2.al (stackTop st) = ALState.AL_PLAYING := by
  have hs : ¬ (sound < 0 ∨ sound ≥ st.sound_nlist) := by omega
  have hw : wrapInt32 (st.voice_genid + 1) = st.voice_genid + 1 :=
    wrapInt32_of_range (by omega) (by omega)
  have key : sound_play sound st = sound_playCommon sound 0 0 0 0 true st := by
    simp [sound_play, hen, hs]
  rw [key, sound_playCommon_ok st sound 0 0 0 0 true hfree htop, hw]
  refine ⟨rfl, rfl, rfl, ?_, ⟨_, rfl, ?_, rfl, rfl, rfl, rfl, rfl⟩, rfl, ?_⟩
  · rw [freeSources_pop st hfree htop]
    rfl
  · simp [playedVoice, hw]
  · simp [playedBackend, alGetSourceState, alSourcePlay, Backend.modify]

/-- Witness for C7: the first play on a pool of four takes source 14 (the top
of the stack) and returns identifier 1. -/
theorem sound_play_success_witness :
    poolOfFour.sound_disabled = false ∧ (0 : Int) ≤ 0 ∧ 0 < poolOfFour.sound_nlist ∧
    0 < poolOfFour.source_nstack ∧ stackTop poolOfFour ≠ 0 ∧
    0 ≤ poolOfFour.voice_genid ∧ poolOfFour.voice_genid < 2147483647 ∧
    stackTop poolOfFour = 14 ∧
    ((sound_play 0 poolOfFour).1 = poolOfFour.voice_genid + 1 ∧
    (sound_play 0 poolOfFour).2.voice_genid = poolOfFour.voice_genid + 1 ∧
    (sound_play 0 poolOfFour).2.source_nstack = poolOfFour.source_nstack - 1 ∧
    poolOfFour.freeSources = (sound_play 0 poolOfFour).2.freeSources ++ [stackTop poolOfFour] ∧
    (∃ v : alVoice, (sound_play 0 poolOfFour).2.voice_active = v :: poolOfFour.voice_active ∧
      v.id = poolOfFour.voice_genid + 1 ∧ v.state = voice_state_t.VOICE_PLAYING ∧
      v.source = stackTop poolOfFour ∧
      v.buffer = (poolOfFour.sound_list.getD (0 : Int).toNat ⟨0⟩).buf ∧
      v.pos = (0, 0, 0) ∧ v.vel = (0, 0, 0)) ∧
    (sound_play 0 poolOfFour).2.voice_pool = poolOfFour.voice_pool.tail ∧
    alGetSourceState (sound_play 0 poolOfFour).2.al (stackTop poolOfFour)
      = ALState.AL_PLAYING) :=
  ⟨by decide, by decide, by decide, by decide, by decide, by decide, by decide, by decide,
    sound_play_success poolOfFour 0 (by decide) (by decide) (by decide) (by decide)
      (by decide) (by decide) (by decide)⟩

/-! ## The music thread: stopping -/

theorem music_stop_wait_returned :
    ∀ (wakeups : List music_state_t) (s : music_state_t),
      music_stop_wait wakeups = WaitResult.returned s →
      s = music_state_t.MUSIC_STATE_IDLE ∨ s = music_state_t.MUSIC_STATE_FADEOUT
  | [], s, h => by simp [music_stop_wait] at h
  | x :: rest, s, h => by
    unfold music_stop_wait at h
    split at h
    · rename_i hx
      injection h with h
      rw [← h]
      exact hx
    · exact music_stop_wait_returned rest s h

theorem music_stop_wait_first :
    ∀ (pre : List music_state_t) (s : music_state_t) (rest : List music_state_t),
      (∀ x ∈ pre, x ≠ music_state_t.MUSIC_STATE_IDLE ∧ x ≠ music_state_t.MUSIC_STATE_FADEOUT) →
      (s = music_state_t.MUSIC_STATE_IDLE ∨ s = music_state_t.MUSIC_STATE_FADEOUT) →
      music_stop_wait (pre ++ s :: rest) = WaitResult.returned s
  | [], s, rest, _, hs => by simp [music_stop_wait, hs]
  | x :: pre, s, rest, hpre, hs => by
    have hx := hpre x (by simp)
    have ih := music_stop_wait_first pre s rest
      (fun y hy => hpre y (List.mem_cons_of_mem _ hy)) hs
    simp [music_stop_wait, hx.1, hx.2, ih]

/-- C10.  With music enabled, `music_stop` posts the FADEOUT command and its
wait loop can only be left on a reading of `music_state` that is IDLE or
FADEOUT, so never on PLAYING; it is left at the first such reading, and stays
blocked while there is none.  For every state of the thread, the command
phase of the worker with that command pending gives state FADEOUT and
records the tick in `fade_timer` when the state was not IDLE, leaves an IDLE
state and the timer alone otherwise, and in both cases clears the command and
broadcasts once. -/
theorem music_stop_waits_for_idle_or_fadeout (delay : Int) (ticks : Nat) (m : MusicThread)
    (wakeups : List music_state_t) :
    (music_stop false m wakeups).1.music_command = music_cmd_t.MUSIC_CMD_FADEOUT ∧
    (∀ s, (music_stop false m wakeups).2 = WaitResult.returned s →
      (s = music_state_t.MUSIC_STATE_IDLE ∨ s = music_state_t.MUSIC_STATE_FADEOUT) ∧
      s ≠ music_state_t.MUSIC_STATE_PLAYING) ∧
    (music_stop false m wakeups).2 ≠ WaitResult.skipped ∧
    (∀ pre s rest, wakeups = pre ++ s :: rest →
      (∀ x ∈ pre, x ≠ music_state_t.MUSIC_STATE_IDLE ∧ x ≠ music_state_t.MUSIC_STATE_FADEOUT) →
      (s = music_state_t.MUSIC_STATE_IDLE ∨ s = music_state_t.MUSIC_STATE_FADEOUT) →
      (music_stop false m wakeups).2 = WaitResult.returned s) ∧
    ((∀ x ∈ wakeups, x ≠ music_state_t.MUSIC_STATE_IDLE ∧ x ≠ music_state_t.MUSIC_STATE_FADEOUT) →
      (music_stop false m wakeups).2 = WaitResult.blocked) ∧
    (music_thread_command delay ticks (music_stop false m wakeups).1).music_state =
      (if m.music_state = music_state_t.MUSIC_STATE_IDLE then music_state_t.MUSIC_STATE_IDLE
       else music_state_t.MUSIC_STATE_FADEOUT) ∧
    (music_thread_command delay ticks (music_stop false m wakeups).1).fade_timer =
      (if m.music_state = music_state_t.MUSIC_STATE_IDLE then m.fade_timer
       else wrapUInt32 ticks) ∧
    (music_thread_command delay ticks (music_stop false m wakeups).1).music_command =
      music_cmd_t.MUSIC_CMD_NONE ∧
    (music_thread_command delay ticks (music_stop false m wakeups).1).broadcasts =
      m.broadcasts + 1 := by
  refine ⟨rfl, ?_, ?_, ?_, ?_, ?_, ?_, ?_, ?_⟩
  · intro s hs
    have h := music_stop_wait_returned wakeups s (by simpa [music_stop] using hs)
    refine ⟨h, ?_⟩
    rcases h with h | h <;> rw [h] <;> decide
  · simp only [music_stop, Bool.false_eq_true, if_false]
    cases hw : music_stop_wait wakeups
    · exfalso
      clear m
      induction wakeups with
      | nil => simp [music_stop_wait] at hw
      | cons x rest ih =>
        unfold music_stop_wait at hw
        split at hw
        · cases hw
        · exact ih hw
    · simp
    · simp
  · intro pre s rest hw hpre hs
    rw [hw]
    simpa [music_stop] using music_stop_wait_first pre s rest hpre hs
  · intro hall
    simp only [music_stop, Bool.false_eq_true, if_false]
    clear m
    induction wakeups with
    | nil => rfl
    | cons x rest ih =>
      have hx := hall x (by simp)
      simp only [music_stop_wait, hx.1, hx.2, or_self, if_false]
      exact ih (fun y hy => hall y (List.mem_cons_of_mem _ hy))
  · by_cases h : m.music_state = music_state_t.MUSIC_STATE_IDLE <;>
      simp [music_stop, music_thread_command, MusicThread.broadcast, h]
  · by_cases h : m.music_state = music_state_t.MUSIC_STATE_IDLE <;>
      simp [music_stop, music_thread_command, MusicThread.broadcast, h]
  · by_cases h : m.music_state = music_state_t.MUSIC_STATE_IDLE <;>
      simp [music_stop, music_thread_command, MusicThread.broadcast, h]
  · by_cases h : m.music_state = music_state_t.MUSIC_STATE_IDLE <;>
      simp [music_stop, music_thread_command, MusicThread.broadcast, h]


/-- Witness for C10: the caller is woken three times and reads PLAYING,
FADEOUT, IDLE; it returns at the second reading. -/
theorem music_stop_waits_for_idle_or_fadeout_witness :
    (music_stop false playingMusic
      [music_state_t.MUSIC_STATE_PLAYING, music_state_t.MUSIC_STATE_FADEOUT,
       music_state_t.MUSIC_STATE_IDLE]).2
      = WaitResult.returned music_state_t.MUSIC_STATE_FADEOUT ∧
    (music_thread_command 2000 7 (music_stop false playingMusic []).1).music_state
      = music_state_t.MUSIC_STATE_FADEOUT ∧
    ((music_state_t.MUSIC_STATE_FADEOUT = music_state_t.MUSIC_STATE_IDLE ∨
      music_state_t.MUSIC_STATE_FADEOUT = music_state_t.MUSIC_STATE_FADEOUT) ∧
     music_state_t.MUSIC_STATE_FADEOUT ≠ music_state_t.MUSIC_STATE_PLAYING) :=
  ⟨by decide, by decide,
    (music_stop_waits_for_idle_or_fadeout 2000 7 playingMusic
      [music_state_t.MUSIC_STATE_PLAYING, music_state_t.MUSIC_STATE_FADEOUT,
       music_state_t.MUSIC_STATE_IDLE]).2.1 music_state_t.MUSIC_STATE_FADEOUT (by decide)⟩

/-! ## The reclaim pass -/

/-- C3.  Two adjacent active voices, both stopped in the backend.  One pass of
`sound_update` reclaims the first (voice 2, source 11) and steps over its
successor: voice 1 is still in the active list and still owns source 12,
which is not on the free stack, and the voice is not in the pool. -/
theorem sound_update_skips_successor_of_reclaimed_voice :
    twoStoppedVoices.voice_active.map alVoice.id = [2, 1] ∧
    twoStoppedVoices.voice_active.map alVoice.source = [11, 12] ∧
    (twoStoppedVoices.voice_active.map
      (fun v => alGetSourceState twoStoppedVoices.al v.source))
      = [ALState.AL_STOPPED, ALState.AL_STOPPED] ∧
    (sound_update 0 twoStoppedVoices).voice_active.map alVoice.id = [1] ∧
    (sound_update 0 twoStoppedVoices).voice_active.map alVoice.source = [12] ∧
    (sound_update 0 twoStoppedVoices).freeSources = [11] ∧
    (sound_update 0 twoStoppedVoices).voice_pool.map alVoice.id = [2] := by
  decide

/-! ## Invariants of the source pool and of the voice identifiers -/

theorem sound_al_updateVoice_spec (v : alVoice) (st : SoundState) (n : Nat)
    (hn : st.source_nstack = n) (hlen : n + 1 ≤ st.source_stack.length) :
    ∃ m : Nat, (sound_al_updateVoice v st).2.source_nstack = m ∧ m ≤ n + 1 ∧
      (sound_al_updateVoice v st).2.source_stack.length = st.source_stack.length ∧
      (∀ a, List.count a ((sound_al_updateVoice v st).2.source_stack.take m)
        ≤ List.count a (st.source_stack.take n) + List.count a [v.source]) ∧
      (sound_al_updateVoice v st).1.id = v.id ∧
      (sound_al_updateVoice v st).2.voice_genid = st.voice_genid ∧
      (sound_al_updateVoice v st).2.al_groups = st.al_groups ∧
      (sound_al_updateVoice v st).2.sound_disabled = st.sound_disabled ∧
      (sound_al_updateVoice v st).2.voice_pool = st.voice_pool ∧
      (¬ ((sound_al_updateVoice v st).1.state = voice_state_t.VOICE_STOPPED ∨
          (sound_al_updateVoice v st).1.state = voice_state_t.VOICE_DESTROY) →
        m = n ∧ (sound_al_updateVoice v st).2.source_stack = st.source_stack ∧
        (sound_al_updateVoice v st).1.source = v.source) := by
  unfold sound_al_updateVoice
  by_cases h0 : v.source = 0
  · refine ⟨n, ?_⟩
    simp [h0, hn]
  · by_cases hs : alGetSourceState st.al v.source = ALState.AL_STOPPED
    · refine ⟨n + 1, ?_⟩
      simp only [h0, hs, if_false, if_true, hn, Int.toNat_ofNat, List.length_set]
      refine ⟨by simp, le_refl _, trivial, ?_, trivial, trivial, trivial, trivial, trivial, ?_⟩
      · intro a
        rw [take_succ_set _ _ _ (by omega)]
        simp
      · simp
    · refine ⟨n, ?_⟩
      simp [h0, hs, hn]

/-- The reclaim loop keeps the stack counter within bounds, never increases
the multiplicity of a handle among the free sources and the voices it leaves
linked, and leaves the identifiers as a sublist. -/
theorem sound_update_loop_spec (l : List alVoice) (st : SoundState) :
    ∀ n : Nat, st.source_nstack = n → n + l.length ≤ st.source_stack.length →
      LoopOut l st n (sound_update_loop l st) := by
  induction l, st using sound_update_loop.induct with
  | case1 st =>
    intro n hn _
    exact ⟨n, by simp [sound_update_loop, hn]⟩
  | case2 v st r hrem =>
    intro n hn hlen
    simp only [r] at hrem
    obtain ⟨m, h1, h2, h3, h4, _, h6, h7, h8, _, _⟩ :=
      sound_al_updateVoice_spec v st n hn (by simpa using hlen)
    refine ⟨m, ?_⟩
    simp only [sound_update_loop, hrem, if_true, List.length_nil, List.length_cons,
      List.map_nil, List.map_cons, List.count_nil, Nat.add_zero]
    exact ⟨h1, by omega, h3, h4, List.nil_sublist _, h6, h7, h8⟩
  | case3 v st r hrem st2 s rest2 ih =>
    intro n hn hlen
    simp only [List.length_cons] at hlen
    simp only [st2, r] at ih hrem
    obtain ⟨m, h1, h2, h3, h4, _, h6, h7, h8, _, _⟩ :=
      sound_al_updateVoice_spec v st n hn (by omega)
    obtain ⟨k, g1, g2, g3, g4, g5, g6, g7, g8⟩ := ih m h1 (by
      simp only [h3]
      omega)
    simp only at g1 g2 g3 g4 g5 g6 g7 g8
    refine ⟨k, ?_⟩
    simp only [sound_update_loop, hrem, if_true, List.length_cons, List.map_cons]
    refine ⟨g1, by omega, g3.trans h3, ?_, ?_, g6.trans h6, g7.trans h7, g8.trans h8⟩
    · intro a
      have e1 := g4 a
      have e2 := h4 a
      simp only [List.count_cons, List.count_nil] at e1 e2 ⊢
      omega
    · exact (g5.cons₂ _).cons _
  | case4 v rest st r hkeep ih =>
    intro n hn hlen
    simp only [List.length_cons] at hlen
    simp only [r] at ih hkeep
    obtain ⟨m, h1, h2, h3, h4, h5, h6, h7, h8, _, h10⟩ :=
      sound_al_updateVoice_spec v st n hn (by omega)
    obtain ⟨rfl, hst, hsrc⟩ := h10 hkeep
    obtain ⟨k, g1, g2, g3, g4, g5, g6, g7, g8⟩ := ih m h1 (by
      simp only [h3]
      omega)
    refine ⟨k, ?_⟩
    simp only [sound_update_loop, hkeep, if_false, List.length_cons, List.map_cons]
    refine ⟨g1, by omega, g3.trans h3, ?_, ?_, g6.trans h6, g7.trans h7, g8.trans h8⟩
    · intro a
      have e1 := g4 a
      rw [hst] at e1
      simp only [List.count_cons, hsrc] at e1 ⊢
      omega
    · rw [h5]
      exact g5.cons₂ _

theorem sameShape_refl (st : SoundState) : SameShape st st :=
  ⟨rfl, rfl, rfl, rfl, rfl, rfl⟩

theorem modifyFirst_map {α β : Type} (p : α → Bool) (f : α → α) (g : α → β)
    (hg : ∀ x, g (f x) = g x) : ∀ l : List α, (modifyFirst p f l).map g = l.map g
  | [] => rfl
  | x :: xs => by
    by_cases hx : p x
    · simp [modifyFirst, hx, hg]
    · simp [modifyFirst, hx, modifyFirst_map p f g hg xs]

theorem sameShape_owners {st st2 : SoundState} (h : SameShape st st2) :
    st2.owners = st.owners := by
  obtain ⟨h1, h2, h3, _, h5, _⟩ := h
  simp only [SoundState.owners, SoundState.freeSources, SoundState.voiceSources,
    SoundState.groupSources, h1, h2, h3, h5]

theorem sameShape_wf {st st2 : SoundState} (h : SameShape st st2) (hw : st.WF) : st2.WF := by
  obtain ⟨h1, h2, h3, _, h5, _⟩ := h
  obtain ⟨n, hn, hle⟩ := hw
  refine ⟨n, h1.trans hn, ?_⟩
  have e1 : st2.voice_active.length = st.voice_active.length := by
    have := congrArg List.length h3
    simpa using this
  simp only [SoundState.groupSources, h5, h2, e1]
  exact hle

theorem sound_al_update_loop_sources (st : SoundState) (t : Nat) :
    ∀ (gs : List alGroup_t) (al : Backend),
      (sound_al_update_loop st t gs al).2.map alGroup_t.sources = gs.map alGroup_t.sources
  | [], _ => rfl
  | g :: gs, al => by
    have ih := sound_al_update_loop_sources st t gs (sound_al_update_group st t al g).1
    have hg : (sound_al_update_group st t al g).2.sources = g.sources := by
      unfold sound_al_update_group
      simp only []
      split_ifs <;> rfl
    simp only [sound_al_update_loop, List.map_cons, ih, hg]

theorem sound_al_update_shape (t : Nat) (st : SoundState) :
    SameShape st (sound_al_update t st) :=
  ⟨rfl, rfl, rfl, rfl, sound_al_update_loop_sources st t st.al_groups st.al, rfl⟩

theorem sound_stop_shape (voice : Int) (st : SoundState) :
    SameShape st (sound_stop voice st) := by
  unfold sound_stop
  split
  · exact sameShape_refl st
  · split
    · exact sameShape_refl st
    · exact ⟨rfl, rfl, modifyFirst_map _ _ alVoice.source (by intro _; rfl) _,
        modifyFirst_map _ _ alVoice.id (by intro _; rfl) _, rfl, rfl⟩

theorem sound_stopAll_shape (st : SoundState) : SameShape st (sound_stopAll st) := by
  unfold sound_stopAll
  split
  · exact sameShape_refl st
  · refine ⟨rfl, rfl, ?_, ?_, rfl, rfl⟩ <;> simp [List.map_map, Function.comp_def]

theorem sound_updatePos_shape (voice : Int) (px py vx vy : ℚ) (st : SoundState) :
    SameShape st (sound_updatePos voice px py vx vy st) := by
  unfold sound_updatePos
  split
  · exact sameShape_refl st
  · exact ⟨rfl, rfl, modifyFirst_map _ _ alVoice.source (by intro _; rfl) _,
      modifyFirst_map _ _ alVoice.id (by intro _; rfl) _, rfl, rfl⟩

theorem sound_stopGroup_shape (group : Int) (ticks : Nat) (st : SoundState) :
    SameShape st (sound_stopGroup group ticks st) := by
  unfold sound_stopGroup
  split
  · exact sameShape_refl st
  · exact ⟨rfl, rfl, rfl, rfl, modifyFirst_map _ _ alGroup_t.sources (by intro _; rfl) _, rfl⟩

theorem sound_playGroup_shape (group sound once : Int) (st : SoundState) :
    SameShape st (sound_playGroup group sound once st).2 := by
  unfold sound_playGroup
  split
  · exact sameShape_refl st
  · split
    · exact sameShape_refl st
    · split
      · exact sameShape_refl st
      · dsimp only
        split <;>
          exact ⟨rfl, rfl, rfl, rfl, modifyFirst_map _ _ alGroup_t.sources (by intro _; rfl) _, rfl⟩

theorem backendSets_shape (s : Nat) (x : ALState) (st : SoundState) :
    SameShape st (backendSets s x st) :=
  ⟨rfl, rfl, rfl, rfl, rfl, rfl⟩

theorem sound_createGroup_loop_fail : ∀ (k i n : Nat) (g : alGroup_t) (st : SoundState),
    st.source_nstack = (n : Int) → n < k →
    ∃ g2 tot al1, sound_createGroup_loop k i g st =
      (false, g2, { st with source_nstack := 0, source_total := tot, al := al1 }) := by
  intro k
  induction k with
  | zero =>
    intro i n g st _ hk
    omega
  | succ k ih =>
    intro i n g st hn hk
    cases n with
    | zero =>
      refine ⟨g, st.source_total, st.al, ?_⟩
      have h0 : st.source_nstack ≤ 0 := by omega
      rw [sound_createGroup_loop, if_pos h0]
      have hn0 : st.source_nstack = 0 := by simpa using hn
      obtain ⟨dis, sl, gid, act, pool, stack, ns, tot, all, grp, ggid, efx, sv, svl, svs, al⟩ := st
      simp only at hn0
      subst hn0
      rfl
    | succ m =>
      have hpos : ¬ st.source_nstack ≤ 0 := by omega
      have hn1 : (sound_createGroup_body i g st).2.source_nstack = (m : Int) := by
        simp [sound_createGroup_body, hn]
      obtain ⟨g2, tot, al1, h⟩ := ih (i + 1) m (sound_createGroup_body i g st).1
        (sound_createGroup_body i g st).2 hn1 (by omega)
      refine ⟨g2, tot, al1, ?_⟩
      rw [sound_createGroup_loop, if_neg hpos]
      simp only [h]
      simp [sound_createGroup_body]

theorem sound_createGroup_ok (st : SoundState) (size : Int) (n : Nat)
    (hen : st.sound_disabled = false) (hn : st.source_nstack = n)
    (hkn : size.toNat ≤ n) (hlen : n ≤ st.source_stack.length) :
    ∃ tot al1, sound_createGroup size st = (wrapInt32 (st.al_groupidgen + 1),
      { st with al_groupidgen := wrapInt32 (st.al_groupidgen + 1)
                source_nstack := ((n - size.toNat : Nat) : Int)
                source_total := tot
                al := al1
                al_groups := st.al_groups ++
                  [{ id := wrapInt32 (st.al_groupidgen + 1)
                     sources := (st.source_stack.take n).reverse.take size.toNat
                     nsources := size, state := voice_state_t.VOICE_PLAYING, fade_timer := 0
                     speed := 1, volume := 1 }] }) := by
  obtain ⟨tot, al1, h⟩ := sound_createGroup_loop_ok size.toNat 0 n
    { id := wrapInt32 (st.al_groupidgen + 1), sources := List.replicate size.toNat 0,
      nsources := size, state := voice_state_t.VOICE_PLAYING, fade_timer := 0, speed := 1,
      volume := 1 }
    { st with al_groupidgen := wrapInt32 (st.al_groupidgen + 1) } hn hkn hlen (by simp)
  refine ⟨tot, al1, ?_⟩
  simp only [hen] at h
  simp only [sound_createGroup, hen]
  rw [h]
  simp

theorem sound_createGroup_fail (st : SoundState) (size : Int) (n : Nat)
    (hen : st.sound_disabled = false) (hn : st.source_nstack = n) (hkn : n < size.toNat) :
    ∃ tot al1, sound_createGroup size st =
      (0, { st with al_groupidgen := wrapInt32 (st.al_groupidgen + 1)
                    source_nstack := 0
                    source_total := tot
                    al := al1 }) := by
  obtain ⟨g2, tot, al1, h⟩ := sound_createGroup_loop_fail size.toNat 0 n
    { id := wrapInt32 (st.al_groupidgen + 1), sources := List.replicate size.toNat 0,
      nsources := size, state := voice_state_t.VOICE_PLAYING, fade_timer := 0, speed := 1,
      volume := 1 }
    { st with al_groupidgen := wrapInt32 (st.al_groupidgen + 1) } hn hkn
  refine ⟨tot, al1, ?_⟩
  simp only [hen] at h
  simp only [sound_createGroup, hen]
  rw [h]
  simp

/-- The three outcomes of `sound_playCommon`: no free source, a free source
with handle 0, a usable source. -/
theorem sound_playCommon_cases (P : Int × SoundState → Prop) (st : SoundState) (sound : Int)
    (px py vx vy : ℚ) (relative : Bool)
    (h1 : st.source_nstack ≤ 0 →
      P (-1, { st with voice_pool := { poolHead st with source := 0 } :: st.voice_pool.tail }))
    (h2 : 0 < st.source_nstack → stackTop st = 0 →
      P (-1, { st with source_nstack := st.source_nstack - 1
                       voice_pool := { poolHead st with source := 0 } :: st.voice_pool.tail }))
    (h3 : 0 < st.source_nstack → stackTop st ≠ 0 →
      P (wrapInt32 (st.voice_genid + 1),
       { st with source_nstack := st.source_nstack - 1
                 voice_genid := wrapInt32 (st.voice_genid + 1)
                 voice_pool := st.voice_pool.tail
                 voice_active := playedVoice st sound px py vx vy :: st.voice_active
                 al := playedBackend st sound px py vx vy relative })) :
    P (sound_playCommon sound px py vx vy relative st) := by
  by_cases h : st.source_nstack ≤ 0
  · rw [sound_playCommon_empty _ _ _ _ _ _ _ h]
    exact h1 h
  · have hp : 0 < st.source_nstack := by omega
    by_cases ht : stackTop st = 0
    · rw [sound_playCommon_zero _ _ _ _ _ _ _ hp ht]
      exact h2 hp ht
    · rw [sound_playCommon_ok _ _ _ _ _ _ _ hp ht]
      exact h3 hp ht

theorem ownersStep_of_shape {st st2 : SoundState} (h : SameShape st st2) (hw : st.WF) :
    OwnersStep st st2 :=
  ⟨sameShape_wf h hw, fun a => by rw [sameShape_owners h]⟩

theorem sound_playCommon_owners (st : SoundState) (sound : Int) (px py vx vy : ℚ)
    (relative : Bool) (hw : st.WF) :
    OwnersStep st (sound_playCommon sound px py vx vy relative st).2 := by
  obtain ⟨n, hn, hle⟩ := hw
  apply sound_playCommon_cases (fun r => OwnersStep st r.2)
  · intro _
    exact ownersStep_of_shape ⟨rfl, rfl, rfl, rfl, rfl, rfl⟩ ⟨n, hn, hle⟩
  · intro hp _
    refine ⟨⟨n - 1, ?_, ?_⟩, ?_⟩
    · show st.source_nstack - 1 = ((n - 1 : Nat) : Int)
      omega
    · show n - 1 + st.voice_active.length + st.groupSources.length ≤ st.source_stack.length
      omega
    · intro a
      simp only [SoundState.owners, SoundState.freeSources, SoundState.voiceSources,
        SoundState.groupSources, List.count_append]
      have := (List.take_sublist_take_left st.source_stack
        (show (st.source_nstack - 1).toNat ≤ st.source_nstack.toNat by omega)).count_le a
      omega
  · intro hp ht
    refine ⟨⟨n - 1, ?_, ?_⟩, ?_⟩
    · show st.source_nstack - 1 = ((n - 1 : Nat) : Int)
      omega
    · show n - 1 + (st.voice_active.length + 1) + st.groupSources.length
        ≤ st.source_stack.length
      omega
    · intro a
      have hf := freeSources_pop st hp ht
      simp only [SoundState.owners, SoundState.voiceSources, SoundState.groupSources, hf,
        List.count_append, List.map_cons]
      simp only [SoundState.freeSources, playedVoice, List.count_cons, List.count_nil]
      omega

theorem sound_play_owners (sound : Int) (st : SoundState) (hw : st.WF) :
    OwnersStep st (sound_play sound st).2 := by
  unfold sound_play
  split
  · exact ownersStep_of_shape (sameShape_refl st) hw
  · split
    · exact ownersStep_of_shape (sameShape_refl st) hw
    · exact sound_playCommon_owners st sound 0 0 0 0 true hw

theorem sound_playPos_owners (sound : Int) (px py vx vy : ℚ) (inRange : Bool)
    (st : SoundState) (hw : st.WF) :
    OwnersStep st (sound_playPos sound px py vx vy inRange st).2 := by
  unfold sound_playPos
  split
  · exact ownersStep_of_shape (sameShape_refl st) hw
  · split
    · exact ownersStep_of_shape (sameShape_refl st) hw
    · split
      · exact ownersStep_of_shape (sameShape_refl st) hw
      · exact sound_playCommon_owners st sound px py vx vy false hw

theorem sound_createGroup_owners (size : Int) (st : SoundState) (hw : st.WF) :
    OwnersStep st (sound_createGroup size st).2 := by
  by_cases hen : st.sound_disabled = true
  · have : sound_createGroup size st = (0, st) := by simp [sound_createGroup, hen]
    rw [this]
    exact ownersStep_of_shape (sameShape_refl st) hw
  · have hen2 : st.sound_disabled = false := by simpa using hen
    obtain ⟨n, hn, hle⟩ := hw
    by_cases hk : size.toNat ≤ n
    · obtain ⟨tot, al1, h⟩ := sound_createGroup_ok st size n hen2 hn hk (by omega)
      rw [h]
      have hpop : ((st.source_stack.take n).reverse.take size.toNat).length = size.toNat := by
        simp only [List.length_take, List.length_reverse]
        omega
      refine ⟨⟨n - size.toNat, rfl, ?_⟩, ?_⟩
      · simp only [SoundState.groupSources, List.map_append, List.flatten_append, List.map_cons,
          List.map_nil, List.flatten_cons, List.flatten_nil, List.append_nil, List.length_append,
          hpop]
        simp only [SoundState.groupSources] at hle
        omega
      · intro a
        have hsplit := reverse_take_reverse (st.source_stack.take n) size.toNat
        have hc := congrArg (List.count a) hsplit
        simp only [List.count_append, List.count_reverse, List.length_take, List.take_take] at hc
        have e : min (min n st.source_stack.length - size.toNat) n = n - size.toNat := by omega
        rw [e] at hc
        simp only [SoundState.owners, SoundState.freeSources, SoundState.voiceSources,
          SoundState.groupSources, List.count_append, List.map_append, List.flatten_append,
          List.map_cons, List.map_nil, List.flatten_cons, List.flatten_nil, List.append_nil, hn,
          Int.toNat_ofNat]
        omega
    · obtain ⟨tot, al1, h⟩ := sound_createGroup_fail st size n hen2 hn (by omega)
      rw [h]
      refine ⟨⟨0, rfl, ?_⟩, ?_⟩
      · show 0 + st.voice_active.length + st.groupSources.length ≤ st.source_stack.length
        omega
      · intro a
        simp [SoundState.owners, SoundState.freeSources, SoundState.voiceSources,
          SoundState.groupSources]

theorem sound_update_owners (t : Nat) (st : SoundState) (hw : st.WF) :
    OwnersStep st (sound_update t st) := by
  unfold sound_update
  split
  · exact ownersStep_of_shape (sameShape_refl st) hw
  · have hshape := sound_al_update_shape t st
    obtain ⟨n, hn, hle⟩ := sameShape_wf hshape hw
    have hown := sameShape_owners hshape
    obtain ⟨m, g1, g2, g3, g4, _, _, g7, _⟩ := sound_update_loop_spec
      (sound_al_update t st).voice_active (sound_al_update t st) n hn (by omega)
    refine ⟨⟨m, g1, ?_⟩, ?_⟩
    · show m + (sound_update_loop _ _).1.length + (List.map alGroup_t.sources
        (sound_update_loop _ _).2.al_groups).flatten.length ≤
          (sound_update_loop _ _).2.source_stack.length
      rw [g3, g7]
      simp only [SoundState.groupSources] at hle
      omega
    · intro a
      rw [← hown]
      have e := g4 a
      simp only [SoundState.owners, SoundState.freeSources, SoundState.voiceSources,
        SoundState.groupSources, List.count_append, g1, g7, hn, Int.toNat_ofNat]
      omega

/-- Every call keeps the pool well formed and does not increase the
multiplicity of any handle among the owners. -/
theorem step_owners (st : SoundState) (op : SoundOp) (hw : st.WF) :
    OwnersStep st (step st op).2 := by
  cases op with
  | play sound => exact sound_play_owners sound st hw
  | playPos sound px py vx vy inRange => exact sound_playPos_owners sound px py vx vy inRange st hw
  | updatePos voice px py vx vy =>
    exact ownersStep_of_shape (sound_updatePos_shape voice px py vx vy st) hw
  | stop voice => exact ownersStep_of_shape (sound_stop_shape voice st) hw
  | stopAll => exact ownersStep_of_shape (sound_stopAll_shape st) hw
  | update ticks => exact sound_update_owners ticks st hw
  | createGroup size => exact sound_createGroup_owners size st hw
  | playGroup group sound once =>
    exact ownersStep_of_shape (sound_playGroup_shape group sound once st) hw
  | stopGroup group ticks => exact ownersStep_of_shape (sound_stopGroup_shape group ticks st) hw
  | backend s x => exact ownersStep_of_shape (backendSets_shape s x st) hw

theorem run_owners : ∀ (ops : List SoundOp) (st : SoundState), st.WF →
    (run st ops).WF ∧ ∀ a, List.count a (run st ops).owners ≤ List.count a st.owners
  | [], _, hw => ⟨hw, fun _ => le_refl _⟩
  | op :: ops, st, hw => by
    obtain ⟨h1, h2⟩ := step_owners st op hw
    obtain ⟨h3, h4⟩ := run_owners ops (step st op).2 h1
    exact ⟨h3, fun a => (h4 a).trans (h2 a)⟩

theorem sound_al_init_wf (handles : List Nat) (sounds : List alSound) (efx : Bool) :
    (sound_al_init handles sounds efx).WF :=
  ⟨handles.length, rfl, by simp [sound_al_init, SoundState.groupSources]⟩

/-- C9.  When the handles generated at initialisation are pairwise distinct,
then after every finite sequence of calls (play, positional play, position
update, stop, stop all, the per-tick update, group creation, group play,
group stop) and of playback-state changes made by the backend, the entries
of the free stack below `source_nstack`, the sources of the active voices
and the source arrays of the groups, put one after the other, contain no
handle twice. -/
theorem no_source_has_two_owners (handles : List Nat) (sounds : List alSound) (efx : Bool)
    (ops : List SoundOp) (hd : handles.Nodup) :
    ((run (sound_al_init handles sounds efx) ops).freeSources
      ++ (run (sound_al_init handles sounds efx) ops).voiceSources
      ++ (run (sound_al_init handles sounds efx) ops).groupSources).Nodup := by
  obtain ⟨_, hc⟩ := run_owners ops _ (sound_al_init_wf handles sounds efx)
  rw [List.nodup_iff_count_le_one]
  intro a
  have h0 : (sound_al_init handles sounds efx).owners = handles := by
    simp [SoundState.owners, SoundState.freeSources, SoundState.voiceSources,
      SoundState.groupSources, sound_al_init]
  have h1 := hc a
  rw [h0] at h1
  exact h1.trans (List.nodup_iff_count_le_one.mp hd a)

/-- Witness for C9: four distinct handles and the run `mixedOps`, after which
no source is free, one is owned by a voice and one by a group. -/
theorem no_source_has_two_owners_witness :
    [11, 12, 13, 14].Nodup ∧
    (run (sound_al_init [11, 12, 13, 14] [⟨101⟩] false) mixedOps).freeSources = [] ∧
    (run (sound_al_init [11, 12, 13, 14] [⟨101⟩] false) mixedOps).voiceSources = [14] ∧
    (run (sound_al_init [11, 12, 13, 14] [⟨101⟩] false) mixedOps).groupSources = [12] ∧
    ((run (sound_al_init [11, 12, 13, 14] [⟨101⟩] false) mixedOps).freeSources
      ++ (run (sound_al_init [11, 12, 13, 14] [⟨101⟩] false) mixedOps).voiceSources
      ++ (run (sound_al_init [11, 12, 13, 14] [⟨101⟩] false) mixedOps).groupSources).Nodup :=
  ⟨by decide, by decide, by decide, by decide,
    no_source_has_two_owners [11, 12, 13, 14] [⟨101⟩] false mixedOps (by decide)⟩

theorem idStep_of_sublist {st st2 : SoundState} (ret : Int) (hi : st.IdInv)
    (hs : st2.voiceIds.Sublist st.voiceIds) (hg : st2.voice_genid = st.voice_genid) :
    IdStep st st2 false ret := by
  obtain ⟨h1, h2, h3⟩ := hi
  refine ⟨⟨by rw [hg]; exact h1, ?_, h3.sublist hs⟩, by simpa using hg, ?_⟩
  · intro i hi2
    rw [hg]
    exact h2 i (hs.subset hi2)
  · intro i _ hni hi2
    exact hni (hs.subset hi2)

theorem idStep_of_shape {st st2 : SoundState} (ret : Int) (h : SameShape st st2)
    (hi : st.IdInv) : IdStep st st2 false ret :=
  idStep_of_sublist ret hi (by
    unfold SoundState.voiceIds
    rw [h.2.2.2.1]) h.2.2.2.2.2

theorem idStep_of_unchanged (st : SoundState) (ret : Int) (hi : st.IdInv) :
    IdStep st st (st.voice_active.length == st.voice_active.length + 1) ret := by
  have e : (st.voice_active.length == st.voice_active.length + 1) = false := by simp
  rw [e]
  exact idStep_of_shape ret (sameShape_refl st) hi

theorem sound_al_updateVoice_ids (v : alVoice) (st : SoundState) :
    (sound_al_updateVoice v st).1.id = v.id ∧
    (sound_al_updateVoice v st).2.voice_genid = st.voice_genid := by
  unfold sound_al_updateVoice
  split_ifs <;> exact ⟨rfl, rfl⟩

theorem sound_update_loop_ids (l : List alVoice) (st : SoundState) :
    ((sound_update_loop l st).1.map alVoice.id).Sublist (l.map alVoice.id) ∧
    (sound_update_loop l st).2.voice_genid = st.voice_genid := by
  induction l, st using sound_update_loop.induct with
  | case1 st => simp [sound_update_loop]
  | case2 v st r hrem =>
    simp only [r] at hrem
    simp only [sound_update_loop, hrem, if_true, List.map_nil]
    exact ⟨List.nil_sublist _, (sound_al_updateVoice_ids v st).2⟩
  | case3 v st r hrem st2 s rest2 ih =>
    simp only [st2, r] at ih hrem
    simp only [sound_update_loop, hrem, if_true, List.map_cons]
    exact ⟨(ih.1.cons₂ _).cons _, ih.2.trans (sound_al_updateVoice_ids v st).2⟩
  | case4 v rest st r hkeep ih =>
    simp only [r] at ih hkeep
    simp only [sound_update_loop, hkeep, if_false, List.map_cons]
    refine ⟨?_, ih.2.trans (sound_al_updateVoice_ids v st).2⟩
    rw [(sound_al_updateVoice_ids v st).1]
    exact ih.1.cons₂ _

theorem sound_createGroup_loop_voices : ∀ (k i : Nat) (g : alGroup_t) (st : SoundState),
    (sound_createGroup_loop k i g st).2.2.voice_active = st.voice_active ∧
    (sound_createGroup_loop k i g st).2.2.voice_genid = st.voice_genid
  | 0, _, _, _ => ⟨rfl, rfl⟩
  | k + 1, i, g, st => by
    unfold sound_createGroup_loop
    split
    · exact ⟨rfl, rfl⟩
    · exact sound_createGroup_loop_voices k (i + 1) _ _

theorem sound_createGroup_voices (size : Int) (st : SoundState) :
    (sound_createGroup size st).2.voice_active = st.voice_active ∧
    (sound_createGroup size st).2.voice_genid = st.voice_genid := by
  unfold sound_createGroup
  split
  · exact ⟨rfl, rfl⟩
  · have h := sound_createGroup_loop_voices size.toNat 0
      { id := wrapInt32 (st.al_groupidgen + 1), sources := List.replicate size.toNat 0,
        nsources := size, state := voice_state_t.VOICE_PLAYING, fade_timer := 0, speed := 1,
        volume := 1 }
      { st with al_groupidgen := wrapInt32 (st.al_groupidgen + 1) }
    dsimp only
    split <;> rename_i heq <;> rw [heq] at h <;> exact h

theorem sound_playCommon_ids (st : SoundState) (sound : Int) (px py vx vy : ℚ)
    (relative : Bool) (hi : st.IdInv)
    (hb : (sound_playCommon sound px py vx vy relative st).2.voice_active.length
        = st.voice_active.length + 1 → st.voice_genid < 2147483647) :
    IdStep st (sound_playCommon sound px py vx vy relative st).2
      ((sound_playCommon sound px py vx vy relative st).2.voice_active.length
        == st.voice_active.length + 1)
      (sound_playCommon sound px py vx vy relative st).1 := by
  revert hb
  apply sound_playCommon_cases (fun r =>
    (r.2.voice_active.length = st.voice_active.length + 1 → st.voice_genid < 2147483647) →
    IdStep st r.2 (r.2.voice_active.length == st.voice_active.length + 1) r.1)
  · intro _ _
    have e : (st.voice_active.length == st.voice_active.length + 1) = false := by simp
    simp only [e]
    exact idStep_of_shape _ ⟨rfl, rfl, rfl, rfl, rfl, rfl⟩ hi
  · intro _ _ _
    have e : (st.voice_active.length == st.voice_active.length + 1) = false := by simp
    simp only [e]
    exact idStep_of_sublist _ hi (List.Sublist.refl _) rfl
  · intro _ _ hb
    have hlt := hb (by simp)
    obtain ⟨h1, h2, h3⟩ := hi
    have hw : wrapInt32 (st.voice_genid + 1) = st.voice_genid + 1 :=
      wrapInt32_of_range (by omega) (by omega)
    have e : ((playedVoice st sound px py vx vy :: st.voice_active).length
        == st.voice_active.length + 1) = true := by simp
    simp only [e, hw]
    have hids : (playedVoice st sound px py vx vy :: st.voice_active).map alVoice.id
        = (st.voice_genid + 1) :: st.voiceIds := by
      simp [playedVoice, hw, SoundState.voiceIds]
    refine ⟨⟨by show 0 ≤ st.voice_genid + 1; omega, ?_, ?_⟩, ⟨rfl, rfl⟩, ?_⟩
    · intro i hi2
      show 1 ≤ i ∧ i ≤ st.voice_genid + 1
      have hi3 : i ∈ (st.voice_genid + 1) :: st.voiceIds := by
        rw [← hids]
        exact hi2
      rcases List.mem_cons.mp hi3 with h | h
      · omega
      · have := h2 i h
        omega
    · show List.Pairwise _
        ((playedVoice st sound px py vx vy :: st.voice_active).map alVoice.id)
      rw [hids, List.pairwise_cons]
      refine ⟨?_, h3⟩
      intro j hj
      have := h2 j hj
      omega
    · intro i hle hni hi2
      have hi3 : i ∈ (st.voice_genid + 1) :: st.voiceIds := by
        rw [← hids]
        exact hi2
      rcases List.mem_cons.mp hi3 with h | h
      · omega
      · exact hni h

/-- Every call keeps the identifier invariant; the counter moves exactly at a
successful play, whose return value is the new counter. -/
theorem step_ids (st : SoundState) (op : SoundOp) (hi : st.IdInv)
    (hb : isPlayed st op = true → st.voice_genid < 2147483647) :
    IdStep st (step st op).2 (isPlayed st op) (step st op).1 := by
  cases op with
  | play sound =>
    simp only [isPlayed, step] at hb ⊢
    unfold sound_play at hb ⊢
    split
    · exact idStep_of_unchanged st 0 hi
    · split
      · exact idStep_of_unchanged st (-1) hi
      · rename_i h1 h2
        simp only [h1, h2, if_false] at hb
        exact sound_playCommon_ids st sound 0 0 0 0 true hi (by simpa using hb)
  | playPos sound px py vx vy inRange =>
    simp only [isPlayed, step] at hb ⊢
    unfold sound_playPos at hb ⊢
    split
    · exact idStep_of_unchanged st 0 hi
    · split
      · exact idStep_of_unchanged st (-1) hi
      · split
        · exact idStep_of_unchanged st 0 hi
        · rename_i h1 h2 h3
          simp only [h1, h2, h3, if_false] at hb
          exact sound_playCommon_ids st sound px py vx vy false hi (by simpa using hb)
  | updatePos voice px py vx vy =>
    exact idStep_of_shape _ (sound_updatePos_shape voice px py vx vy st) hi
  | stop voice => exact idStep_of_shape _ (sound_stop_shape voice st) hi
  | stopAll => exact idStep_of_shape _ (sound_stopAll_shape st) hi
  | update ticks =>
    simp only [isPlayed, step]
    unfold sound_update
    split
    · exact idStep_of_shape _ (sameShape_refl st) hi
    · have hshape := sound_al_update_shape ticks st
      have hl := sound_update_loop_ids (sound_al_update ticks st).voice_active
        (sound_al_update ticks st)
      refine idStep_of_sublist _ hi ?_ (hl.2.trans hshape.2.2.2.2.2)
      have e : st.voiceIds = (sound_al_update ticks st).voice_active.map alVoice.id :=
        hshape.2.2.2.1.symm
      rw [e]
      exact hl.1
  | createGroup size =>
    simp only [isPlayed, step]
    have h := sound_createGroup_voices size st
    refine idStep_of_sublist _ hi ?_ h.2
    unfold SoundState.voiceIds
    rw [h.1]
  | playGroup group sound once =>
    exact idStep_of_shape _ (sound_playGroup_shape group sound once st) hi
  | stopGroup group ticks => exact idStep_of_shape _ (sound_stopGroup_shape group ticks st) hi
  | backend s x => exact idStep_of_shape _ (backendSets_shape s x st) hi

theorem run_append : ∀ (a b : List SoundOp) (st : SoundState),
    run st (a ++ b) = run (run st a) b
  | [], _, _ => rfl
  | op :: a, b, st => by
    show run st (op :: (a ++ b)) = run (run st (op :: a)) b
    simp only [run]
    exact run_append a b _

theorem playIds_append : ∀ (a b : List SoundOp) (st : SoundState),
    playIds st (a ++ b) = playIds st a ++ playIds (run st a) b
  | [], _, _ => rfl
  | op :: a, b, st => by
    have ih := playIds_append a b (step st op).2
    show playIds st (op :: (a ++ b)) = playIds st (op :: a) ++ playIds (run st (op :: a)) b
    simp only [playIds, run]
    split
    · rw [ih]
      rfl
    · exact ih

theorem run_ids : ∀ (ops : List SoundOp) (st : SoundState), st.IdInv →
    st.voice_genid + (playIds st ops).length < 2147483648 →
    (run st ops).IdInv ∧
    (run st ops).voice_genid = st.voice_genid + (playIds st ops).length ∧
    (playIds st ops).Pairwise (fun a b => a < b) ∧
    (∀ i ∈ playIds st ops, st.voice_genid < i) ∧
    (∀ i, i ≤ st.voice_genid → i ∉ st.voiceIds → i ∉ (run st ops).voiceIds)
  | [], st, hi, _ => by
    simp only [run, playIds, List.length_nil, Nat.cast_zero, add_zero, List.Pairwise.nil,
      List.not_mem_nil, false_implies, implies_true, and_true, true_and]
    exact ⟨hi, fun _ _ h => h⟩
  | op :: ops, st, hi, hb => by
    by_cases hp : isPlayed st op = true
    · simp only [playIds, hp, if_true, List.length_cons, Nat.cast_add, Nat.cast_one] at hb ⊢
      obtain ⟨h1, h2, h3⟩ := step_ids st op hi (fun _ => by omega)
      simp only [hp, if_true] at h2
      obtain ⟨g1, g2, g3, g4, g5⟩ := run_ids ops (step st op).2 h1 (by rw [h2.2]; omega)
      refine ⟨g1, ?_, ?_, ?_, ?_⟩
      · simp only [run]
        rw [g2, h2.2]
        omega
      · rw [List.pairwise_cons]
        refine ⟨?_, g3⟩
        intro j hj
        have := g4 j hj
        omega
      · intro i hi2
        rcases List.mem_cons.mp hi2 with h | h
        · omega
        · have := g4 i h
          omega
      · intro i hle hni
        exact g5 i (by omega) (h3 i hle hni)
    · simp only [playIds, hp] at hb ⊢
      obtain ⟨h1, h2, h3⟩ := step_ids st op hi (fun h => absurd h hp)
      simp only [hp] at h2
      have h2b : (step st op).2.voice_genid = st.voice_genid := by simpa using h2
      obtain ⟨g1, g2, g3, g4, g5⟩ := run_ids ops (step st op).2 h1 (by
        rw [h2b]
        simpa using hb)
      refine ⟨g1, ?_, by simpa using g3, ?_, ?_⟩
      · simp only [run]
        rw [g2, h2b]
        simp
      · intro i hi2
        have := g4 i (by simpa using hi2)
        omega
      · intro i hle hni
        exact g5 i (by omega) (h3 i hle hni)

theorem sound_al_init_idInv (handles : List Nat) (sounds : List alSound) (efx : Bool) :
    (sound_al_init handles sounds efx).IdInv := by
  refine ⟨le_refl _, ?_, ?_⟩ <;> simp [sound_al_init, SoundState.voiceIds]

theorem voice_get_eq_none (id : Int) (st : SoundState) :
    voice_get id st = none ↔ id ∉ st.voiceIds := by
  simp [voice_get, SoundState.voiceIds, List.find?_eq_none]

/-- C8.  Start from the initialised engine and take any sequence of calls,
cut in three parts, in which fewer than 2^31 plays succeed.  The values
returned by the successful `sound_play` / `sound_playPos` calls are strictly
increasing in call order and at least 1; in the final state no two active
voices have the same identifier; and a voice that was active after the first
part and that `voice_get` no longer finds after the second part is not found
after the third part either, whatever that part does. -/
theorem voice_ids_unique_and_never_reused (handles : List Nat) (sounds : List alSound)
    (efx : Bool) (ops1 ops2 ops3 : List SoundOp) (v : alVoice)
    (hplays : (playIds (sound_al_init handles sounds efx) (ops1 ++ ops2 ++ ops3)).length
      < 2147483648) :
    (playIds (sound_al_init handles sounds efx) (ops1 ++ ops2 ++ ops3)).Pairwise
      (fun a b => a < b) ∧
    (∀ i ∈ playIds (sound_al_init handles sounds efx) (ops1 ++ ops2 ++ ops3), 1 ≤ i) ∧
    ((run (sound_al_init handles sounds efx) (ops1 ++ ops2 ++ ops3)).voice_active.map
      alVoice.id).Nodup ∧
    (v ∈ (run (sound_al_init handles sounds efx) ops1).voice_active →
      voice_get v.id (run (sound_al_init handles sounds efx) (ops1 ++ ops2)) = none →
      voice_get v.id (run (sound_al_init handles sounds efx) (ops1 ++ ops2 ++ ops3)) = none) := by
  have h0 := sound_al_init_idInv handles sounds efx
  have hg0 : (sound_al_init handles sounds efx).voice_genid = 0 := rfl
  obtain ⟨a1, _, a3, a4, _⟩ := run_ids (ops1 ++ ops2 ++ ops3) _ h0 (by
    rw [hg0]
    omega)
  refine ⟨a3, ?_, ?_, ?_⟩
  · intro i hi
    have := a4 i hi
    rw [hg0] at this
    omega
  · have hp := a1.2.2
    exact hp.imp_of_mem (fun _ _ h => ne_of_gt h)
  · intro hv hnone
    rw [playIds_append, playIds_append, List.length_append, List.length_append] at hplays
    obtain ⟨b1, b2, _, _, _⟩ := run_ids ops1 _ h0 (by
      rw [hg0]
      omega)
    obtain ⟨c1, c2, _, _, _⟩ := run_ids ops2 _ b1 (by
      rw [b2, hg0]
      omega)
    have hrun12 := run_append ops1 ops2 (sound_al_init handles sounds efx)
    obtain ⟨_, _, _, _, d5⟩ := run_ids ops3 _ c1 (by
      rw [c2, b2, hg0]
      rw [← hrun12]
      omega)
    have hle : v.id ≤ (run (run (sound_al_init handles sounds efx) ops1) ops2).voice_genid := by
      have := (b1.2.1 v.id (List.mem_map_of_mem _ hv)).2
      rw [c2]
      omega
    rw [voice_get_eq_none] at hnone ⊢
    rw [run_append, run_append]
    rw [run_append] at hnone
    exact d5 v.id hle hnone


/-- Witness for C8: two plays return 1 and 2; voice 2 is stopped and
reclaimed; a later play returns 3 and a lookup of 2 still finds nothing. -/
theorem voice_ids_unique_and_never_reused_witness :
    (playIds (sound_al_init [11, 12, 13, 14] [⟨101⟩] false)
      (twoPlays ++ stopSecond ++ playAgain)).length < 2147483648 ∧
    playIds (sound_al_init [11, 12, 13, 14] [⟨101⟩] false)
      (twoPlays ++ stopSecond ++ playAgain) = [1, 2, 3] ∧
    secondVoice ∈ (run (sound_al_init [11, 12, 13, 14] [⟨101⟩] false) twoPlays).voice_active ∧
    voice_get secondVoice.id
      (run (sound_al_init [11, 12, 13, 14] [⟨101⟩] false) (twoPlays ++ stopSecond)) = none ∧
    ((playIds (sound_al_init [11, 12, 13, 14] [⟨101⟩] false)
        (twoPlays ++ stopSecond ++ playAgain)).Pairwise (fun a b => a < b) ∧
    (∀ i ∈ playIds (sound_al_init [11, 12, 13, 14] [⟨101⟩] false)
        (twoPlays ++ stopSecond ++ playAgain), 1 ≤ i) ∧
    ((run (sound_al_init [11, 12, 13, 14] [⟨101⟩] false)
        (twoPlays ++ stopSecond ++ playAgain)).voice_active.map alVoice.id).Nodup ∧
    (secondVoice ∈ (run (sound_al_init [11, 12, 13, 14] [⟨101⟩] false) twoPlays).voice_active →
      voice_get secondVoice.id
        (run (sound_al_init [11, 12, 13, 14] [⟨101⟩] false) (twoPlays ++ stopSecond)) = none →
      voice_get secondVoice.id
        (run (sound_al_init [11, 12, 13, 14] [⟨101⟩] false)
          (twoPlays ++ stopSecond ++ playAgain)) = none)) :=
  ⟨by decide, by decide, by decide, by decide,
    voice_ids_unique_and_never_reused [11, 12, 13, 14] [⟨101⟩] false twoPlays stopSecond
      playAgain secondVoice (by decide)⟩

/-! ## The music thread: playing and loading -/

theorem music_play_wait_returned :
    ∀ (wakeups : List music_state_t) (s : music_state_t),
      music_play_wait wakeups = WaitResult.returned s → music_isPlaying false s = 1
  | [], s, h => by simp [music_play_wait] at h
  | x :: rest, s, h => by
    unfold music_play_wait at h
    split at h
    · rename_i hx
      injection h with h
      subst h
      unfold music_isPlaying at hx ⊢
      simp only [Bool.false_eq_true, if_false] at hx ⊢
      split
      · rfl
      · rename_i hn
        simp [hn] at hx
    · exact music_play_wait_returned rest s h

theorem music_play_wait_first :
    ∀ (pre : List music_state_t) (s : music_state_t) (rest : List music_state_t),
      (∀ x ∈ pre, music_isPlaying false x = 0) → music_isPlaying false s = 1 →
      music_play_wait (pre ++ s :: rest) = WaitResult.returned s
  | [], s, rest, _, hs => by simp [music_play_wait, hs]
  | x :: pre, s, rest, hpre, hs => by
    have hx := hpre x (by simp)
    have ih := music_play_wait_first pre s rest
      (fun y hy => hpre y (List.mem_cons_of_mem _ hy)) hs
    simp [music_play_wait, hx, ih]

theorem music_play_wait_blocked :
    ∀ (wakeups : List music_state_t), (∀ x ∈ wakeups, music_isPlaying false x = 0) →
      music_play_wait wakeups = WaitResult.blocked
  | [], _ => rfl
  | x :: rest, h => by
    have hx := h x (by simp)
    simp only [music_play_wait, hx, ne_eq, not_true_eq_false, if_false]
    exact music_play_wait_blocked rest (fun y hy => h y (List.mem_cons_of_mem _ hy))

theorem stream_loadBuffer_eq (i : Int) (e : MusicEngine) :
    stream_loadBuffer i e =
      (if e.rw_loaded then (stream_fill e.music_bufSize e.decoder 0).1 else -1,
       { e with
          decoder := if e.rw_loaded then (stream_fill e.music_bufSize e.decoder 0).2.2
            else e.decoder
          calls := e.calls ++ stream_loadBuffer_calls i e }) := by
  unfold stream_loadBuffer stream_loadBuffer_calls
  cases hrw : e.rw_loaded
  · cases e
    simp only at hrw
    simp [hrw]
  · simp only [Bool.not_true, Bool.false_eq_true, if_false, if_true]
    cases (stream_fill e.music_bufSize e.decoder 0).2.1 <;> simp

theorem music_thread_loading_state (e : MusicEngine) :
    ((stream_loadBuffer 0 e).1 < 0 →
      (music_thread_loading e).thread.music_state = music_state_t.MUSIC_STATE_IDLE) ∧
    (0 ≤ (stream_loadBuffer 0 e).1 →
      (music_thread_loading e).thread.music_state = e.loadedState) ∧
    (music_thread_loading e).thread.broadcasts = e.thread.broadcasts + 1 ∧
    (music_thread_loading e).thread.music_command = e.thread.music_command := by
  unfold music_thread_loading
  simp only [stream_loadBuffer_eq, MusicEngine.setActive, MusicEngine.call,
    MusicEngine.setState, MusicEngine.broadcast, MusicEngine.rechooseUnlessForced,
    MusicEngine.loadedState, music_rechoose, MusicThread.broadcast]
  refine ⟨?_, ?_, ?_, ?_⟩
  · intro h
    simp only [h, if_true]
    split_ifs <;> rfl
  · intro h
    have h2 : ¬ ((if e.rw_loaded = true then (stream_fill e.music_bufSize e.decoder 0).1
        else -1) < 0) := by omega
    simp only [h2, if_false]
    split_ifs <;> rfl
  · split_ifs <;> rfl
  · split_ifs <;> rfl

/-- C11.  With music enabled and the music state IDLE, `music_play` posts the
FADEIN command; the command phase of the worker then sets the state to
LOADING, for which `music_isPlaying()` is 1.  The wait loop of `music_play`
can only be left on a reading of `music_state` for which `music_isPlaying()`
is 1; it is left at the first such reading and stays blocked while there is
none.  At the end of that same iteration the state is FADEIN, after one
broadcast, when the first buffer fill did not fail, and IDLE when it failed. -/
theorem music_play_waits_until_playing (d1 d2 : Int) (env : MusicEnv) (e : MusicEngine)
    (wakeups : List music_state_t)
    (hidle : e.thread.music_state = music_state_t.MUSIC_STATE_IDLE) :
    (music_play false e.thread wakeups).1.music_command = music_cmd_t.MUSIC_CMD_FADEIN ∧
    (music_thread_command d1 env.ticks_cmd (music_play false e.thread wakeups).1).music_state
      = music_state_t.MUSIC_STATE_LOADING ∧
    music_isPlaying false
      (music_thread_command d1 env.ticks_cmd (music_play false e.thread wakeups).1).music_state
      = 1 ∧
    (∀ s, (music_play false e.thread wakeups).2 = WaitResult.returned s →
      music_isPlaying false s = 1) ∧
    (music_play false e.thread wakeups).2 ≠ WaitResult.skipped ∧
    (∀ pre s rest, wakeups = pre ++ s :: rest → (∀ x ∈ pre, music_isPlaying false x = 0) →
      music_isPlaying false s = 1 →
      (music_play false e.thread wakeups).2 = WaitResult.returned s) ∧
    ((∀ x ∈ wakeups, music_isPlaying false x = 0) →
      (music_play false e.thread wakeups).2 = WaitResult.blocked) ∧
    ((stream_loadBuffer 0 e).1 < 0 →
      (music_thread_iteration d1 d2 env
        { e with thread := (music_play false e.thread wakeups).1 }).1.thread.music_state
        = music_state_t.MUSIC_STATE_IDLE) ∧
    (0 ≤ (stream_loadBuffer 0 e).1 →
      (music_thread_iteration d1 d2 env
        { e with thread := (music_play false e.thread wakeups).1 }).1.thread.music_state
        = music_state_t.MUSIC_STATE_FADEIN ∧
      (music_thread_iteration d1 d2 env
        { e with thread := (music_play false e.thread wakeups).1 }).1.thread.broadcasts
        = e.thread.broadcasts + 1) := by
  have hpost : (music_play false e.thread wakeups).1 =
      { e.thread with music_command := music_cmd_t.MUSIC_CMD_FADEIN } := rfl
  have hwait : (music_play false e.thread wakeups).2 = music_play_wait wakeups := rfl
  have hcmd : music_thread_command d1 env.ticks_cmd
      { e.thread with music_command := music_cmd_t.MUSIC_CMD_FADEIN } =
      { e.thread with
        music_command := music_cmd_t.MUSIC_CMD_NONE
        music_state := music_state_t.MUSIC_STATE_LOADING
        fade_timer := wrapUInt32 env.ticks_cmd
        fadein_start := true } := by
    simp [music_thread_command, hidle]
  rw [hpost, hwait, hcmd]
  refine ⟨rfl, rfl, by simp [music_isPlaying], ?_, ?_, ?_, ?_, ?_, ?_⟩
  · exact fun s hs => music_play_wait_returned wakeups s hs
  · intro h
    have hb : ∀ l : List music_state_t, music_play_wait l ≠ WaitResult.skipped := by
      intro l
      induction l with
      | nil => simp [music_play_wait]
      | cons x rest ih =>
        unfold music_play_wait
        split
        · simp
        · exact ih
    exact hb wakeups h
  · intro pre s rest hw hpre hs
    rw [hw]
    exact music_play_wait_first pre s rest hpre hs
  · exact music_play_wait_blocked wakeups
  · intro hneg
    have hl := music_thread_loading_state
      { e with thread :=
          { e.thread with
            music_command := music_cmd_t.MUSIC_CMD_NONE
            music_state := music_state_t.MUSIC_STATE_LOADING
            fade_timer := wrapUInt32 env.ticks_cmd
            fadein_start := true } }
    simp only [music_thread_iteration, hcmd, music_thread_action]
    apply hl.1
    simpa [stream_loadBuffer_eq] using hneg
  · intro hok
    have hl := music_thread_loading_state
      { e with thread :=
          { e.thread with
            music_command := music_cmd_t.MUSIC_CMD_NONE
            music_state := music_state_t.MUSIC_STATE_LOADING
            fade_timer := wrapUInt32 env.ticks_cmd
            fadein_start := true } }
    simp only [music_thread_iteration, hcmd, music_thread_action]
    refine ⟨?_, hl.2.2.1⟩
    rw [hl.2.1 (by simpa [stream_loadBuffer_eq] using hok)]
    rfl

/-- Witness for C11: an idle engine with a loaded track; the caller is woken
twice and reads IDLE, then FADEIN. -/
theorem music_play_waits_until_playing_witness :
    idleEngine.thread.music_state = music_state_t.MUSIC_STATE_IDLE ∧
    (music_play false idleEngine.thread
      [music_state_t.MUSIC_STATE_IDLE, music_state_t.MUSIC_STATE_FADEIN]).2
      = WaitResult.returned music_state_t.MUSIC_STATE_FADEIN ∧
    ((music_play false idleEngine.thread [music_state_t.MUSIC_STATE_IDLE, music_state_t.MUSIC_STATE_FADEIN]).1.music_command = music_cmd_t.MUSIC_CMD_FADEIN ∧
    (music_thread_command 2000 quietEnv.ticks_cmd (music_play false idleEngine.thread [music_state_t.MUSIC_STATE_IDLE, music_state_t.MUSIC_STATE_FADEIN]).1).music_state
      = music_state_t.MUSIC_STATE_LOADING ∧
    music_isPlaying false
      (music_thread_command 2000 quietEnv.ticks_cmd (music_play false idleEngine.thread [music_state_t.MUSIC_STATE_IDLE, music_state_t.MUSIC_STATE_FADEIN]).1).music_state
      = 1 ∧
    (∀ s, (music_play false idleEngine.thread [music_state_t.MUSIC_STATE_IDLE, music_state_t.MUSIC_STATE_FADEIN]).2 = WaitResult.returned s →
      music_isPlaying false s = 1) ∧
    (music_play false idleEngine.thread [music_state_t.MUSIC_STATE_IDLE, music_state_t.MUSIC_STATE_FADEIN]).2 ≠ WaitResult.skipped ∧
    (∀ pre s rest, [music_state_t.MUSIC_STATE_IDLE, music_state_t.MUSIC_STATE_FADEIN] = pre ++ s :: rest → (∀ x ∈ pre, music_isPlaying false x = 0) →
      music_isPlaying false s = 1 →
      (music_play false idleEngine.thread [music_state_t.MUSIC_STATE_IDLE, music_state_t.MUSIC_STATE_FADEIN]).2 = WaitResult.returned s) ∧
    ((∀ x ∈ [music_state_t.MUSIC_STATE_IDLE, music_state_t.MUSIC_STATE_FADEIN], music_isPlaying false x = 0) →
      (music_play false idleEngine.thread [music_state_t.MUSIC_STATE_IDLE, music_state_t.MUSIC_STATE_FADEIN]).2 = WaitResult.blocked) ∧
    ((stream_loadBuffer 0 idleEngine).1 < 0 →
      (music_thread_iteration 2000 1000 quietEnv
        { idleEngine with thread := (music_play false idleEngine.thread [music_state_t.MUSIC_STATE_IDLE, music_state_t.MUSIC_STATE_FADEIN]).1 }).1.thread.music_state
        = music_state_t.MUSIC_STATE_IDLE) ∧
    (0 ≤ (stream_loadBuffer 0 idleEngine).1 →
      (music_thread_iteration 2000 1000 quietEnv
        { idleEngine with thread := (music_play false idleEngine.thread [music_state_t.MUSIC_STATE_IDLE, music_state_t.MUSIC_STATE_FADEIN]).1 }).1.thread.music_state
        = music_state_t.MUSIC_STATE_FADEIN ∧
      (music_thread_iteration 2000 1000 quietEnv
        { idleEngine with thread := (music_play false idleEngine.thread [music_state_t.MUSIC_STATE_IDLE, music_state_t.MUSIC_STATE_FADEIN]).1 }).1.thread.broadcasts
        = idleEngine.thread.broadcasts + 1)) :=
  ⟨by decide, by decide,
    music_play_waits_until_playing 2000 1000 quietEnv idleEngine
      [music_state_t.MUSIC_STATE_IDLE, music_state_t.MUSIC_STATE_FADEIN] (by decide)⟩

/-! ## The music thread: the command switch -/

/-- C12.  With the STOP command pending the command phase leaves the command
in place, whatever the state: it is still STOP afterwards (shown for every
thread state, and evaluated for a playing thread).  PLAY, PAUSE, FADEIN and
FADEOUT are reset to NONE, and KILL is left in place. -/
theorem music_stop_command_is_not_cleared :
    (∀ (delay : Int) (ticks : Nat) (m : MusicThread),
      m.music_command = music_cmd_t.MUSIC_CMD_STOP →
      (music_thread_command delay ticks m).music_command = music_cmd_t.MUSIC_CMD_STOP) ∧
    (music_thread_command 2000 7
      { playingMusic with music_command := music_cmd_t.MUSIC_CMD_STOP }).music_command
      = music_cmd_t.MUSIC_CMD_STOP ∧
    (∀ (delay : Int) (ticks : Nat) (m : MusicThread),
      (m.music_command = music_cmd_t.MUSIC_CMD_PLAY ∨
       m.music_command = music_cmd_t.MUSIC_CMD_PAUSE ∨
       m.music_command = music_cmd_t.MUSIC_CMD_FADEIN ∨
       m.music_command = music_cmd_t.MUSIC_CMD_FADEOUT) →
      (music_thread_command delay ticks m).music_command = music_cmd_t.MUSIC_CMD_NONE) ∧
    (∀ (delay : Int) (ticks : Nat) (m : MusicThread),
      m.music_command = music_cmd_t.MUSIC_CMD_KILL →
      (music_thread_command delay ticks m).music_command = music_cmd_t.MUSIC_CMD_KILL) := by
  refine ⟨?_, by decide, ?_, ?_⟩
  · intro delay ticks m h
    unfold music_thread_command
    rw [h]
    dsimp only
    split <;> simp [MusicThread.broadcast, h]
  · intro delay ticks m h
    unfold music_thread_command
    rcases h with h | h | h | h <;> rw [h] <;> dsimp only <;> split_ifs <;> rfl
  · intro delay ticks m h
    unfold music_thread_command
    rw [h]
    dsimp only
    split <;> simp [h]

/-- C13, as stated, fails.  With the PLAY command pending and the state
PLAYING, the command phase sets the state to LOADING. -/
theorem music_play_command_reloads_when_playing :
    (music_thread_command 2000 7
      { playingMusic with music_command := music_cmd_t.MUSIC_CMD_PLAY }).music_state
      = music_state_t.MUSIC_STATE_LOADING ∧
    playingMusic.music_state = music_state_t.MUSIC_STATE_PLAYING := by
  decide

/-- C13, amended.  With the PLAY command pending, the command phase keeps
a FADEIN state (it moves `fade_timer` back by `MUSIC_FADEIN_DELAY`, clears
`fadein_start`, clears the command and broadcasts), and turns a PLAYING
state into LOADING.  It is with the FADEIN command pending that a FADEIN or
PLAYING state is left as it is, the command phase only broadcasting and
clearing the command. -/
theorem music_play_and_fadein_commands_when_playing (delay : Int) (ticks : Nat)
    (m : MusicThread) :
    music_thread_command delay ticks
      { m with music_command := music_cmd_t.MUSIC_CMD_PLAY
               music_state := music_state_t.MUSIC_STATE_FADEIN } =
      { m with music_command := music_cmd_t.MUSIC_CMD_NONE
               music_state := music_state_t.MUSIC_STATE_FADEIN
               fade_timer := wrapUInt32 ((ticks : Int) - delay)
               fadein_start := false
               broadcasts := m.broadcasts + 1 } ∧
    music_thread_command delay ticks
      { m with music_command := music_cmd_t.MUSIC_CMD_PLAY
               music_state := music_state_t.MUSIC_STATE_PLAYING } =
      { m with music_command := music_cmd_t.MUSIC_CMD_NONE
               music_state := music_state_t.MUSIC_STATE_LOADING
               fadein_start := false
               broadcasts := m.broadcasts + 1 } ∧
    music_thread_command delay ticks
      { m with music_command := music_cmd_t.MUSIC_CMD_FADEIN
               music_state := music_state_t.MUSIC_STATE_FADEIN } =
      { m with music_command := music_cmd_t.MUSIC_CMD_NONE
               music_state := music_state_t.MUSIC_STATE_FADEIN
               broadcasts := m.broadcasts + 1 } ∧
    music_thread_command delay ticks
      { m with music_command := music_cmd_t.MUSIC_CMD_FADEIN
               music_state := music_state_t.MUSIC_STATE_PLAYING } =
      { m with music_command := music_cmd_t.MUSIC_CMD_NONE
               music_state := music_state_t.MUSIC_STATE_PLAYING
               broadcasts := m.broadcasts + 1 } := by
  refine ⟨?_, ?_, ?_, ?_⟩ <;> simp [music_thread_command, MusicThread.broadcast]

/-! ## The music thread: one iteration -/

theorem music_thread_playing_state (env : MusicEnv) (e : MusicEngine) :
    (music_thread_playing env e).thread.music_state =
      (if e.thread.active < 0 ∧ env.source_state = ALState.AL_STOPPED then
        music_state_t.MUSIC_STATE_IDLE
       else e.thread.music_state) := by
  unfold music_thread_playing
  simp only [stream_loadBuffer_eq, MusicEngine.setActive, MusicEngine.call,
    MusicEngine.setState, MusicEngine.rechooseUnlessForced, MusicEngine.unqueueProcessed,
    music_rechoose]
  split_ifs <;> simp_all

theorem music_thread_action_state (d1 d2 : Int) (env : MusicEnv) (e : MusicEngine) :
    (music_thread_action d1 d2 env e).1.thread.music_state ≠ music_state_t.MUSIC_STATE_LOADING ∧
    (music_thread_action d1 d2 env e).1.thread.music_state ≠ music_state_t.MUSIC_STATE_PAUSING ∧
    (music_thread_action d1 d2 env e).1.thread.music_state ≠ music_state_t.MUSIC_STATE_RESUMING ∧
    ((music_thread_action d1 d2 env e).1.thread.music_state = music_state_t.MUSIC_STATE_STOPPING ↔
      (e.thread.music_state = music_state_t.MUSIC_STATE_FADEOUT ∧
       d2 ≤ wrapUInt32 ((env.ticks_act : Int) - e.thread.fade_timer))) := by
  cases hs : e.thread.music_state
  case MUSIC_STATE_LOADING =>
    have hl := music_thread_loading_state e
    simp only [music_thread_action, hs]
    by_cases hr : (stream_loadBuffer 0 e).1 < 0
    · rw [hl.1 hr]
      simp
    · rw [hl.2.1 (by omega)]
      unfold MusicEngine.loadedState
      split_ifs <;> simp
  case MUSIC_STATE_FADEOUT =>
    simp only [music_thread_action, hs, music_thread_fadeout]
    by_cases hf : wrapUInt32 ((env.ticks_act : Int) - e.thread.fade_timer) < d2
    · simp only [hf, if_true, music_thread_playing_state, MusicEngine.call, hs]
      have : ¬ d2 ≤ wrapUInt32 ((env.ticks_act : Int) - e.thread.fade_timer) := by omega
      split_ifs <;> simp [this]
    · simp only [hf, if_false, MusicEngine.setState]
      have : d2 ≤ wrapUInt32 ((env.ticks_act : Int) - e.thread.fade_timer) := by omega
      simp [this]
  case MUSIC_STATE_FADEIN =>
    simp only [music_thread_action, hs, music_thread_fadein]
    split_ifs <;>
      simp only [music_thread_playing_state, MusicEngine.call, MusicEngine.setState, hs] <;>
      split_ifs <;> simp
  case MUSIC_STATE_PLAYING =>
    simp only [music_thread_action, hs, music_thread_playing_state]
    split_ifs <;> simp
  all_goals
    simp only [music_thread_action, hs, MusicEngine.setState, MusicEngine.broadcast,
      MusicEngine.call, MusicEngine.rechooseUnlessForced, MusicEngine.unqueueProcessed,
      music_rechoose, MusicThread.broadcast]
    try split_ifs
    all_goals simp [hs]

theorem stream_fill_short (B : Int) : ∀ (l : List Int) (size : Int),
    (∀ c ∈ l, 0 < c) → size + l.sum < B → 0 ≤ size → (0 < size ∨ l ≠ []) →
    stream_fill B l size = (1, some (size + l.sum), [])
  | [], size, _, hlt, _, hne => by
    have h0 : size ≠ 0 := by
      rcases hne with h | h
      · omega
      · exact absurd rfl h
    simp only [List.sum_nil, add_zero] at hlt
    simp [stream_fill, hlt, h0]
  | c :: rest, size, hpos, hlt, h0, _ => by
    have hc : 0 < c := hpos c (by simp)
    have hrest : ∀ x ∈ rest, 0 < x := fun x hx => hpos x (List.mem_cons_of_mem _ hx)
    have hsum : 0 ≤ rest.sum := List.sum_nonneg (fun x hx => le_of_lt (hrest x hx))
    simp only [List.sum_cons] at hlt
    have h1 : size < B := by omega
    have h2 : c ≠ 0 := by omega
    have h3 : c ≠ OV_HOLE := by
      unfold OV_HOLE
      omega
    have h4 : c ≠ OV_EBADLINK := by
      unfold OV_EBADLINK
      omega
    have ih := stream_fill_short B rest (size + c) hrest (by omega) (by omega) (Or.inl (by omega))
    simp only [stream_fill, h1, h2, h3, h4, if_true, if_false, ih, List.sum_cons]
    simp [add_assoc]

theorem music_thread_playing_ended (env : MusicEnv) (e : MusicEngine)
    (ha : e.thread.active < 0) (hs : env.source_state = ALState.AL_STOPPED)
    (hen : e.music_disabled = false) :
    (music_thread_playing env e).thread.music_state = music_state_t.MUSIC_STATE_IDLE ∧
    (music_thread_playing env e).music_runchoose
      = (e.music_runchoose || !e.thread.music_forced) := by
  unfold music_thread_playing
  simp only [ha, hs, if_true, MusicEngine.setState, MusicEngine.rechooseUnlessForced,
    MusicEngine.unqueueProcessed, MusicEngine.call, music_rechoose]
  cases hf : e.thread.music_forced <;> split_ifs <;> simp_all

theorem music_thread_loading_short (e : MusicEngine) (hrw : e.rw_loaded = true)
    (hpos : ∀ c ∈ e.decoder, 0 < c) (hne : e.decoder ≠ [])
    (hshort : e.decoder.sum < e.music_bufSize) :
    music_thread_loading e =
      { e with
        decoder := []
        calls := e.calls ++
          [MusicCall.BufferData 0 e.decoder.sum, MusicCall.QueueBuffer 0,
           MusicCall.SetGain (if e.thread.fadein_start then 0 else e.music_vol),
           MusicCall.SourcePlay]
        thread := { e.thread with
          active := -1
          music_state := e.loadedState
          broadcasts := e.thread.broadcasts + 1 } } := by
  have h1 := stream_fill_short e.music_bufSize e.decoder 0 hpos (by omega) (le_refl _)
    (Or.inr hne)
  simp only [zero_add] at h1
  have hsum : 0 < e.decoder.sum := by
    obtain ⟨c, rest, hc⟩ := List.exists_cons_of_ne_nil hne
    rw [hc] at hpos ⊢
    have := hpos c (by simp)
    have hr : 0 ≤ rest.sum :=
      List.sum_nonneg (fun x hx => le_of_lt (hpos x (List.mem_cons_of_mem _ hx)))
    simp only [List.sum_cons]
    omega
  have h2 : stream_fill e.music_bufSize [] 0 = (-2, none, []) := by
    have : (0 : Int) < e.music_bufSize := by omega
    simp [stream_fill, this]
  unfold music_thread_loading
  simp only [stream_loadBuffer_eq, stream_loadBuffer_calls, MusicEngine.setActive,
    MusicEngine.call, MusicEngine.setState, MusicEngine.broadcast, MusicEngine.loadedState,
    MusicThread.broadcast, hrw, h1, h2, if_true]
  simp

/-- C15.  The engine is enabled, a stream is loaded, no command is pending
and the state is LOADING; the decoder delivers a non-empty sequence of
positive byte counts whose sum is below `music_bufSize` and then reports end
of stream.  The LOADING action uploads those bytes to buffer 0, queues that
one buffer, sets the gain and starts the source, and nothing else; it leaves
`active = -1` and the state FADEIN or PLAYING.  In the next iteration in
which the backend reports the source stopped the state becomes IDLE, and
`music_runchoose` is then set unless the forced flag is set (it keeps its
value when the flag is set). -/
theorem music_short_track (d1 d2 : Int) (env env2 : MusicEnv) (e : MusicEngine)
    (hstate : e.thread.music_state = music_state_t.MUSIC_STATE_LOADING)
    (hcmd : e.thread.music_command = music_cmd_t.MUSIC_CMD_NONE)
    (hen : e.music_disabled = false) (hrw : e.rw_loaded = true)
    (hpos : ∀ c ∈ e.decoder, 0 < c) (hne : e.decoder ≠ [])
    (hshort : e.decoder.sum < e.music_bufSize)
    (hstopped : env2.source_state = ALState.AL_STOPPED) :
    (music_thread_action d1 d2 env e).1.calls = e.calls ++
      [MusicCall.BufferData 0 e.decoder.sum, MusicCall.QueueBuffer 0,
       MusicCall.SetGain (if e.thread.fadein_start then 0 else e.music_vol),
       MusicCall.SourcePlay] ∧
    (music_thread_action d1 d2 env e).1.thread.active = -1 ∧
    (music_thread_action d1 d2 env e).1.thread.music_state = e.loadedState ∧
    (music_thread_action d1 d2 env e).1.decoder = [] ∧
    (music_thread_iteration d1 d2 env2 (music_thread_action d1 d2 env e).1).1.thread.music_state
      = music_state_t.MUSIC_STATE_IDLE ∧
    (music_thread_iteration d1 d2 env2 (music_thread_action d1 d2 env e).1).1.music_runchoose
      = (e.music_runchoose || !e.thread.music_forced) := by
  have hl := music_thread_loading_short e hrw hpos hne hshort
  have hact : (music_thread_action d1 d2 env e).1 = music_thread_loading e := by
    simp [music_thread_action, hstate]
  rw [hact, hl]
  refine ⟨rfl, rfl, rfl, rfl, ?_⟩
  have hnone : ∀ t : MusicThread, t.music_command = music_cmd_t.MUSIC_CMD_NONE →
      music_thread_command d1 env2.ticks_cmd t = t := by
    intro t ht
    simp [music_thread_command, ht]
  simp only [music_thread_iteration]
  rw [hnone _ (by exact hcmd)]
  cases hfs : e.thread.fadein_start
  · simp only [MusicEngine.loadedState, hfs, Bool.false_eq_true, if_false, music_thread_action]
    exact music_thread_playing_ended env2 _ (by simp) hstopped hen
  · simp only [MusicEngine.loadedState, hfs, if_true, music_thread_action,
      music_thread_fadein]
    split_ifs
    · exact music_thread_playing_ended env2 _ (by simp [MusicEngine.call]) hstopped hen
    · exact music_thread_playing_ended env2 _
        (by simp [MusicEngine.call, MusicEngine.setState]) hstopped hen

/-- Witness for C15: a track of 3 + 2 bytes and buffers of 8. -/
theorem music_short_track_witness :
    shortTrackEngine.thread.music_state = music_state_t.MUSIC_STATE_LOADING ∧
    shortTrackEngine.thread.music_command = music_cmd_t.MUSIC_CMD_NONE ∧
    shortTrackEngine.music_disabled = false ∧ shortTrackEngine.rw_loaded = true ∧
    (∀ c ∈ shortTrackEngine.decoder, 0 < c) ∧ shortTrackEngine.decoder ≠ [] ∧
    shortTrackEngine.decoder.sum < shortTrackEngine.music_bufSize ∧
    stoppedEnv.source_state = ALState.AL_STOPPED ∧
    ((music_thread_action 2000 1000 quietEnv shortTrackEngine).1.calls = shortTrackEngine.calls ++
      [MusicCall.BufferData 0 shortTrackEngine.decoder.sum, MusicCall.QueueBuffer 0,
       MusicCall.SetGain (if shortTrackEngine.thread.fadein_start then 0 else shortTrackEngine.music_vol),
       MusicCall.SourcePlay] ∧
    (music_thread_action 2000 1000 quietEnv shortTrackEngine).1.thread.active = -1 ∧
    (music_thread_action 2000 1000 quietEnv shortTrackEngine).1.thread.music_state = shortTrackEngine.loadedState ∧
    (music_thread_action 2000 1000 quietEnv shortTrackEngine).1.decoder = [] ∧
    (music_thread_iteration 2000 1000 stoppedEnv (music_thread_action 2000 1000 quietEnv shortTrackEngine).1).1.thread.music_state
      = music_state_t.MUSIC_STATE_IDLE ∧
    (music_thread_iteration 2000 1000 stoppedEnv (music_thread_action 2000 1000 quietEnv shortTrackEngine).1).1.music_runchoose
      = (shortTrackEngine.music_runchoose || !shortTrackEngine.thread.music_forced)) :=
  ⟨by decide, by decide, by decide, by decide, by decide, by decide, by decide, by decide,
    music_short_track 2000 1000 quietEnv stoppedEnv shortTrackEngine (by decide) (by decide)
      (by decide) (by decide) (by decide) (by decide) (by decide) (by decide)⟩

theorem stream_fill_ret (B : Int) : ∀ (l : List Int) (size : Int),
    ((stream_fill B l size).1 = -2 ∨ (stream_fill B l size).1 = -1 ∨
      (stream_fill B l size).1 = 0 ∨ (stream_fill B l size).1 = 1) ∧
    ((stream_fill B l size).1 < 0 → (stream_fill B l size).2.1 = none)
  | [], size => by
    unfold stream_fill
    split_ifs <;> simp
  | r :: rest, size => by
    unfold stream_fill
    split_ifs
    · simp
    · simp
    · simp
    · simp
    · exact stream_fill_ret B rest (size + r)
    · simp

theorem stream_loadBuffer_ret (i : Int) (e : MusicEngine) :
    ((stream_loadBuffer i e).1 = -2 ∨ (stream_loadBuffer i e).1 = -1 ∨
      (stream_loadBuffer i e).1 = 0 ∨ (stream_loadBuffer i e).1 = 1) ∧
    ((stream_loadBuffer i e).1 < 0 → (stream_loadBuffer i e).2.calls = e.calls) := by
  have h := stream_fill_ret e.music_bufSize e.decoder 0
  rw [stream_loadBuffer_eq]
  cases hrw : e.rw_loaded
  · simp [stream_loadBuffer_calls, hrw]
  · simp only [if_true, stream_loadBuffer_calls, hrw]
    refine ⟨h.1, ?_⟩
    intro hneg
    rw [h.2 hneg]
    simp

/-- C16, as stated, fails.  The first fill takes a whole buffer and returns 0,
the second fill hits a bad link and returns -1: the LOADING action ends in
state PLAYING with `active = -1`, not in IDLE. -/
theorem music_loading_second_fill_failure_keeps_playing :
    (stream_loadBuffer 0 badLinkEngine).1 = 0 ∧
    (stream_loadBuffer 1 (stream_loadBuffer 0 badLinkEngine).2).1 = -1 ∧
    (music_thread_action 2000 1000 quietEnv badLinkEngine).1.thread.music_state
      = music_state_t.MUSIC_STATE_PLAYING ∧
    (music_thread_action 2000 1000 quietEnv badLinkEngine).1.thread.active = -1 := by
  decide

/-- C16, amended.  When the first buffer fill of the LOADING action returns a
negative value, the state after the action is IDLE, after one broadcast (the
buffer has been queued all the same).  When the first fill succeeds and the
second returns a negative value, LOADING does not fall back: the state is
FADEIN or PLAYING, `active` is -1 and only the first buffer is queued. -/
theorem music_loading_fill_failures (d1 d2 : Int) (env : MusicEnv) (e : MusicEngine)
    (hstate : e.thread.music_state = music_state_t.MUSIC_STATE_LOADING) :
    ((stream_loadBuffer 0 e).1 < 0 →
      (music_thread_action d1 d2 env e).1.thread.music_state
        = music_state_t.MUSIC_STATE_IDLE ∧
      (music_thread_action d1 d2 env e).1.thread.broadcasts = e.thread.broadcasts + 1 ∧
      (music_thread_action d1 d2 env e).1.calls = e.calls ++ [MusicCall.QueueBuffer 0]) ∧
    (0 ≤ (stream_loadBuffer 0 e).1 →
      (stream_loadBuffer 1 (stream_loadBuffer 0 e).2).1 < 0 →
      (music_thread_action d1 d2 env e).1.thread.music_state = e.loadedState ∧
      (music_thread_action d1 d2 env e).1.thread.active = -1 ∧
      (music_thread_action d1 d2 env e).1.thread.broadcasts = e.thread.broadcasts + 1 ∧
      (music_thread_action d1 d2 env e).1.calls = (stream_loadBuffer 0 e).2.calls ++
        [MusicCall.QueueBuffer 0,
         MusicCall.SetGain (if e.thread.fadein_start then 0 else e.music_vol),
         MusicCall.SourcePlay]) := by
  have hact : (music_thread_action d1 d2 env e).1 = music_thread_loading e := by
    simp [music_thread_action, hstate]
  have hr1 := stream_loadBuffer_ret 0 e
  have hr2 := stream_loadBuffer_ret 1 (stream_loadBuffer 0 e).2
  rw [hact]
  refine ⟨?_, ?_⟩
  · intro hneg
    have hc := hr1.2 hneg
    revert hneg hc
    unfold music_thread_loading
    simp only [stream_loadBuffer_eq, MusicEngine.setActive, MusicEngine.call,
      MusicEngine.setState, MusicEngine.broadcast, MusicEngine.rechooseUnlessForced,
      MusicEngine.loadedState, music_rechoose, MusicThread.broadcast, stream_loadBuffer_calls]
    intro hneg hc
    simp only [hneg, if_true]
    split_ifs <;> simp_all
  · intro hok hneg2
    have hle : (stream_loadBuffer 0 e).1 ≤ 1 := by
      rcases hr1.1 with h | h | h | h <;> omega
    have hc2 := hr2.2 hneg2
    revert hok hneg2 hle hc2
    unfold music_thread_loading
    simp only [stream_loadBuffer_eq, MusicEngine.setActive, MusicEngine.call,
      MusicEngine.setState, MusicEngine.broadcast, MusicEngine.rechooseUnlessForced,
      MusicEngine.loadedState, music_rechoose, MusicThread.broadcast, stream_loadBuffer_calls]
    intro hok hneg2 hle hc2
    have h1 : ¬ ((if e.rw_loaded = true then (stream_fill e.music_bufSize e.decoder 0).1
        else -1) < 0) := by omega
    have h2 : ¬ ((if e.rw_loaded = true then (stream_fill e.music_bufSize e.decoder 0).1
        else -1) > 1) := by omega
    simp only [h1, h2, if_false, hneg2, if_true]
    simp_all

/-- Witness for the amended C16, on the engine whose second fill hits a bad link. -/
theorem music_loading_fill_failures_witness :
    badLinkEngine.thread.music_state = music_state_t.MUSIC_STATE_LOADING ∧
    (((stream_loadBuffer 0 badLinkEngine).1 < 0 →
      (music_thread_action 2000 1000 quietEnv badLinkEngine).1.thread.music_state
        = music_state_t.MUSIC_STATE_IDLE ∧
      (music_thread_action 2000 1000 quietEnv badLinkEngine).1.thread.broadcasts = badLinkEngine.thread.broadcasts + 1 ∧
      (music_thread_action 2000 1000 quietEnv badLinkEngine).1.calls = badLinkEngine.calls ++ [MusicCall.QueueBuffer 0]) ∧
    (0 ≤ (stream_loadBuffer 0 badLinkEngine).1 →
      (stream_loadBuffer 1 (stream_loadBuffer 0 badLinkEngine).2).1 < 0 →
      (music_thread_action 2000 1000 quietEnv badLinkEngine).1.thread.music_state = badLinkEngine.loadedState ∧
      (music_thread_action 2000 1000 quietEnv badLinkEngine).1.thread.active = -1 ∧
      (music_thread_action 2000 1000 quietEnv badLinkEngine).1.thread.broadcasts = badLinkEngine.thread.broadcasts + 1 ∧
      (music_thread_action 2000 1000 quietEnv badLinkEngine).1.calls = (stream_loadBuffer 0 badLinkEngine).2.calls ++
        [MusicCall.QueueBuffer 0,
         MusicCall.SetGain (if badLinkEngine.thread.fadein_start then 0 else badLinkEngine.music_vol),
         MusicCall.SourcePlay])) :=
  ⟨by decide, music_loading_fill_failures 2000 1000 quietEnv badLinkEngine (by decide)⟩

/-! ## Single-precision numbers -/

theorem roundHalfEven_bounds {K : Type} [LinearOrderedField K] [FloorRing K] (y : K) :
    ⌊y⌋ ≤ roundHalfEven y ∧ roundHalfEven y ≤ ⌈y⌉ ∧ |(roundHalfEven y : K) - y| ≤ 1 / 2 := by
  have h1 : (⌊y⌋ : K) ≤ y := Int.floor_le y
  have h2 : y < ⌊y⌋ + 1 := Int.lt_floor_add_one y
  have hc : y - ⌊y⌋ ≠ 0 → ⌈y⌉ = ⌊y⌋ + 1 := by
    intro hne
    rw [Int.ceil_eq_iff]
    push_cast
    constructor
    · have : (⌊y⌋ : K) < y := lt_of_le_of_ne h1 (fun h => hne (by rw [h]; ring))
      linarith
    · linarith
  have hfc : ⌊y⌋ ≤ ⌈y⌉ := Int.floor_le_ceil y
  unfold roundHalfEven
  split_ifs with a b c
  · refine ⟨le_refl _, hfc, ?_⟩
    rw [abs_le]
    constructor <;> linarith
  · have hne : y - ⌊y⌋ ≠ 0 := by
      intro h
      rw [h] at b
      norm_num at b
    refine ⟨by omega, by rw [hc hne], ?_⟩
    rw [abs_le]
    push_cast
    constructor <;> linarith
  · refine ⟨le_refl _, hfc, ?_⟩
    rw [abs_le]
    constructor <;> linarith
  · have hhalf : y - ⌊y⌋ = 1 / 2 := le_antisymm (not_lt.mp b) (not_lt.mp a)
    have hne : y - ⌊y⌋ ≠ 0 := by
      rw [hhalf]
      norm_num
    refine ⟨by omega, by rw [hc hne], ?_⟩
    rw [abs_le]
    push_cast
    constructor <;> linarith

theorem roundHalfEven_intCast {K : Type} [LinearOrderedField K] [FloorRing K] (n : Int) :
    roundHalfEven (n : K) = n := by
  simp [roundHalfEven]

theorem floatSpacing_pos {K : Type} [LinearOrderedField K] [FloorRing K] (x : K) :
    0 < floatSpacing x := by
  unfold floatSpacing
  positivity

theorem int_log_two_eq {K : Type} [LinearOrderedField K] [FloorRing K] {r : K} {e : Int}
    (h1 : (2 : K) ^ e ≤ r) (h2 : r < (2 : K) ^ (e + 1)) : Int.log 2 r = e := by
  have hr : 0 < r := lt_of_lt_of_le (by positivity) h1
  have hb : 1 < 2 := by norm_num
  have a : e ≤ Int.log 2 r := (Int.zpow_le_iff_le_log hb hr).mp (by exact_mod_cast h1)
  have b : Int.log 2 r < e + 1 := (Int.lt_zpow_iff_log_lt hb hr).mp (by exact_mod_cast h2)
  omega

theorem toALfloat_error {K : Type} [LinearOrderedField K] [FloorRing K] (x : K) :
    |toALfloat x - x| ≤ floatSpacing x / 2 := by
  have hu := floatSpacing_pos x
  have hb := (roundHalfEven_bounds (x / floatSpacing x)).2.2
  have hx : toALfloat x - x
      = ((roundHalfEven (x / floatSpacing x) : K) - x / floatSpacing x) * floatSpacing x := by
    unfold toALfloat
    field_simp
  rw [hx, abs_mul, abs_of_pos hu]
  calc |(roundHalfEven (x / floatSpacing x) : K) - x / floatSpacing x| * floatSpacing x
      ≤ 1 / 2 * floatSpacing x := mul_le_mul_of_nonneg_right hb (le_of_lt hu)
    _ = floatSpacing x / 2 := by ring

theorem floatSpacing_le {K : Type} [LinearOrderedField K] [FloorRing K] (x : K)
    (h : |x| ≤ 1) : floatSpacing x ≤ 1 / 2 ^ 23 := by
  have hlog : Int.log 2 |x| ≤ 0 := by
    rw [Int.log_of_right_le_one 2 h]
    omega
  have hm : max (Int.log 2 |x|) (-126) - 23 ≤ -23 := by omega
  unfold floatSpacing
  calc (2 : K) ^ (max (Int.log 2 |x|) (-126) - 23) ≤ (2 : K) ^ (-23 : Int) :=
        zpow_le_zpow_right₀ (by norm_num) hm
    _ = 1 / 2 ^ 23 := by norm_num

theorem toALfloat_zero {K : Type} [LinearOrderedField K] [FloorRing K] :
    toALfloat (0 : K) = 0 := by
  have h : roundHalfEven ((0 : Int) : K) = 0 := roundHalfEven_intCast 0
  simp only [Int.cast_zero] at h
  simp [toALfloat, h]

theorem toALfloat_of_isALfloat {K : Type} [LinearOrderedField K] [FloorRing K] (x : K)
    (h : isALfloat x) : toALfloat x = x := by
  obtain ⟨n, e, hn, he, rfl⟩ := h
  by_cases hn0 : n = 0
  · subst hn0
    simp only [Int.cast_zero, zero_mul]
    exact toALfloat_zero
  · have h2 : (0 : K) < 2 := by norm_num
    have hpos : 0 < |(n : K) * (2 : K) ^ e| := by
      apply abs_pos.mpr
      exact mul_ne_zero (by exact_mod_cast hn0) (zpow_ne_zero _ (by norm_num))
    have hlt : |(n : K) * (2 : K) ^ e| < (2 : K) ^ (24 + e) := by
      rw [abs_mul, abs_of_pos (zpow_pos h2 e), zpow_add₀ (by norm_num : (2 : K) ≠ 0)]
      apply mul_lt_mul_of_pos_right _ (zpow_pos h2 e)
      have : |(n : K)| = ((|n| : Int) : K) := by simp
      rw [this]
      have h24 : ((2 : K) ^ (24 : Int)) = (((2 : Int) ^ 24 : Int) : K) := by norm_num
      rw [h24]
      exact_mod_cast hn
    have hlog : Int.log 2 |(n : K) * (2 : K) ^ e| < 24 + e :=
      (Int.lt_zpow_iff_log_lt (by norm_num) hpos).mp (by exact_mod_cast hlt)
    obtain ⟨k, hk⟩ : ∃ k : Nat,
        e = (k : Int) + (max (Int.log 2 |(n : K) * (2 : K) ^ e|) (-126) - 23) :=
      ⟨(e - (max (Int.log 2 |(n : K) * (2 : K) ^ e|) (-126) - 23)).toNat, by omega⟩
    have hu : floatSpacing ((n : K) * (2 : K) ^ e)
        = (2 : K) ^ (max (Int.log 2 |(n : K) * (2 : K) ^ e|) (-126) - 23) := rfl
    have hx : (n : K) * (2 : K) ^ e
        = ((n * 2 ^ k : Int) : K) * floatSpacing ((n : K) * (2 : K) ^ e) := by
      rw [hu]
      nth_rewrite 1 [hk]
      rw [zpow_add₀ (by norm_num : (2 : K) ≠ 0), zpow_natCast]
      push_cast
      ring
    have hupos := floatSpacing_pos ((n : K) * (2 : K) ^ e)
    have hy : (n : K) * (2 : K) ^ e / floatSpacing ((n : K) * (2 : K) ^ e)
        = ((n * 2 ^ k : Int) : K) := by
      rw [div_eq_iff (ne_of_gt hupos)]
      exact hx
    unfold toALfloat
    rw [hy, roundHalfEven_intCast]
    exact hx.symm

theorem toALfloat_abs_le_one {K : Type} [LinearOrderedField K] [FloorRing K] (x : K)
    (h : |x| ≤ 1) : |toALfloat x| ≤ 1 := by
  have hlog : Int.log 2 |x| ≤ 0 := by
    rw [Int.log_of_right_le_one 2 h]
    omega
  obtain ⟨k, hk⟩ : ∃ k : Nat, max (Int.log 2 |x|) (-126) - 23 = -(k : Int) :=
    ⟨(-(max (Int.log 2 |x|) (-126) - 23)).toNat, by omega⟩
  have hu : floatSpacing x = 1 / (2 : K) ^ k := by
    unfold floatSpacing
    rw [hk, zpow_neg, zpow_natCast, one_div]
  have hN : (0 : K) < (2 : K) ^ k := by positivity
  have hy : x / floatSpacing x = x * (2 : K) ^ k := by
    rw [hu]
    field_simp
  have hcast : ((2 : K) ^ k) = (((2 : Int) ^ k : Int) : K) := by norm_num
  have hb := roundHalfEven_bounds (x / floatSpacing x)
  rw [abs_le] at h
  have hlo : -((2 : Int) ^ k) ≤ ⌊x / floatSpacing x⌋ := by
    rw [Int.le_floor, hy]
    push_cast
    have := mul_le_mul_of_nonneg_right h.1 (le_of_lt hN)
    linarith
  have hhi : ⌈x / floatSpacing x⌉ ≤ (2 : Int) ^ k := by
    rw [Int.ceil_le, hy]
    push_cast
    have := mul_le_mul_of_nonneg_right h.2 (le_of_lt hN)
    linarith
  have h1 : -((2 : Int) ^ k) ≤ roundHalfEven (x / floatSpacing x) := hlo.trans hb.1
  have h2 : roundHalfEven (x / floatSpacing x) ≤ (2 : Int) ^ k := hb.2.1.trans hhi
  have h1K : -((2 : K) ^ k) ≤ (roundHalfEven (x / floatSpacing x) : K) := by
    rw [hcast]
    exact_mod_cast h1
  have h2K : (roundHalfEven (x / floatSpacing x) : K) ≤ (2 : K) ^ k := by
    rw [hcast]
    exact_mod_cast h2
  unfold toALfloat
  generalize roundHalfEven (x / floatSpacing x) = r at h1K h2K ⊢
  rw [hu, abs_le]
  constructor
  · rw [mul_one_div, le_div_iff₀ hN]
    linarith
  · rw [mul_one_div, div_le_iff₀ hN]
    linarith

theorem toALfloat_near_one {K : Type} [LinearOrderedField K] [FloorRing K] (x : K)
    (h1 : 1 - 1 / 2 ^ 25 < x) (h2 : x < 1) : toALfloat x = 1 := by
  have hx0 : 0 < x := lt_trans (by norm_num) h1
  have habs : |x| = x := abs_of_pos hx0
  have hlog : Int.log 2 |x| = -1 := by
    rw [habs]
    apply int_log_two_eq
    · have : (2 : K) ^ (-1 : Int) = 1 / 2 := by norm_num
      rw [this]
      have : (1 : K) / 2 ≤ 1 - 1 / 2 ^ 25 := by norm_num
      linarith
    · simpa using h2
  have hu : floatSpacing x = 1 / 2 ^ 24 := by
    unfold floatSpacing
    rw [hlog]
    norm_num
  have hy : x / floatSpacing x = x * 2 ^ 24 := by
    rw [hu]
    field_simp
  have hfl : ⌊x / floatSpacing x⌋ = 2 ^ 24 - 1 := by
    rw [Int.floor_eq_iff, hy]
    push_cast
    constructor
    · have : (1 - 1 / 2 ^ 25 : K) * 2 ^ 24 < x * 2 ^ 24 :=
        mul_lt_mul_of_pos_right h1 (by positivity)
      norm_num at this ⊢
      linarith
    · have : x * 2 ^ 24 < 1 * 2 ^ 24 := mul_lt_mul_of_pos_right h2 (by positivity)
      norm_num at this ⊢
      linarith
  have hfrac : (1 : K) / 2 < x / floatSpacing x - ⌊x / floatSpacing x⌋ := by
    rw [hfl, hy]
    push_cast
    have : (1 - 1 / 2 ^ 25 : K) * 2 ^ 24 < x * 2 ^ 24 :=
      mul_lt_mul_of_pos_right h1 (by positivity)
    norm_num at this ⊢
    linarith
  have hr : roundHalfEven (x / floatSpacing x) = 2 ^ 24 := by
    unfold roundHalfEven
    rw [if_neg (not_lt.mpr (le_of_lt hfrac)), if_pos hfrac, hfl]
    norm_num
  unfold toALfloat
  rw [hr, hu]
  norm_num

theorem roundHalfEven_of_close {K : Type} [LinearOrderedField K] [FloorRing K] (y : K)
    (m : Int) (h : |y - m| < 1 / 2) : roundHalfEven y = m := by
  rw [abs_lt] at h
  rcases le_or_lt (m : K) y with hle | hlt
  · have hf : ⌊y⌋ = m := by
      rw [Int.floor_eq_iff]
      constructor
      · exact hle
      · linarith [h.2]
    unfold roundHalfEven
    rw [hf, if_pos (by linarith [h.2])]
  · have hf : ⌊y⌋ = m - 1 := by
      rw [Int.floor_eq_iff]
      push_cast
      constructor
      · linarith [h.1]
      · linarith
    unfold roundHalfEven
    have h1 : ¬ (y - ((m - 1 : Int) : K) < 1 / 2) := by
      push_cast
      linarith [h.1]
    have h2 : 1 / 2 < y - ((m - 1 : Int) : K) := by
      push_cast
      linarith [h.1]
    rw [hf, if_neg h1, if_pos h2]
    ring

theorem roundHalfEven_neg {K : Type} [LinearOrderedField K] [FloorRing K] (y : K) :
    roundHalfEven (-y) = -roundHalfEven y := by
  have h1 : (⌊y⌋ : K) ≤ y := Int.floor_le y
  have h2 : y < ⌊y⌋ + 1 := Int.lt_floor_add_one y
  by_cases hint : y = ⌊y⌋
  · have e1 : roundHalfEven y = ⌊y⌋ := by
      nth_rewrite 1 [hint]
      exact roundHalfEven_intCast _
    have e2 : roundHalfEven (-y) = -⌊y⌋ := by
      have : -y = ((-⌊y⌋ : Int) : K) := by
        push_cast
        rw [← hint]
      rw [this]
      exact roundHalfEven_intCast _
    rw [e1, e2]
  · have hlt : (⌊y⌋ : K) < y := lt_of_le_of_ne h1 (fun h => hint h.symm)
    have hf : ⌊-y⌋ = -⌊y⌋ - 1 := by
      rw [Int.floor_eq_iff]
      push_cast
      constructor <;> linarith
    unfold roundHalfEven
    rw [hf]
    push_cast
    by_cases a : y - ⌊y⌋ < 1 / 2
    · have b : ¬ (-y - (-(⌊y⌋ : K) - 1) < 1 / 2) := by linarith
      have c : 1 / 2 < -y - (-(⌊y⌋ : K) - 1) := by linarith
      rw [if_pos a, if_neg b, if_pos c]
      ring
    · by_cases b : 1 / 2 < y - ⌊y⌋
      · have c : -y - (-(⌊y⌋ : K) - 1) < 1 / 2 := by linarith
        rw [if_neg a, if_pos b, if_pos c]
        ring
      · have hhalf : y - ⌊y⌋ = 1 / 2 := le_antisymm (not_lt.mp b) (not_lt.mp a)
        have c : ¬ (-y - (-(⌊y⌋ : K) - 1) < 1 / 2) := by linarith
        have d : ¬ (1 / 2 < -y - (-(⌊y⌋ : K) - 1)) := by linarith
        rw [if_neg a, if_neg b, if_neg c, if_neg d]
        by_cases hev : ⌊y⌋ % 2 = 0
        · have : ¬ ((-⌊y⌋ - 1) % 2 = 0) := by omega
          rw [if_pos hev, if_neg this]
          ring
        · have : (-⌊y⌋ - 1) % 2 = 0 := by omega
          rw [if_neg hev, if_pos this]
          ring

theorem toALfloat_neg {K : Type} [LinearOrderedField K] [FloorRing K] (x : K) :
    toALfloat (-x) = -toALfloat x := by
  have hu : floatSpacing (-x) = floatSpacing x := by
    unfold floatSpacing
    rw [abs_neg]
  unfold toALfloat
  rw [hu, neg_div, roundHalfEven_neg]
  push_cast
  ring

theorem toALfloat_eval {K : Type} [LinearOrderedField K] [FloorRing K] (x : K) (e m : Int)
    (he : -126 ≤ e) (h1 : (2 : K) ^ e ≤ |x|) (h2 : |x| < (2 : K) ^ (e + 1))
    (hm : |x / (2 : K) ^ (e - 23) - m| < 1 / 2) :
    toALfloat x = (m : K) * (2 : K) ^ (e - 23) := by
  have hlog : Int.log 2 |x| = e := int_log_two_eq h1 h2
  have hu : floatSpacing x = (2 : K) ^ (e - 23) := by
    unfold floatSpacing
    rw [hlog, max_eq_left he]
  unfold toALfloat
  rw [hu, roundHalfEven_of_close _ m hm]

theorem toALfloat_nonneg {K : Type} [LinearOrderedField K] [FloorRing K] (x : K)
    (h : 0 ≤ x) : 0 ≤ toALfloat x := by
  have hu := floatSpacing_pos x
  have hy : (0 : K) ≤ x / floatSpacing x := div_nonneg h (le_of_lt hu)
  have hf : (0 : Int) ≤ ⌊x / floatSpacing x⌋ := by
    rw [Int.le_floor]
    exact_mod_cast hy
  have hr : (0 : Int) ≤ roundHalfEven (x / floatSpacing x) :=
    hf.trans (roundHalfEven_bounds _).1
  unfold toALfloat
  exact mul_nonneg (by exact_mod_cast hr) (le_of_lt hu)

theorem toALfloat_tenth :
    toALfloat (3602879701896397 / 36028797018963968 : ℚ) = 13421773 / 134217728 := by
  rw [toALfloat_eval (3602879701896397 / 36028797018963968 : ℚ) (-4) 13421773]
  · norm_num
  · norm_num
  · rw [abs_of_pos (by norm_num)]
    norm_num
  · rw [abs_of_pos (by norm_num)]
    norm_num
  · rw [abs_lt]
    constructor <;> norm_num

/-! ## Volume -/

theorem sound_volume_fields (pow : ℚ → ℚ → ℚ) (v : ℚ) (st : SoundState)
    (hen : st.sound_disabled = false) :
    (sound_volume pow v st).2.svolume_lin = toALfloat v ∧
    (sound_volume pow v st).2.svolume = volumeLog pow v ∧
    (sound_volume pow v st).2.sound_disabled = false := by
  simp [sound_volume, hen, sound_al_volumeUpdate]

theorem music_volume_fields (pow : ℚ → ℚ → ℚ) (v : ℚ) (e : MusicEngine)
    (hen : e.music_disabled = false) :
    (music_volume pow v e).2.music_vol_lin = toALfloat v ∧
    (music_volume pow v e).2.music_vol = volumeLog pow v ∧
    (music_volume pow v e).2.music_disabled = false := by
  unfold music_volume
  simp only [hen, Bool.false_eq_true, if_false]
  split_ifs <;> simp [MusicEngine.call, hen]

/-- C17, as stated, fails.  The `double` nearest to 0.1 lies in `[0,1]`; after
`sound_volume` (resp. `music_volume`) of it, `sound_getVolume()` (resp.
`music_getVolume()`) returns 13421773 / 2^27 = 0.100000001490116..., the
nearest single-precision number, which is another value. -/
theorem volume_round_trip_rounds_a_tenth :
    (0 : ℚ) ≤ 3602879701896397 / 36028797018963968 ∧
    (3602879701896397 / 36028797018963968 : ℚ) ≤ 1 ∧
    sound_getVolume (sound_volume powFloor (3602879701896397 / 36028797018963968)
      poolOfFour).2 = 13421773 / 134217728 ∧
    music_getVolume (music_volume powFloor (3602879701896397 / 36028797018963968)
      idleEngine).2 = 13421773 / 134217728 ∧
    (13421773 / 134217728 : ℚ) ≠ 3602879701896397 / 36028797018963968 := by
  have hs := sound_volume_fields powFloor (3602879701896397 / 36028797018963968) poolOfFour rfl
  have hm := music_volume_fields powFloor (3602879701896397 / 36028797018963968) idleEngine rfl
  refine ⟨by norm_num, by norm_num, ?_, ?_, by norm_num⟩
  · simp only [sound_getVolume, hs.2.2, hs.1, toALfloat_tenth]
    rfl
  · simp only [music_getVolume, hm.2.2, hm.1, toALfloat_tenth]
    rfl

/-- C17, amended.  With sound (resp. music) enabled, `sound_getVolume()`
(resp. `music_getVolume()`) returns right after `sound_volume( v )` (resp.
`music_volume( v )`) the value `v` narrowed to single precision, for every
`v` and whatever the power function.  It returns `v` itself when `v` is a
single-precision number; and for `0 <= v <= 1` what it returns lies in
`[0,1]` and differs from `v` by at most `2^-24`. -/
theorem volume_round_trip_single_precision (pow : ℚ → ℚ → ℚ) (v : ℚ) (st : SoundState)
    (e : MusicEngine)
    (hsound : st.sound_disabled = false) (hmusic : e.music_disabled = false) :
    sound_getVolume (sound_volume pow v st).2 = toALfloat v ∧
    music_getVolume (music_volume pow v e).2 = toALfloat v ∧
    (isALfloat v →
      sound_getVolume (sound_volume pow v st).2 = v ∧
      music_getVolume (music_volume pow v e).2 = v) ∧
    (0 ≤ v → v ≤ 1 →
      |sound_getVolume (sound_volume pow v st).2 - v| ≤ 1 / 2 ^ 24 ∧
      |music_getVolume (music_volume pow v e).2 - v| ≤ 1 / 2 ^ 24 ∧
      0 ≤ sound_getVolume (sound_volume pow v st).2 ∧
      sound_getVolume (sound_volume pow v st).2 ≤ 1 ∧
      0 ≤ music_getVolume (music_volume pow v e).2 ∧
      music_getVolume (music_volume pow v e).2 ≤ 1) := by
  have hs := sound_volume_fields pow v st hsound
  have hm := music_volume_fields pow v e hmusic
  have e1 : sound_getVolume (sound_volume pow v st).2 = toALfloat v := by
    simp [sound_getVolume, hs.1, hs.2.2]
  have e2 : music_getVolume (music_volume pow v e).2 = toALfloat v := by
    simp [music_getVolume, hm.1, hm.2.2]
  rw [e1, e2]
  refine ⟨rfl, rfl, ?_, ?_⟩
  · intro hr
    exact ⟨toALfloat_of_isALfloat v hr, toALfloat_of_isALfloat v hr⟩
  · intro h0 h1
    have habs : |v| ≤ 1 := by
      rw [abs_of_nonneg h0]
      exact h1
    have herr : |toALfloat v - v| ≤ 1 / 2 ^ 24 := by
      have a := toALfloat_error v
      have b := floatSpacing_le v habs
      calc |toALfloat v - v| ≤ floatSpacing v / 2 := a
        _ ≤ 1 / 2 ^ 23 / 2 := by linarith
        _ = 1 / 2 ^ 24 := by norm_num
    have hle := (abs_le.mp (toALfloat_abs_le_one v habs)).2
    have hge := toALfloat_nonneg v h0
    exact ⟨herr, herr, hge, hle, hge, hle⟩

/-- Witness for the amended C17 at `v = 1/2`, a single-precision number. -/
theorem volume_round_trip_single_precision_witness :
    poolOfFour.sound_disabled = false ∧ idleEngine.music_disabled = false ∧
    isALfloat (1 / 2 : ℚ) ∧
    sound_getVolume (sound_volume powFloor (1 / 2) poolOfFour).2 = 1 / 2 ∧
    music_getVolume (music_volume powFloor (1 / 2) idleEngine).2 = 1 / 2 :=
  ⟨by decide, by decide, ⟨1, -1, by norm_num, by norm_num, by norm_num⟩,
    ((volume_round_trip_single_precision powFloor (1 / 2) poolOfFour idleEngine (by decide)
      (by decide)).2.2.1 ⟨1, -1, by norm_num, by norm_num, by norm_num⟩).1,
    ((volume_round_trip_single_precision powFloor (1 / 2) poolOfFour idleEngine (by decide)
      (by decide)).2.2.1 ⟨1, -1, by norm_num, by norm_num, by norm_num⟩).2⟩

theorem volumeLog_real_pos (v : ℝ) (hv : 0 < v) :
    volumeLog (fun x y : ℝ => x ^ y) v = (2 : ℝ) ^ (-8 * (1 - v)) := by
  unfold volumeLog
  simp only [gt_iff_lt, hv, if_true]
  rw [one_div, ← Real.rpow_neg (by norm_num)]
  congr 1
  ring

/-- C19.  The argument of `sound_volume` and `music_volume` is stored as it
is: after `sound_volume( 2 )` the linear volume is 2 and after
`sound_volume( -1 )` it is -1, and likewise for music, whatever the power
function; the logarithmic gain for 2 is `1 / 2^(-8) = 256`. -/
theorem volume_is_stored_unclamped :
    (∀ pow, sound_getVolume (sound_volume pow 2 poolOfFour).2 = 2) ∧
    (∀ pow, sound_getVolume (sound_volume pow (-1) poolOfFour).2 = -1) ∧
    (∀ pow, music_getVolume (music_volume pow 2 idleEngine).2 = 2) ∧
    (∀ pow, music_getVolume (music_volume pow (-1) idleEngine).2 = -1) ∧
    sound_getVolumeLog (sound_volume powFloor 2 poolOfFour).2 = 256 ∧
    music_getVolumeLog (music_volume powFloor 2 idleEngine).2 = 256 ∧
    volumeLog (fun x y : ℝ => x ^ y) 2 = 256 := by
  have hs : ∀ pow v, isALfloat v → sound_getVolume (sound_volume pow v poolOfFour).2 = v := by
    intro pow v hv
    have h := sound_volume_fields pow v poolOfFour rfl
    simp [sound_getVolume, h.1, h.2.2, toALfloat_of_isALfloat v hv]
  have hm : ∀ pow v, isALfloat v → music_getVolume (music_volume pow v idleEngine).2 = v := by
    intro pow v hv
    have h := music_volume_fields pow v idleEngine rfl
    simp [music_getVolume, h.1, h.2.2, toALfloat_of_isALfloat v hv]
  have h2 : isALfloat (2 : ℚ) := ⟨1, 1, by norm_num, by norm_num, by norm_num⟩
  have hm1 : isALfloat (-1 : ℚ) := ⟨-1, 0, by norm_num, by norm_num, by norm_num⟩
  have hl : volumeLog powFloor (2 : ℚ) = 256 := by
    simp [volumeLog, powFloor]
    norm_num
  refine ⟨fun pow => hs pow 2 h2, fun pow => hs pow (-1) hm1, fun pow => hm pow 2 h2,
    fun pow => hm pow (-1) hm1, ?_, ?_, ?_⟩
  · have h := sound_volume_fields powFloor 2 poolOfFour rfl
    simp only [sound_getVolumeLog, h.2.2, h.2.1, hl]
    rfl
  · have h := music_volume_fields powFloor 2 idleEngine rfl
    simp only [music_getVolumeLog, h.2.2, h.2.1, hl]
    rfl
  · rw [volumeLog_real_pos 2 (by norm_num)]
    norm_num

/-! ## Group fade-out -/

/-- C22.  With sound disabled, `sound_play` returns 0 for every sound index
and leaves the whole engine state as it is: in particular the free-source
count, the active voices, the free voices and the identifier counter. -/
theorem sound_play_disabled (st : SoundState) (sound : Int)
    (hdis : st.sound_disabled = true) :
    (sound_play sound st).1 = 0 ∧ (sound_play sound st).2 = st ∧
    (sound_play sound st).2.source_nstack = st.source_nstack ∧
    (sound_play sound st).2.voice_active = st.voice_active ∧
    (sound_play sound st).2.voice_pool = st.voice_pool ∧
    (sound_play sound st).2.voice_genid = st.voice_genid := by
  simp [sound_play, hdis]

/-- Witness for C22: the pool of four sources with sound disabled. -/
theorem sound_play_disabled_witness :
    mutedPool.sound_disabled = true ∧
    ((sound_play 0 mutedPool).1 = 0 ∧ (sound_play 0 mutedPool).2 = mutedPool ∧
    (sound_play 0 mutedPool).2.source_nstack = mutedPool.source_nstack ∧
    (sound_play 0 mutedPool).2.voice_active = mutedPool.voice_active ∧
    (sound_play 0 mutedPool).2.voice_pool = mutedPool.voice_pool ∧
    (sound_play 0 mutedPool).2.voice_genid = mutedPool.voice_genid) :=
  ⟨by decide, sound_play_disabled mutedPool 0 (by decide)⟩

theorem sound_createGroup_loop_nstack : ∀ (k i : Nat) (g : alGroup_t) (st : SoundState),
    (sound_createGroup_loop k i g st).2.2.source_nstack ≤ st.source_nstack
  | 0, _, _, _ => by simp [sound_createGroup_loop]
  | k + 1, i, g, st => by
    by_cases h : st.source_nstack ≤ 0
    · simp [sound_createGroup_loop, h]
    · have ih := sound_createGroup_loop_nstack k (i + 1) (sound_createGroup_body i g st).1
        (sound_createGroup_body i g st).2
      simp only [sound_createGroup_loop, h, if_false]
      have : (sound_createGroup_body i g st).2.source_nstack = st.source_nstack - 1 := rfl
      omega

theorem sound_createGroup_nstack (size : Int) (st : SoundState) :
    (sound_createGroup size st).2.source_nstack ≤ st.source_nstack := by
  unfold sound_createGroup
  split
  · exact le_refl _
  · have h := sound_createGroup_loop_nstack size.toNat 0
      { id := wrapInt32 (st.al_groupidgen + 1), sources := List.replicate size.toNat 0,
        nsources := size, state := voice_state_t.VOICE_PLAYING, fade_timer := 0, speed := 1,
        volume := 1 }
      { st with al_groupidgen := wrapInt32 (st.al_groupidgen + 1) }
    simp only at h ⊢
    split <;> rename_i heq <;> rw [heq] at h <;> exact h

theorem sound_playCommon_nstack (sound : Int) (px py vx vy : ℚ) (relative : Bool)
    (st : SoundState) :
    (sound_playCommon sound px py vx vy relative st).2.source_nstack ≤ st.source_nstack := by
  apply sound_playCommon_cases (fun r => r.2.source_nstack ≤ st.source_nstack)
  · intro _
    exact le_refl _
  · intro _ _
    simp
  · intro _ _
    simp

/-- C23.  For every engine state and every voice identifier, `sound_stop`
and `sound_stopAll` leave the free-source count, the free stack, the
identifiers and sources of the active voices (in list order) and the free
voices unchanged.  Of all the calls of a run, only the per-tick update can
make the free-source count grow: after any other call it is at most what it
was. -/
theorem stopping_is_not_reclaiming (st : SoundState) (id : Int) :
    (sound_stop id st).source_nstack = st.source_nstack ∧
    (sound_stop id st).source_stack = st.source_stack ∧
    (sound_stop id st).voice_active.map (fun v => (v.id, v.source))
      = st.voice_active.map (fun v => (v.id, v.source)) ∧
    (sound_stop id st).voice_pool = st.voice_pool ∧
    (sound_stopAll st).source_nstack = st.source_nstack ∧
    (sound_stopAll st).source_stack = st.source_stack ∧
    (sound_stopAll st).voice_active.map (fun v => (v.id, v.source))
      = st.voice_active.map (fun v => (v.id, v.source)) ∧
    (sound_stopAll st).voice_pool = st.voice_pool ∧
    (∀ op : SoundOp, (∀ t, op ≠ SoundOp.update t) →
      (step st op).2.source_nstack ≤ st.source_nstack) := by
  have hstop : (sound_stop id st).source_nstack = st.source_nstack ∧
      (sound_stop id st).source_stack = st.source_stack ∧
      (sound_stop id st).voice_active.map (fun v => (v.id, v.source))
        = st.voice_active.map (fun v => (v.id, v.source)) ∧
      (sound_stop id st).voice_pool = st.voice_pool := by
    unfold sound_stop
    split
    · exact ⟨rfl, rfl, rfl, rfl⟩
    · split
      · exact ⟨rfl, rfl, rfl, rfl⟩
      · exact ⟨rfl, rfl,
          modifyFirst_map (fun x : alVoice => decide (x.id = id))
            (fun x => { x with state := voice_state_t.VOICE_STOPPED })
            (fun v : alVoice => (v.id, v.source)) (by intro _; rfl) st.voice_active,
          rfl⟩
  have hall : (sound_stopAll st).source_nstack = st.source_nstack ∧
      (sound_stopAll st).source_stack = st.source_stack ∧
      (sound_stopAll st).voice_active.map (fun v => (v.id, v.source))
        = st.voice_active.map (fun v => (v.id, v.source)) ∧
      (sound_stopAll st).voice_pool = st.voice_pool := by
    unfold sound_stopAll
    split
    · exact ⟨rfl, rfl, rfl, rfl⟩
    · refine ⟨rfl, rfl, ?_, rfl⟩
      simp [List.map_map, Function.comp_def]
  refine ⟨hstop.1, hstop.2.1, hstop.2.2.1, hstop.2.2.2, hall.1, hall.2.1, hall.2.2.1,
    hall.2.2.2, ?_⟩
  intro op hop
  cases op with
  | play sound =>
    simp only [step, sound_play]
    split_ifs
    · exact le_refl _
    · exact le_refl _
    · exact sound_playCommon_nstack sound 0 0 0 0 true st
  | playPos sound px py vx vy inRange =>
    simp only [step, sound_playPos]
    split_ifs
    · exact le_refl _
    · exact le_refl _
    · exact le_refl _
    · exact sound_playCommon_nstack sound px py vx vy false st
  | updatePos voice px py vx vy =>
    exact le_of_eq (sound_updatePos_shape voice px py vx vy st).1
  | stop voice => exact le_of_eq (sound_stop_shape voice st).1
  | stopAll => exact le_of_eq (sound_stopAll_shape st).1
  | update ticks => exact absurd rfl (hop ticks)
  | createGroup size => exact sound_createGroup_nstack size st
  | playGroup group sound once => exact le_of_eq (sound_playGroup_shape group sound once st).1
  | stopGroup group ticks => exact le_of_eq (sound_stopGroup_shape group ticks st).1
  | backend s x => exact le_of_eq (backendSets_shape s x st).1

/-! ## The replaygain filter -/

theorem tanh_strictly_inside (x : ℝ) : -1 < Real.tanh x ∧ Real.tanh x < 1 := by
  have hc := Real.cosh_pos x
  rw [Real.tanh_eq_sinh_div_cosh]
  constructor
  · rw [lt_div_iff₀ hc]
    have h := Real.cosh_add_sinh x
    have he := Real.exp_pos x
    linarith
  · rw [div_lt_one hc]
    exact Real.sinh_lt_cosh x

theorem exp_ten_gt : (5793 : ℝ) < Real.exp 10 := by
  have h1 : (2.7 : ℝ) < Real.exp 1 := lt_trans (by norm_num) Real.exp_one_gt_d9
  have h2 : Real.exp 1 ^ 10 = Real.exp 10 := by
    rw [← Real.exp_nat_mul]
    norm_num
  rw [← h2]
  calc (5793 : ℝ) < 2.7 ^ 10 := by norm_num
    _ < Real.exp 1 ^ 10 := pow_lt_pow_left₀ h1 (by norm_num) (by norm_num)

theorem tanh_ten_gt : 1 - 1 / 2 ^ 24 < Real.tanh 10 := by
  have hE := exp_ten_gt
  have hpos : (0 : ℝ) < Real.exp 10 := Real.exp_pos 10
  rw [Real.tanh_eq_sinh_div_cosh, Real.sinh_eq, Real.cosh_eq, Real.exp_neg]
  generalize Real.exp 10 = E at hE hpos
  have hinv : 0 < E⁻¹ := inv_pos.mpr hpos
  rw [lt_div_iff₀ (by positivity)]
  have hEE : E * E⁻¹ = 1 := mul_inv_cancel₀ (ne_of_gt hpos)
  have hsmall : E⁻¹ < 1 / 5793 := by
    rw [inv_eq_one_div]
    exact one_div_lt_one_div_of_lt (by norm_num) hE
  nlinarith

theorem mapFirst_take {α : Type} (n : Nat) (f : α → α) (l : List α) :
    (mapFirst n f l).take n = (l.take n).map f := by
  unfold mapFirst
  rcases le_total n l.length with h | h
  · rw [List.take_append_of_le_length (by simp [h])]
    rw [List.take_of_length_le (by simp)]
  · rw [List.drop_of_length_le h, List.append_nil]
    rw [List.take_of_length_le (by simp)]

theorem mapFirst_drop {α : Type} (n : Nat) (f : α → α) (l : List α) :
    (mapFirst n f l).drop n = l.drop n := by
  unfold mapFirst
  rcases le_total n l.length with h | h
  · rw [List.drop_append_of_le_length (by simp [h])]
    rw [List.drop_of_length_le (by simp)]
    simp
  · rw [List.drop_of_length_le h, List.append_nil]
    rw [List.drop_of_length_le (by simp [h])]

theorem rg_filter_limit_spec (scale_factor s : ℝ) :
    (|toALfloat (s * scale_factor)| ≤ 1 / 2 →
      rg_filter_limit Real.tanh scale_factor s = toALfloat (s * scale_factor)) ∧
    (1 / 2 < |toALfloat (s * scale_factor)| →
      rg_filter_limit Real.tanh scale_factor s =
        toALfloat ((SignType.sign (toALfloat (s * scale_factor)) : ℝ) *
          (1 / 2 + 1 / 2 * Real.tanh ((|toALfloat (s * scale_factor)| - 1 / 2) / (1 / 2))))) ∧
    -1 ≤ rg_filter_limit Real.tanh scale_factor s ∧
    rg_filter_limit Real.tanh scale_factor s ≤ 1 := by
  have ht := tanh_strictly_inside
  unfold rg_filter_limit
  simp only
  generalize toALfloat (s * scale_factor) = c
  have hin : ∀ t : ℝ, -1 < t → t < 1 →
      -1 ≤ toALfloat (t * (1 - 1 / 2) - 1 / 2) ∧ toALfloat (t * (1 - 1 / 2) - 1 / 2) ≤ 1 ∧
      -1 ≤ toALfloat (t * (1 - 1 / 2) + 1 / 2) ∧ toALfloat (t * (1 - 1 / 2) + 1 / 2) ≤ 1 := by
    intro t t1 t2
    have a := abs_le.mp (toALfloat_abs_le_one (t * (1 - 1 / 2) - 1 / 2)
      (abs_le.mpr ⟨by linarith, by linarith⟩))
    have b := abs_le.mp (toALfloat_abs_le_one (t * (1 - 1 / 2) + 1 / 2)
      (abs_le.mpr ⟨by linarith, by linarith⟩))
    exact ⟨a.1, a.2, b.1, b.2⟩
  refine ⟨?_, ?_, ?_, ?_⟩
  · intro h
    rw [abs_le] at h
    have h1 : ¬ (c < -(1 / 2)) := by linarith [h.1]
    have h2 : ¬ (c > 1 / 2) := by linarith [h.2]
    simp only [h1, h2, if_false]
  · intro h
    rcases lt_abs.mp h with hp | hn
    · have h1 : ¬ (c < -(1 / 2)) := by linarith
      have h2 : c > 1 / 2 := hp
      have hpos : 0 < c := by linarith
      simp only [h1, h2, if_false, if_true, sign_pos hpos, abs_of_pos hpos]
      congr 1
      norm_num
      ring
    · have h1 : c < -(1 / 2) := by linarith
      have hneg : c < 0 := by linarith
      simp only [h1, if_true, sign_neg hneg, abs_of_neg hneg]
      have : (-c - 1 / 2) / (1 / 2) = -((c + 1 / 2) / (1 - 1 / 2)) := by
        ring
      rw [this, Real.tanh_neg]
      congr 1
      norm_num
      ring
  · split_ifs with h1 h2
    · exact (hin _ (ht _).1 (ht _).2).1
    · exact (hin _ (ht _).1 (ht _).2).2.2.1
    · linarith
  · split_ifs with h1 h2
    · exact (hin _ (ht _).1 (ht _).2).2.1
    · exact (hin _ (ht _).1 (ht _).2).2.2.2
    · linarith

/-- C24, as stated, fails.  With a scale factor of 2 the sample 2.75 is scaled
to 5.5, and `0.5 + 0.5 * tanh(10)` lies within `2^-25` of 1: stored in the
`float` it is exactly 1, and for the sample -2.75 exactly -1.  The output is
not strictly between -1 and 1. -/
theorem rg_filter_limit_reaches_one :
    rg_filter_limit Real.tanh 2 (11 / 4) = 1 ∧
    rg_filter_limit Real.tanh 2 (-(11 / 4)) = -1 ∧
    rg_filter Real.tanh 2 1 [[11 / 4, -(11 / 4)]] 1 2 = [[1, -1]] ∧
    ¬ (rg_filter_limit Real.tanh 2 (11 / 4) < 1) ∧
    ¬ (-1 < rg_filter_limit Real.tanh 2 (-(11 / 4))) := by
  have hcur : toALfloat ((11 / 4 : ℝ) * 2) = 11 / 2 := by
    rw [toALfloat_of_isALfloat _ ⟨11, -1, by norm_num, by norm_num, by norm_num⟩]
    norm_num
  have hcurn : toALfloat (-(11 / 4 : ℝ) * 2) = -(11 / 2) := by
    rw [toALfloat_of_isALfloat _ ⟨-11, -1, by norm_num, by norm_num, by norm_num⟩]
    norm_num
  have hz : toALfloat (Real.tanh 10 * (1 - 1 / 2) + 1 / 2) = 1 := by
    apply toALfloat_near_one
    · have := tanh_ten_gt
      norm_num at this ⊢
      linarith
    · have := (tanh_strictly_inside 10).2
      linarith
  have hzn : toALfloat (Real.tanh (-10) * (1 - 1 / 2) - 1 / 2) = -1 := by
    have : Real.tanh (-10) * (1 - 1 / 2) - 1 / 2 = -(Real.tanh 10 * (1 - 1 / 2) + 1 / 2) := by
      rw [Real.tanh_neg]
      ring
    rw [this, toALfloat_neg, hz]
  have e1 : rg_filter_limit Real.tanh 2 (11 / 4) = 1 := by
    unfold rg_filter_limit
    simp only [hcur]
    rw [if_neg (by norm_num), if_pos (by norm_num)]
    have : ((11 / 2 : ℝ) - 1 / 2) / (1 - 1 / 2) = 10 := by norm_num
    rw [this, hz]
  have e2 : rg_filter_limit Real.tanh 2 (-(11 / 4)) = -1 := by
    unfold rg_filter_limit
    simp only [hcurn]
    rw [if_pos (by norm_num)]
    have : (-(11 / 2 : ℝ) + 1 / 2) / (1 - 1 / 2) = -10 := by norm_num
    rw [this, hzn]
  refine ⟨e1, e2, ?_, ?_, ?_⟩
  · simp [rg_filter, mapFirst, e1, e2]
  · rw [e1]
    exact lt_irrefl _
  · rw [e2]
    exact lt_irrefl _

/-- C24, amended.  With the real hyperbolic tangent and every store to a
`float` rounding to single precision.  When the scale factor exceeds the
maximum scale, `rg_filter` replaces each of the first `samples` entries of
each of the first `channels` rows by `rg_filter_limit` of it.  With `x` the
sample times the scale factor, rounded, that value is `x` when `|x| <= 0.5`
and `sign(x) * (0.5 + 0.5 * tanh((|x| - 0.5) / 0.5))`, rounded, otherwise,
and it always lies between -1 and 1, the ends included; hence so does every
sample the filter has processed.  When the scale factor is positive and at
most the maximum scale, each processed sample is the sample times the scale
factor, rounded.  Rows beyond `channels` are never touched. -/
theorem rg_filter_limiter_rounded (scale_factor max_scale : ℝ) (pcm : List (List ℝ))
    (channels samples : Nat) :
    (scale_factor > max_scale →
      (rg_filter Real.tanh scale_factor max_scale pcm channels samples).take channels
        = (pcm.take channels).map (fun ch =>
            (ch.take samples).map (rg_filter_limit Real.tanh scale_factor)
              ++ ch.drop samples)) ∧
    (∀ s : ℝ, |toALfloat (s * scale_factor)| ≤ 1 / 2 →
      rg_filter_limit Real.tanh scale_factor s = toALfloat (s * scale_factor)) ∧
    (∀ s : ℝ, 1 / 2 < |toALfloat (s * scale_factor)| →
      rg_filter_limit Real.tanh scale_factor s =
        toALfloat ((SignType.sign (toALfloat (s * scale_factor)) : ℝ) *
          (1 / 2 + 1 / 2 * Real.tanh ((|toALfloat (s * scale_factor)| - 1 / 2) / (1 / 2))))) ∧
    (∀ s : ℝ, -1 ≤ rg_filter_limit Real.tanh scale_factor s
      ∧ rg_filter_limit Real.tanh scale_factor s ≤ 1) ∧
    (scale_factor > max_scale →
      ∀ ch ∈ (rg_filter Real.tanh scale_factor max_scale pcm channels samples).take channels,
        ∀ y ∈ ch.take samples, -1 ≤ y ∧ y ≤ 1) ∧
    (scale_factor ≤ max_scale → 0 < scale_factor →
      (rg_filter Real.tanh scale_factor max_scale pcm channels samples).take channels
        = (pcm.take channels).map (fun ch =>
            (ch.take samples).map (fun s => toALfloat (s * scale_factor))
              ++ ch.drop samples)) ∧
    (rg_filter Real.tanh scale_factor max_scale pcm channels samples).drop channels
      = pcm.drop channels := by
  have hlim : scale_factor > max_scale →
      (rg_filter Real.tanh scale_factor max_scale pcm channels samples).take channels
        = (pcm.take channels).map (fun ch =>
            (ch.take samples).map (rg_filter_limit Real.tanh scale_factor)
              ++ ch.drop samples) := by
    intro h
    simp only [rg_filter, h, if_true, mapFirst_take]
    rfl
  refine ⟨hlim, fun s => (rg_filter_limit_spec scale_factor s).1,
    fun s => (rg_filter_limit_spec scale_factor s).2.1,
    fun s => (rg_filter_limit_spec scale_factor s).2.2, ?_, ?_, ?_⟩
  · intro h ch hch y hy
    rw [hlim h] at hch
    obtain ⟨c0, _, rfl⟩ := List.mem_map.mp hch
    have : ((List.map (rg_filter_limit Real.tanh scale_factor) (List.take samples c0)
        ++ List.drop samples c0).take samples)
        = (c0.take samples).map (rg_filter_limit Real.tanh scale_factor) :=
      mapFirst_take samples _ c0
    rw [this] at hy
    obtain ⟨s, _, rfl⟩ := List.mem_map.mp hy
    exact (rg_filter_limit_spec scale_factor s).2.2
  · intro h1 h2
    have h3 : ¬ (scale_factor > max_scale) := not_lt.mpr h1
    simp only [rg_filter, h3, if_false, gt_iff_lt, h2, if_true, mapFirst_take]
    rfl
  · unfold rg_filter
    split_ifs
    · exact mapFirst_drop _ _ _
    · exact mapFirst_drop _ _ _
    · rfl

/-! ## The music thread: runs -/

theorem music_kill_iteration (d1 d2 : Int) (env : MusicEnv) (e : MusicEngine)
    (hkill : e.thread.music_command = music_cmd_t.MUSIC_CMD_KILL) :
    (music_thread_iteration d1 d2 env e).1.thread.music_command = music_cmd_t.MUSIC_CMD_KILL ∧
    (e.thread.music_state = music_state_t.MUSIC_STATE_IDLE →
      (music_thread_command d1 env.ticks_cmd e.thread).music_state
        = music_state_t.MUSIC_STATE_DEAD ∧
      (music_thread_iteration d1 d2 env e).1.thread.music_state
        = music_state_t.MUSIC_STATE_DEAD ∧
      (music_thread_iteration d1 d2 env e).2 = true) ∧
    (e.thread.music_state ≠ music_state_t.MUSIC_STATE_IDLE →
      (music_thread_command d1 env.ticks_cmd e.thread).music_state
        = music_state_t.MUSIC_STATE_STOPPING ∧
      (music_thread_iteration d1 d2 env e).1.thread.music_state
        = music_state_t.MUSIC_STATE_IDLE ∧
      (music_thread_iteration d1 d2 env e).2 = false) := by
  by_cases hs : e.thread.music_state = music_state_t.MUSIC_STATE_IDLE
  · simp [music_thread_iteration, music_thread_command, music_thread_action, hkill, hs,
      MusicEngine.setState, MusicEngine.broadcast, MusicThread.broadcast]
  · simp only [music_thread_iteration, music_thread_command, music_thread_action, hkill, hs,
      MusicEngine.setState, MusicEngine.broadcast, MusicThread.broadcast, MusicEngine.call,
      MusicEngine.rechooseUnlessForced, MusicEngine.unqueueProcessed, music_rechoose]
    split_ifs <;> simp [hkill]

/-- C25.  The KILL command is posted before the first iteration and is
still the one posted before the second.  From every music state, the thread
has returned within those two iterations, in state DEAD and with the command
still KILL.  From IDLE the first iteration already ends in DEAD and returns.
From any other state the command phase of the first iteration sets STOPPING,
its action makes the state IDLE without returning, and the command is still
KILL. -/
theorem music_kill_reaches_dead (d1 d2 : Int) (e o1 o2 : MusicEngine) (env1 env2 : MusicEnv)
    (h1 : o1.thread.music_command = music_cmd_t.MUSIC_CMD_KILL)
    (h2 : o2.thread.music_command = music_cmd_t.MUSIC_CMD_KILL) :
    (music_thread_run d1 d2 e [(o1, env1), (o2, env2)]).2 = true ∧
    (music_thread_run d1 d2 e [(o1, env1), (o2, env2)]).1.thread.music_state
      = music_state_t.MUSIC_STATE_DEAD ∧
    (music_thread_run d1 d2 e [(o1, env1), (o2, env2)]).1.thread.music_command
      = music_cmd_t.MUSIC_CMD_KILL ∧
    (e.thread.music_state = music_state_t.MUSIC_STATE_IDLE →
      (music_thread_run d1 d2 e [(o1, env1)]).2 = true ∧
      (music_thread_run d1 d2 e [(o1, env1)]).1.thread.music_state
        = music_state_t.MUSIC_STATE_DEAD ∧
      (music_thread_run d1 d2 e [(o1, env1)]).1.thread.music_command
        = music_cmd_t.MUSIC_CMD_KILL) ∧
    (e.thread.music_state ≠ music_state_t.MUSIC_STATE_IDLE →
      (music_thread_command d1 env1.ticks_cmd (e.callerSets o1).thread).music_state
        = music_state_t.MUSIC_STATE_STOPPING ∧
      (music_thread_run d1 d2 e [(o1, env1)]).2 = false ∧
      (music_thread_run d1 d2 e [(o1, env1)]).1.thread.music_state
        = music_state_t.MUSIC_STATE_IDLE ∧
      (music_thread_run d1 d2 e [(o1, env1)]).1.thread.music_command
        = music_cmd_t.MUSIC_CMD_KILL) := by
  have hc1 : (e.callerSets o1).thread.music_command = music_cmd_t.MUSIC_CMD_KILL := h1
  have hs1 : (e.callerSets o1).thread.music_state = e.thread.music_state := rfl
  obtain ⟨a1, a2, a3⟩ := music_kill_iteration d1 d2 env1 (e.callerSets o1) hc1
  rw [hs1] at a2 a3
  have hone : music_thread_run d1 d2 e [(o1, env1)]
      = (if (music_thread_iteration d1 d2 env1 (e.callerSets o1)).2 then
          music_thread_iteration d1 d2 env1 (e.callerSets o1)
        else ((music_thread_iteration d1 d2 env1 (e.callerSets o1)).1, false)) := by
    simp [music_thread_run]
  have htwo : music_thread_run d1 d2 e [(o1, env1), (o2, env2)]
      = (if (music_thread_iteration d1 d2 env1 (e.callerSets o1)).2 then
          music_thread_iteration d1 d2 env1 (e.callerSets o1)
        else music_thread_run d1 d2 (music_thread_iteration d1 d2 env1 (e.callerSets o1)).1
          [(o2, env2)]) := by
    simp [music_thread_run]
  by_cases hs : e.thread.music_state = music_state_t.MUSIC_STATE_IDLE
  · obtain ⟨_, b2, b3⟩ := a2 hs
    rw [htwo, hone, b3]
    simp only [if_true]
    exact ⟨b3, b2, a1, fun _ => ⟨b3, b2, a1⟩, fun h => absurd hs h⟩
  · obtain ⟨b1, b2, b3⟩ := a3 hs
    have hc2 : ((music_thread_iteration d1 d2 env1 (e.callerSets o1)).1.callerSets o2).thread.music_command
        = music_cmd_t.MUSIC_CMD_KILL := h2
    obtain ⟨c1, c2, _⟩ := music_kill_iteration d1 d2 env2
      ((music_thread_iteration d1 d2 env1 (e.callerSets o1)).1.callerSets o2) hc2
    obtain ⟨_, c3, c4⟩ := c2 b2
    have hnext : music_thread_run d1 d2 (music_thread_iteration d1 d2 env1 (e.callerSets o1)).1
        [(o2, env2)] = music_thread_iteration d1 d2 env2
          ((music_thread_iteration d1 d2 env1 (e.callerSets o1)).1.callerSets o2) := by
      simp [music_thread_run, c4]
    rw [htwo, hone, b3]
    simp only [Bool.false_eq_true, if_false, hnext]
    exact ⟨c4, c3, c1, fun h => absurd h hs, fun _ => ⟨b1, trivial, b2, a1⟩⟩

/-- Witness for C25: KILL posted while a track is playing. -/
theorem music_kill_reaches_dead_witness :
    killPosted.thread.music_command = music_cmd_t.MUSIC_CMD_KILL ∧
    playingEngine.thread.music_state = music_state_t.MUSIC_STATE_PLAYING ∧
    (music_thread_run 2000 1000 playingEngine [(killPosted, quietEnv)]).1.thread.music_state
      = music_state_t.MUSIC_STATE_IDLE ∧
    (music_thread_run 2000 1000 playingEngine
      [(killPosted, quietEnv), (killPosted, laterEnv)]).2 = true ∧
    (music_thread_run 2000 1000 playingEngine
      [(killPosted, quietEnv), (killPosted, laterEnv)]).1.thread.music_state
        = music_state_t.MUSIC_STATE_DEAD :=
  have h := music_kill_reaches_dead 2000 1000 playingEngine killPosted killPosted quietEnv
    laterEnv (by decide) (by decide)
  ⟨by decide, by decide, (h.2.2.2.2 (by decide)).2.2.1, h.1, h.2.1⟩

theorem music_thread_command_not_resuming (d : Int) (t : Nat) (m : MusicThread)
    (h1 : m.music_state ≠ music_state_t.MUSIC_STATE_PAUSING)
    (h2 : m.music_state ≠ music_state_t.MUSIC_STATE_RESUMING) :
    (music_thread_command d t m).music_state ≠ music_state_t.MUSIC_STATE_RESUMING := by
  unfold music_thread_command
  cases hc : m.music_command <;> simp only [MusicThread.broadcast] <;>
    (try split_ifs) <;> simp_all

theorem music_thread_run_state (d1 d2 : Int) :
    ∀ (turns : List (MusicEngine × MusicEnv)) (e : MusicEngine),
      e.thread.music_state ≠ music_state_t.MUSIC_STATE_PAUSING →
      e.thread.music_state ≠ music_state_t.MUSIC_STATE_RESUMING →
      (music_thread_run d1 d2 e turns).1.thread.music_state
        ≠ music_state_t.MUSIC_STATE_PAUSING ∧
      (music_thread_run d1 d2 e turns).1.thread.music_state
        ≠ music_state_t.MUSIC_STATE_RESUMING
  | [], _, h1, h2 => ⟨h1, h2⟩
  | turn :: rest, e, _, _ => by
    have ha := music_thread_action_state d1 d2 turn.2
      { e.callerSets turn.1 with
        thread := music_thread_command d1 turn.2.ticks_cmd (e.callerSets turn.1).thread }
    have hi : music_thread_iteration d1 d2 turn.2 (e.callerSets turn.1)
        = music_thread_action d1 d2 turn.2
          { e.callerSets turn.1 with
            thread := music_thread_command d1 turn.2.ticks_cmd (e.callerSets turn.1).thread } :=
      rfl
    by_cases hr : (music_thread_iteration d1 d2 turn.2 (e.callerSets turn.1)).2 = true
    · simp only [music_thread_run, hr, if_true]
      rw [hi]
      exact ⟨ha.2.1, ha.2.2.1⟩
    · simp only [music_thread_run, hr, if_false, Bool.false_eq_true]
      apply music_thread_run_state d1 d2 rest
      · rw [hi]
        exact ha.2.1
      · rw [hi]
        exact ha.2.2.1

/-- C27.  Start the thread in any state other than PAUSING and RESUMING (it
starts in STARTUP) and let callers post any commands between iterations.
After every number of iterations the music state is neither PAUSING nor
RESUMING, so the command phase of the next iteration starts outside PAUSING
and does not set RESUMING either.  The action of an iteration whose command
phase set PAUSING leaves PAUSED; the command phase can only leave RESUMING
when it started in PAUSING or RESUMING; and the PLAY command consumed in
state PAUSED sets the state to LOADING and clears the command. -/
theorem music_resuming_is_unreachable (d1 d2 : Int) (e0 o : MusicEngine)
    (turns : List (MusicEngine × MusicEnv)) (env : MusicEnv)
    (hp : e0.thread.music_state ≠ music_state_t.MUSIC_STATE_PAUSING)
    (hr : e0.thread.music_state ≠ music_state_t.MUSIC_STATE_RESUMING) :
    (music_thread_run d1 d2 e0 turns).1.thread.music_state
      ≠ music_state_t.MUSIC_STATE_PAUSING ∧
    (music_thread_run d1 d2 e0 turns).1.thread.music_state
      ≠ music_state_t.MUSIC_STATE_RESUMING ∧
    (music_thread_command d1 env.ticks_cmd
      ((music_thread_run d1 d2 e0 turns).1.callerSets o).thread).music_state
      ≠ music_state_t.MUSIC_STATE_RESUMING ∧
    (∀ (e : MusicEngine) (env2 : MusicEnv),
      e.thread.music_state = music_state_t.MUSIC_STATE_PAUSING →
      (music_thread_action d1 d2 env2 e).1.thread.music_state
        = music_state_t.MUSIC_STATE_PAUSED) ∧
    (∀ (m : MusicThread) (t : Nat),
      (music_thread_command d1 t m).music_state = music_state_t.MUSIC_STATE_RESUMING →
      m.music_state = music_state_t.MUSIC_STATE_PAUSING
        ∨ m.music_state = music_state_t.MUSIC_STATE_RESUMING) ∧
    (∀ (m : MusicThread) (t : Nat),
      m.music_command = music_cmd_t.MUSIC_CMD_PLAY →
      m.music_state = music_state_t.MUSIC_STATE_PAUSED →
      (music_thread_command d1 t m).music_state = music_state_t.MUSIC_STATE_LOADING ∧
      (music_thread_command d1 t m).music_command = music_cmd_t.MUSIC_CMD_NONE) := by
  obtain ⟨h1, h2⟩ := music_thread_run_state d1 d2 turns e0 hp hr
  refine ⟨h1, h2, music_thread_command_not_resuming d1 env.ticks_cmd _ h1 h2, ?_, ?_, ?_⟩
  · intro e env2 hs
    simp [music_thread_action, hs, MusicEngine.setState, MusicEngine.broadcast,
      MusicEngine.call, MusicThread.broadcast]
  · intro m t hres
    by_contra hn
    push_neg at hn
    exact music_thread_command_not_resuming d1 t m hn.1 hn.2 hres
  · intro m t hc hs
    simp [music_thread_command, hc, hs, MusicThread.broadcast]

/-- Witness for C27: `music_pause` on a playing track leaves PAUSED, and the
PLAY command of `music_resume` then sets LOADING. -/
theorem music_resuming_is_unreachable_witness :
    playingEngine.thread.music_state ≠ music_state_t.MUSIC_STATE_PAUSING ∧
    playingEngine.thread.music_state ≠ music_state_t.MUSIC_STATE_RESUMING ∧
    (music_thread_run 2000 1000 playingEngine [(pausePosted, quietEnv)]).1.thread.music_state
      = music_state_t.MUSIC_STATE_PAUSED ∧
    (music_thread_command 2000 laterEnv.ticks_cmd
      ((music_thread_run 2000 1000 playingEngine
        [(pausePosted, quietEnv)]).1.callerSets playPosted).thread).music_state
      = music_state_t.MUSIC_STATE_LOADING ∧
    (music_thread_command 2000 laterEnv.ticks_cmd
      ((music_thread_run 2000 1000 playingEngine
        [(pausePosted, quietEnv)]).1.callerSets playPosted).thread).music_state
      ≠ music_state_t.MUSIC_STATE_RESUMING :=
  ⟨by decide, by decide, by decide, by decide,
    (music_resuming_is_unreachable 2000 1000 playingEngine playPosted
      [(pausePosted, quietEnv)] laterEnv (by decide) (by decide)).2.2.1⟩

/-! ## The values `stream_loadBuffer` returns -/

theorem stream_fill_spec (B : Int) : ∀ (l : List Int) (size : Int),
    ∃ pre : List Int, ∃ rest : List Int,
      (∀ r ∈ pre, r ≠ 0 ∧ r ≠ OV_HOLE ∧ r ≠ OV_EBADLINK) ∧
      ((l = pre ++ rest ∧ B ≤ size + pre.sum ∧
          stream_fill B l size = (0, some (size + pre.sum), rest)) ∨
       (l = pre ++ OV_HOLE :: rest ∧ size + pre.sum < B ∧
          stream_fill B l size = (0, none, rest)) ∨
       (l = pre ++ OV_EBADLINK :: rest ∧ size + pre.sum < B ∧
          stream_fill B l size = (-1, none, rest)) ∨
       ((l = pre ++ 0 :: rest ∨ (l = pre ∧ rest = [])) ∧ size + pre.sum < B ∧
          size + pre.sum = 0 ∧ stream_fill B l size = (-2, none, rest)) ∨
       ((l = pre ++ 0 :: rest ∨ (l = pre ∧ rest = [])) ∧ size + pre.sum < B ∧
          size + pre.sum ≠ 0 ∧ stream_fill B l size = (1, some (size + pre.sum), rest)))
  | [], size => by
    refine ⟨[], [], by simp, ?_⟩
    by_cases h : size < B
    · by_cases h0 : size = 0
      · right; right; right; left
        simp [stream_fill, h, h0]
        omega
      · right; right; right; right
        simp [stream_fill, h, h0]
    · left
      simp [stream_fill, h]
      omega
  | r :: rest0, size => by
    by_cases h : size < B
    · by_cases hr0 : r = 0
      · refine ⟨[], rest0, by simp, ?_⟩
        by_cases h0 : size = 0
        · right; right; right; left
          simp [stream_fill, h, hr0, h0]
          omega
        · right; right; right; right
          simp [stream_fill, h, hr0, h0]
      · by_cases hrh : r = OV_HOLE
        · refine ⟨[], rest0, by simp, ?_⟩
          right; left
          have hh : OV_HOLE ≠ 0 := by decide
          simp [stream_fill, h, hrh, hh]
        · by_cases hrb : r = OV_EBADLINK
          · refine ⟨[], rest0, by simp, ?_⟩
            right; right; left
            have hb0 : OV_EBADLINK ≠ 0 := by decide
            have hbh : OV_EBADLINK ≠ OV_HOLE := by decide
            simp [stream_fill, h, hrb, hb0, hbh]
          · obtain ⟨pre, rest, hpre, hcases⟩ := stream_fill_spec B rest0 (size + r)
            have hstep : stream_fill B (r :: rest0) size = stream_fill B rest0 (size + r) := by
              simp [stream_fill, h, hr0, hrh, hrb]
            have hsum : size + (r :: pre).sum = size + r + pre.sum := by
              simp [List.sum_cons]
              ring
            refine ⟨r :: pre, rest, ?_, ?_⟩
            · intro x hx
              rcases List.mem_cons.mp hx with rfl | hx
              · exact ⟨hr0, hrh, hrb⟩
              · exact hpre x hx
            · rw [hstep, hsum]
              rcases hcases with ⟨a, b, c⟩ | ⟨a, b, c⟩ | ⟨a, b, c⟩ | ⟨a, b, c, d⟩ | ⟨a, b, c, d⟩
              · left
                exact ⟨by simp [a], b, c⟩
              · right; left
                exact ⟨by simp [a], b, c⟩
              · right; right; left
                exact ⟨by simp [a], b, c⟩
              · right; right; right; left
                refine ⟨?_, b, c, d⟩
                rcases a with a | ⟨a, a2⟩
                · left
                  simp [a]
                · right
                  exact ⟨by simp [a], a2⟩
              · right; right; right; right
                refine ⟨?_, b, c, d⟩
                rcases a with a | ⟨a, a2⟩
                · left
                  simp [a]
                · right
                  exact ⟨by simp [a], a2⟩
    · refine ⟨[], r :: rest0, by simp, ?_⟩
      left
      simp [stream_fill, h]
      omega

/-- C26.  For every engine and decoder script, `stream_loadBuffer` returns
-2, -1, 0 or 1, never more than 1; in particular the guard `ret > 1` of the
LOADING action is false.  Without a stream the value is -1.  With a stream,
let `pre` be the reads that were added to the byte count (none of them 0,
`OV_HOLE` or `OV_EBADLINK`): the value is 0 when the count reached
`music_bufSize` (the bytes are uploaded) or the next read was `OV_HOLE`, -1
when the next read was `OV_EBADLINK`, -2 when the next read was the end of
the stream and the count is 0, and 1 when the next read was the end of the
stream and the count is not 0 (the bytes are uploaded). -/
theorem stream_loadBuffer_return_values (i : Int) (e : MusicEngine) :
    ((stream_loadBuffer i e).1 = -2 ∨ (stream_loadBuffer i e).1 = -1 ∨
      (stream_loadBuffer i e).1 = 0 ∨ (stream_loadBuffer i e).1 = 1) ∧
    ¬ (stream_loadBuffer i e).1 > 1 ∧
    ¬ (stream_loadBuffer 0 (e.setActive 0)).1 > 1 ∧
    (e.rw_loaded = false → (stream_loadBuffer i e).1 = -1) ∧
    (e.rw_loaded = true →
      ∃ pre : List Int, ∃ rest : List Int,
        (∀ r ∈ pre, r ≠ 0 ∧ r ≠ OV_HOLE ∧ r ≠ OV_EBADLINK) ∧
        (stream_loadBuffer i e).2.decoder = rest ∧
        ((e.decoder = pre ++ rest ∧ e.music_bufSize ≤ pre.sum ∧
            (stream_loadBuffer i e).1 = 0 ∧
            (stream_loadBuffer i e).2.calls = e.calls ++ [MusicCall.BufferData i pre.sum]) ∨
         (e.decoder = pre ++ OV_HOLE :: rest ∧ pre.sum < e.music_bufSize ∧
            (stream_loadBuffer i e).1 = 0 ∧ (stream_loadBuffer i e).2.calls = e.calls) ∨
         (e.decoder = pre ++ OV_EBADLINK :: rest ∧ pre.sum < e.music_bufSize ∧
            (stream_loadBuffer i e).1 = -1 ∧ (stream_loadBuffer i e).2.calls = e.calls) ∨
         ((e.decoder = pre ++ 0 :: rest ∨ (e.decoder = pre ∧ rest = [])) ∧
            pre.sum < e.music_bufSize ∧ pre.sum = 0 ∧
            (stream_loadBuffer i e).1 = -2 ∧ (stream_loadBuffer i e).2.calls = e.calls) ∨
         ((e.decoder = pre ++ 0 :: rest ∨ (e.decoder = pre ∧ rest = [])) ∧
            pre.sum < e.music_bufSize ∧ pre.sum ≠ 0 ∧
            (stream_loadBuffer i e).1 = 1 ∧
            (stream_loadBuffer i e).2.calls = e.calls ++ [MusicCall.BufferData i pre.sum]))) := by
  have hle : ∀ (j : Int) (x : MusicEngine), ¬ (stream_loadBuffer j x).1 > 1 := by
    intro j x
    rcases (stream_loadBuffer_ret j x).1 with h | h | h | h <;> omega
  refine ⟨(stream_loadBuffer_ret i e).1, hle i e, hle 0 _, ?_, ?_⟩
  · intro hrw
    simp [stream_loadBuffer, hrw]
  · intro hrw
    obtain ⟨pre, rest, hpre, hcases⟩ := stream_fill_spec e.music_bufSize e.decoder 0
    refine ⟨pre, rest, hpre, ?_⟩
    simp only [zero_add] at hcases
    rw [stream_loadBuffer_eq]
    simp only [hrw, if_true, stream_loadBuffer_calls]
    rcases hcases with ⟨a, b, c⟩ | ⟨a, b, c⟩ | ⟨a, b, c⟩ | ⟨a, b, c, d⟩ | ⟨a, b, c, d⟩
    · rw [c]
      exact ⟨rfl, Or.inl ⟨a, b, rfl, rfl⟩⟩
    · rw [c]
      exact ⟨rfl, Or.inr (Or.inl ⟨a, b, rfl, by simp⟩)⟩
    · rw [c]
      exact ⟨rfl, Or.inr (Or.inr (Or.inl ⟨a, b, rfl, by simp⟩))⟩
    · rw [d]
      exact ⟨rfl, Or.inr (Or.inr (Or.inr (Or.inl ⟨a, b, c, rfl, by simp⟩)))⟩
    · rw [d]
      exact ⟨rfl, Or.inr (Or.inr (Or.inr (Or.inr ⟨a, b, c, rfl, rfl⟩)))⟩

/-! ## The free stack stays in bounds -/

theorem sound_al_updateVoice_push (v : alVoice) (st : SoundState) :
    (sound_al_updateVoice v st).2.source_stack.length = st.source_stack.length ∧
    (sound_al_updateVoice v st).2.source_nstack = st.source_nstack +
      (if v.source ≠ 0 ∧ alGetSourceState st.al v.source = ALState.AL_STOPPED then 1 else 0) := by
  unfold sound_al_updateVoice
  split_ifs <;> simp_all

theorem sound_update_pushes_spec (l : List alVoice) (st : SoundState) :
    ∀ n : Nat, st.source_nstack = n → n + l.length ≤ st.source_stack.length →
    (∀ i ∈ sound_update_pushes l st, 0 ≤ i ∧ i < st.source_stack.length) ∧
    (sound_update_loop l st).2.source_nstack
      = st.source_nstack + (sound_update_pushes l st).length := by
  induction l, st using sound_update_loop.induct with
  | case1 st =>
    intro n _ _
    simp [sound_update_pushes, sound_update_loop]
  | case2 v st r hrem =>
    intro n hn hlen
    simp only [r] at hrem
    obtain ⟨_, h2⟩ := sound_al_updateVoice_push v st
    simp only [List.length_singleton] at hlen
    constructor
    · intro i hi
      simp only [sound_update_pushes, hrem, if_true] at hi
      split_ifs at hi <;> simp at hi
      omega
    · simp only [sound_update_pushes, sound_update_loop, hrem, if_true, h2]
      split_ifs <;> simp
  | case3 v st r hrem st2 s rest2 ih =>
    intro n hn hlen
    simp only [List.length_cons] at hlen
    simp only [st2, r] at ih hrem
    obtain ⟨h1, h2⟩ := sound_al_updateVoice_push v st
    have ih2 := ih (n + (if v.source ≠ 0 ∧ alGetSourceState st.al v.source = ALState.AL_STOPPED
          then 1 else 0))
        (by simp only [h2, hn]; split_ifs <;> simp)
        (by simp only [h1]; split_ifs <;> omega)
    simp only [h1] at ih2
    constructor
    · intro i hi
      simp only [sound_update_pushes, hrem, if_true, List.mem_append] at hi
      rcases hi with hi | hi
      · split_ifs at hi <;> simp at hi
        omega
      · exact ih2.1 i hi
    · simp only [sound_update_pushes, sound_update_loop, hrem, if_true, List.length_append]
      rw [ih2.2]
      simp only [h2]
      split_ifs <;> first | (simp; done) | (simp; omega)
  | case4 v rest st r hkeep ih =>
    intro n hn hlen
    simp only [List.length_cons] at hlen
    simp only [r] at ih hkeep
    obtain ⟨h1, h2⟩ := sound_al_updateVoice_push v st
    have hm : (sound_al_updateVoice v st).2.source_nstack = n := by
      have hspec := sound_al_updateVoice_spec v st n hn (by omega)
      obtain ⟨m, hm1, _, _, _, _, _, _, _, _, hm2⟩ := hspec
      rw [hm1, (hm2 hkeep).1]
    have ih2 := ih n hm (by simp only [h1]; omega)
    simp only [h1] at ih2
    constructor
    · intro i hi
      simp only [sound_update_pushes, hkeep, if_false, List.mem_append] at hi
      rcases hi with hi | hi
      · split_ifs at hi <;> simp at hi
        omega
      · exact ih2.1 i hi
    · simp only [sound_update_pushes, sound_update_loop, hkeep, if_false, List.length_append]
      rw [ih2.2, h2]
      split_ifs <;> first | (simp; done) | (simp; omega)

/-- C28.  Let `st` be the state after any sequence of calls (play,
positional play, position update, stop, stop all, the per-tick update, group
creation, group play, group stop) and of playback-state changes made by the
backend, from the state `sound_al_init` leaves.  Then
`0 <= source_nstack <= source_mstack`.  Every write
`source_stack[source_nstack] = v->source` of the next per-tick update, at tick
`t`, happens at an index in `0 .. source_mstack - 1`, and with sound enabled
the count grows in that update by the number of those writes.  A pop does
nothing when the count is not positive; otherwise it reads the index
`source_nstack - 1`, which is inside the stack and below the count, and
leaves the count one lower. -/
theorem source_stack_stays_in_bounds (handles : List Nat) (sounds : List alSound) (efx : Bool)
    (ops : List SoundOp) (t : Nat) (st : SoundState)
    (hst : st = run (sound_al_init handles sounds efx) ops) :
    0 ≤ st.source_nstack ∧ st.source_nstack ≤ st.source_mstack ∧
    (∀ i ∈ sound_update_pushes (sound_al_update t st).voice_active (sound_al_update t st),
      0 ≤ i ∧ i < st.source_mstack) ∧
    (st.sound_disabled = false →
      (sound_update t st).source_nstack = st.source_nstack +
        (sound_update_pushes (sound_al_update t st).voice_active
          (sound_al_update t st)).length) ∧
    (st.source_nstack ≤ 0 → sound_al_getSource st = (0, st)) ∧
    (0 < st.source_nstack →
      (st.source_nstack - 1).toNat < st.source_stack.length ∧
      ((st.source_nstack - 1).toNat : Int) < st.source_nstack ∧
      (sound_al_getSource st).1 = st.source_stack.getD (st.source_nstack - 1).toNat 0 ∧
      (sound_al_getSource st).2.source_nstack = st.source_nstack - 1) := by
  obtain ⟨⟨n, hn, hle⟩, _⟩ := run_owners ops _ (sound_al_init_wf handles sounds efx)
  rw [← hst] at hn hle
  obtain ⟨s1, s2, s3, _, _, _⟩ := sound_al_update_shape t st
  have hlen : n + (sound_al_update t st).voice_active.length
      ≤ (sound_al_update t st).source_stack.length := by
    have : (sound_al_update t st).voice_active.length = st.voice_active.length := by
      have := congrArg List.length s3
      simpa using this
    rw [this, s2]
    omega
  have hp := sound_update_pushes_spec (sound_al_update t st).voice_active (sound_al_update t st)
    n (by rw [s1, hn]) hlen
  refine ⟨by omega, ?_, ?_, ?_, ?_, ?_⟩
  · unfold SoundState.source_mstack
    omega
  · intro i hi
    have := hp.1 i hi
    rw [s2] at this
    exact this
  · intro hen
    simp only [sound_update, hen, Bool.false_eq_true, if_false]
    rw [hp.2, s1]
  · intro h0
    simp [sound_al_getSource, h0]
  · intro h0
    have h1 : ¬ st.source_nstack ≤ 0 := by omega
    refine ⟨by omega, by omega, ?_, ?_⟩ <;> simp [sound_al_getSource, h1]

/-- Witness for C28: two voices were played on two sources and stopped; the
next update writes at index 0 of a stack of 2. -/
theorem source_stack_stays_in_bounds_witness :
    twoStoppedVoices = run (sound_al_init [11, 12] [⟨101⟩] false)
      [SoundOp.play 0, SoundOp.play 0, SoundOp.stopAll] ∧
    twoStoppedVoices.source_nstack = 0 ∧ twoStoppedVoices.source_mstack = 2 ∧
    sound_update_pushes (sound_al_update 0 twoStoppedVoices).voice_active
      (sound_al_update 0 twoStoppedVoices) = [0] ∧
    (∀ i ∈ sound_update_pushes (sound_al_update 0 twoStoppedVoices).voice_active
        (sound_al_update 0 twoStoppedVoices),
      0 ≤ i ∧ i < twoStoppedVoices.source_mstack) :=
  ⟨rfl, by decide, by decide, by decide,
    (source_stack_stays_in_bounds [11, 12] [⟨101⟩] false
      [SoundOp.play 0, SoundOp.play 0, SoundOp.stopAll] 0 twoStoppedVoices rfl).2.2.1⟩

/-! ## The fill loop of `stream_loadBuffer` ends -/

theorem stream_fill_loop_spec (B : Int) : ∀ (fuel : Nat) (dec : Nat → Int → Int) (size : Int),
    0 ≤ size → size ≤ B → (B - size).toNat ≤ fuel →
    (∀ k req, 0 < req → dec k req = 0 ∨ dec k req = OV_HOLE ∨ dec k req = OV_EBADLINK
      ∨ (0 < dec k req ∧ dec k req ≤ req)) →
    ∃ (ret : Int) (up : Option Int) (reads : Nat) (sizes : List Int),
      stream_fill_loop B fuel dec size = some (ret, up, reads, sizes) ∧
      (reads : Int) ≤ B - size ∧
      (∀ s ∈ sizes, size ≤ s ∧ s ≤ B) ∧
      (ret = -2 ∨ ret = -1 ∨ ret = 0 ∨ ret = 1) ∧
      (ret < 0 → up = none) ∧
      (ret = 0 → up = none ∨ up = some B) ∧
      (ret = 1 → ∃ s, up = some s ∧ size ≤ s ∧ 1 ≤ s ∧ s ≤ B)
  | 0, dec, size, h0, hB, hf, _ => by
    have : ¬ size < B := by omega
    have hsz : size = B := by omega
    refine ⟨0, some size, 0, [size], by simp [stream_fill_loop, this], by simp; omega,
      by simp; omega, by simp, by simp, by simp [hsz], by simp⟩
  | fuel + 1, dec, size, h0, hB, hf, hdec => by
    by_cases hlt : size < B
    · rcases hdec 0 (B - size) (by omega) with hr | hr | hr | hr
      · by_cases hs0 : size = 0
        · subst hs0
          simp only [sub_zero] at hr hlt
          refine ⟨-2, none, 1, [0], by simp [stream_fill_loop, hlt, hr],
            by simp; omega, by simp; omega, by simp, by simp, by simp, by simp⟩
        · refine ⟨1, some size, 1, [size], by simp [stream_fill_loop, hlt, hr, hs0],
            by simp; omega, by simp; omega, by simp, by simp, by simp, ?_⟩
          intro _
          exact ⟨size, rfl, le_refl _, by omega, by omega⟩
      · have hh : OV_HOLE ≠ 0 := by decide
        refine ⟨0, none, 1, [size], by simp [stream_fill_loop, hlt, hr, hh],
          by simp; omega, by simp; omega, by simp, by simp, by simp, by simp⟩
      · have hb0 : OV_EBADLINK ≠ 0 := by decide
        have hbh : OV_EBADLINK ≠ OV_HOLE := by decide
        refine ⟨-1, none, 1, [size], by simp [stream_fill_loop, hlt, hr, hb0, hbh],
          by simp; omega, by simp; omega, by simp, by simp, by simp, by simp⟩
      · obtain ⟨hpos, hle⟩ := hr
        have hr0 : dec 0 (B - size) ≠ 0 := by omega
        have hrh : dec 0 (B - size) ≠ OV_HOLE := by
          intro h
          rw [h] at hpos
          exact absurd hpos (by decide)
        have hrb : dec 0 (B - size) ≠ OV_EBADLINK := by
          intro h
          rw [h] at hpos
          exact absurd hpos (by decide)
        obtain ⟨ret, up, reads, sizes, e1, e2, e3, e4, e5, e6, e7⟩ :=
          stream_fill_loop_spec B fuel (fun k => dec (k + 1)) (size + dec 0 (B - size))
            (by omega) (by omega) (by omega) (fun k req hreq => hdec (k + 1) req hreq)
        refine ⟨ret, up, reads + 1, size :: sizes, ?_, ?_, ?_, e4, e5, e6, ?_⟩
        · simp [stream_fill_loop, hlt, hr0, hrh, hrb, e1]
        · push_cast
          omega
        · intro s hs
          rcases List.mem_cons.mp hs with rfl | hs
          · exact ⟨le_refl _, hB⟩
          · have := e3 s hs
            omega
        · intro h1
          obtain ⟨s, a, b, c, d⟩ := e7 h1
          exact ⟨s, a, by omega, c, d⟩
    · have hsz : size = B := by omega
      refine ⟨0, some size, 0, [size], by simp [stream_fill_loop, hlt], by simp; omega,
        by simp; omega, by simp, by simp, by simp [hsz], by simp⟩

theorem stream_fill_loop_script (B : Int) : ∀ (l : List Int) (size : Int) (fuel : Nat),
    l.length + 1 ≤ fuel →
    (stream_fill_loop B fuel (scriptDecoder l) size).map (fun x => (x.1, x.2.1))
      = some ((stream_fill B l size).1, (stream_fill B l size).2.1)
  | [], size, 0, h => by simp at h
  | [], size, fuel + 1, _ => by
    have hhead : scriptDecoder [] 0 (B - size) = 0 := by simp [scriptDecoder]
    rw [stream_fill_loop, stream_fill]
    simp only [hhead]
    split_ifs <;> simp
  | r :: rest, size, 0, h => by simp at h
  | r :: rest, size, fuel + 1, h => by
    have hshift : (fun k => scriptDecoder (r :: rest) (k + 1)) = scriptDecoder rest := by
      funext k req
      simp [scriptDecoder]
    have hhead : scriptDecoder (r :: rest) 0 (B - size) = r := by simp [scriptDecoder]
    have ih := stream_fill_loop_script B rest (size + r) fuel (by simp at h; omega)
    rw [stream_fill_loop, stream_fill]
    simp only [hhead, hshift]
    split_ifs
    · simp
    · simp
    · simp
    · simp
    · rw [Option.map_map]
      exact ih
    · simp

/-- C29.  Let the buffer size `B` be non-negative and let every read asked
for a positive amount return 0, `OV_HOLE`, `OV_EBADLINK` or a positive count
of at most that amount.  Then with room for `B` reads (or more) the fill loop
of `stream_loadBuffer` comes to an end: it makes at most `B` reads, `size`
stays within `0..B` at every loop test, the value returned is -2, -1, 0 or 1,
nothing is uploaded on a negative value, on 0 either nothing is uploaded (a
hole) or exactly `B` bytes are, and on 1 between 1 and `B` bytes are uploaded.
On a decoder that returns the entries of a list and then 0, the loop gives
the return value and upload of `stream_fill`. -/
theorem stream_fill_terminates (B : Int) (dec : Nat → Int → Int) (fuel : Nat) (l : List Int)
    (hB : 0 ≤ B) (hfuel : B.toNat ≤ fuel)
    (hdec : ∀ k req, 0 < req → dec k req = 0 ∨ dec k req = OV_HOLE ∨ dec k req = OV_EBADLINK
      ∨ (0 < dec k req ∧ dec k req ≤ req)) :
    (∃ (ret : Int) (up : Option Int) (reads : Nat) (sizes : List Int),
      stream_fill_loop B fuel dec 0 = some (ret, up, reads, sizes) ∧
      (reads : Int) ≤ B ∧
      (∀ s ∈ sizes, 0 ≤ s ∧ s ≤ B) ∧
      (ret = -2 ∨ ret = -1 ∨ ret = 0 ∨ ret = 1) ∧
      (ret < 0 → up = none) ∧
      (ret = 0 → up = none ∨ up = some B) ∧
      (ret = 1 → ∃ s, up = some s ∧ 1 ≤ s ∧ s ≤ B)) ∧
    (stream_fill_loop B (l.length + 1) (scriptDecoder l) 0).map (fun x => (x.1, x.2.1))
      = some ((stream_fill B l 0).1, (stream_fill B l 0).2.1) := by
  constructor
  · obtain ⟨ret, up, reads, sizes, e1, e2, e3, e4, e5, e6, e7⟩ :=
      stream_fill_loop_spec B fuel dec 0 (le_refl _) hB (by simpa using hfuel) hdec
    refine ⟨ret, up, reads, sizes, e1, by simpa using e2, e3, e4, e5, e6, ?_⟩
    intro h1
    obtain ⟨s, a, _, c, d⟩ := e7 h1
    exact ⟨s, a, c, d⟩
  · exact stream_fill_loop_script B l 0 (l.length + 1) (le_refl _)

/-- Witness for C29: reads of at most 3 bytes fill a buffer of 8 in three
reads; with a buffer of 20 the stream ends after 15 bytes, at the sixth
read. -/
theorem stream_fill_terminates_witness :
    (0 : Int) ≤ 8 ∧ (8 : Int).toNat ≤ 8 ∧
    stream_fill_loop 8 8 threeByteDecoder 0 = some (0, some 8, 3, [0, 3, 6, 8]) ∧
    stream_fill_loop 20 20 threeByteDecoder 0 = some (1, some 15, 6, [0, 3, 6, 9, 12, 15]) ∧
    (∃ (ret : Int) (up : Option Int) (reads : Nat) (sizes : List Int),
      stream_fill_loop 8 8 threeByteDecoder 0 = some (ret, up, reads, sizes) ∧
      (reads : Int) ≤ 8 ∧
      (∀ s ∈ sizes, 0 ≤ s ∧ s ≤ 8) ∧
      (ret = -2 ∨ ret = -1 ∨ ret = 0 ∨ ret = 1) ∧
      (ret < 0 → up = none) ∧
      (ret = 0 → up = none ∨ up = some 8) ∧
      (ret = 1 → ∃ s, up = some s ∧ 1 ≤ s ∧ s ≤ 8)) :=
  ⟨by decide, by decide, by decide, by decide,
    (stream_fill_terminates 8 threeByteDecoder 8 [] (by decide) (by decide) (by
      intro k req hreq
      unfold threeByteDecoder
      split_ifs
      · right; right; right
        omega
      · left
        rfl)).1⟩

/-! ## The speed gain -/

end Naev
